import Mathlib

/-!
The package `otelsqs`: tracing middleware for SQS publishing.

A shallow embedding of `github.com/aws/aws-sdk-go-v2/service/sqs/otelsqs`
(`mw.go`, `propagation.go`) and of the collaborators it calls: the Go standard
library functions `net/url.Parse` and `path.Base`, the recording span of the
OpenTelemetry SDK, and the initialize step of a smithy-go middleware stack.
`StartTraceFromSQSMessage` of the package `awslambda` (`trace.go`) is embedded
in a section of its own.

Conventions of the embedding.

* Go strings are Lean strings, scanned character by character.  Every
  delimiter the code looks for is ASCII, so the positions found are those the
  byte-wise Go code finds.  A percent-escape decodes to a byte; the string of
  the decoded bytes is read as UTF-8, a byte outside a well-formed sequence
  being read as U+FFFD, the way Go reads the runes of a string.
* A Go pointer field is an `Option`, `none` being nil.  Dereferencing nil is a
  panic; a function that can panic returns `Except`, the error carrying the
  state reached, and the deferred calls run on a panic as on a return, with one
  difference: the `exception` event that the `End` of the SDK records for the
  panic it recovers is not modelled.  Such an event arises only when the
  reconciliation panics on a result entry without identifier; a result
  without such entries is called well-formed (`ResultWellFormed`).
* A span is named by its position in the list of spans of the tracer.  The
  operations of a span follow the SDK recording span: one value per attribute
  key, a status that is only raised (Unset, Error, Ok), nothing changes after
  `End`.  The SDK limits on the number of attributes and events are not
  modelled.
* A Go map is a list of bindings read with `List.lookup`; an assignment puts
  the new binding in front, where it hides an older one for the same key.
-/

set_option autoImplicit false

/-! ## Go standard library: `net/url.Parse` and `path.Base`

The functions follow `net/url/url.go` and `path/path.go` of Go 1.22, error for
error; of the parsed URL only the path is read by the package. -/

namespace GoUrl

/-- Which component `unescape` is validating (`encoding` in net/url). -/
inductive Encoding
  | encodePath
  | encodeHost
  | encodeZone
  | encodeUserPassword
  | encodeFragment
  deriving DecidableEq, Repr

/-- The fields of `url.URL` that `url.Parse` fills in. -/
structure URL where
  Scheme : String := ""
  Opaque : String := ""
  UserInfo : Option String := none
  Host : String := ""
  Path : String := ""
  RawQuery : String := ""
  Fragment : String := ""
  deriving DecidableEq, Repr

/-- Go: `stringContainsCTLByte`, a byte below 0x20 or equal to 0x7f. -/
def stringContainsCTLByte (s : List Char) : Bool :=
  s.any fun c => decide (c.toNat < 0x20) || decide (c.toNat = 0x7f)

/-- Go: `ishex`. -/
def ishex (c : Char) : Bool :=
  c.isDigit || (decide ('a' ≤ c) && decide (c ≤ 'f')) || (decide ('A' ≤ c) && decide (c ≤ 'F'))

/-- Go: `unhex`. -/
def unhex (c : Char) : Nat :=
  if c.isDigit then c.toNat - '0'.toNat
  else if decide ('a' ≤ c) && decide (c ≤ 'f') then c.toNat - 'a'.toNat + 10
  else if decide ('A' ≤ c) && decide (c ≤ 'F') then c.toNat - 'A'.toNat + 10
  else 0

/-- Go: `shouldEscape(c, encodeHost)`: true for the ASCII characters a host
name may not contain literally. -/
def shouldEscapeHost (c : Char) : Bool :=
  if c.isAlphanum then false
  else if c ∈ ['!', '$', '&', '\'', '(', ')', '*', '+', ',', ';', '=', ':', '[', ']', '<', '>', '"'] then false
  else if c ∈ ['-', '_', '.', '~'] then false
  else true

/-- The validation pass of Go's `unescape`: `false` when the function returns
an `EscapeError` or `InvalidHostError`. -/
def unescapeValid (mode : Encoding) : List Char → Bool
  | [] => true
  | '%' :: rest =>
    match rest with
    | a :: b :: tl =>
      if !(ishex a && ishex b) then false
      else if mode = .encodeHost && decide (unhex a < 8) && !(a = '2' && b = '5') then false
      else if mode = .encodeZone && !(a = '2' && b = '5') && !(unhex a * 16 + unhex b = 0x20) &&
          shouldEscapeHost (Char.ofNat (unhex a * 16 + unhex b)) then false
      else unescapeValid mode tl
    | _ => false
  | c :: rest =>
    if (mode = .encodeHost || mode = .encodeZone) && decide (c.toNat < 0x80) && shouldEscapeHost c
    then false
    else unescapeValid mode rest

/-- The bytes that a Go string holds for the character `c`: its UTF-8
encoding. -/
def utf8Bytes (c : Char) : List Nat :=
  if c.toNat < 0x80 then [c.toNat]
  else if c.toNat < 0x800 then [0xC0 + c.toNat / 64, 0x80 + c.toNat % 64]
  else if c.toNat < 0x10000 then
    [0xE0 + c.toNat / 4096, 0x80 + c.toNat / 64 % 64, 0x80 + c.toNat % 64]
  else
    [0xF0 + c.toNat / 262144, 0x80 + c.toNat / 4096 % 64, 0x80 + c.toNat / 64 % 64,
     0x80 + c.toNat % 64]

/-- Go: the tables `first` and `acceptRanges` of `unicode/utf8` for a byte of
0x80 or more: the size of the sequence that the byte starts and the range of
its second byte; `none` for a byte that starts no sequence. -/
def leadByte (b0 : Nat) : Option (Nat × Nat × Nat) :=
  if 0xC2 ≤ b0 ∧ b0 ≤ 0xDF then some (2, 0x80, 0xBF)
  else if b0 = 0xE0 then some (3, 0xA0, 0xBF)
  else if 0xE1 ≤ b0 ∧ b0 ≤ 0xEC then some (3, 0x80, 0xBF)
  else if b0 = 0xED then some (3, 0x80, 0x9F)
  else if b0 = 0xEE ∨ b0 = 0xEF then some (3, 0x80, 0xBF)
  else if b0 = 0xF0 then some (4, 0x90, 0xBF)
  else if 0xF1 ≤ b0 ∧ b0 ≤ 0xF3 then some (4, 0x80, 0xBF)
  else if b0 = 0xF4 then some (4, 0x80, 0x8F)
  else none

/-- Go: `utf8.DecodeRuneInString` on the string of the bytes `b0 :: rest`: the
rune and its width, `U+FFFD` with width 1 for a byte that is not part of a
well-formed sequence. -/
def decodeRune (b0 : Nat) (rest : List Nat) : Nat × Nat :=
  if b0 < 0x80 then (b0, 1)
  else
    match leadByte b0 with
    | none => (0xFFFD, 1)
    | some (sz, lo, hi) =>
      if rest.length + 1 < sz then (0xFFFD, 1)
      else
        match rest with
        | [] => (0xFFFD, 1)
        | b1 :: rest1 =>
          if b1 < lo ∨ hi < b1 then (0xFFFD, 1)
          else if sz ≤ 2 then (b0 % 32 * 64 + b1 % 64, 2)
          else
            match rest1 with
            | [] => (0xFFFD, 1)
            | b2 :: rest2 =>
              if b2 < 0x80 ∨ 0xBF < b2 then (0xFFFD, 1)
              else if sz ≤ 3 then (b0 % 16 * 4096 + b1 % 64 * 64 + b2 % 64, 3)
              else
                match rest2 with
                | [] => (0xFFFD, 1)
                | b3 :: _ =>
                  if b3 < 0x80 ∨ 0xBF < b3 then (0xFFFD, 1)
                  else (b0 % 8 * 262144 + b1 % 64 * 4096 + b2 % 64 * 64 + b3 % 64, 4)

/-- The characters of the Go string with the given bytes, as a `range` loop
over the string reads them; `fuel` bounds the number of runes. -/
def decodeRunes : Nat → List Nat → List Char
  | 0, _ => []
  | _, [] => []
  | fuel + 1, b0 :: rest =>
    Char.ofNat (decodeRune b0 rest).1 :: decodeRunes fuel (rest.drop ((decodeRune b0 rest).2 - 1))

/-- The decoding pass of Go's `unescape` (no mode used here turns `+` into a
space): every `%XY` becomes the byte `XY`, every other character stays as
the bytes it has in the string. -/
def unescapeDecode : List Char → List Nat
  | [] => []
  | '%' :: a :: b :: tl => (unhex a * 16 + unhex b) :: unescapeDecode tl
  | c :: rest => utf8Bytes c ++ unescapeDecode rest

/-- Go: `unescape(s, mode)`; `none` stands for the returned error.  A string
without `%` is returned as it is; otherwise the result is the string of the
decoded bytes. -/
def unescape (s : List Char) (mode : Encoding) : Option (List Char) :=
  if unescapeValid mode s then
    if '%' ∈ s then some (decodeRunes (unescapeDecode s).length (unescapeDecode s)) else some s
  else none

/-- The scan of Go's `getScheme`; `acc` is `rawURL[:i]`.  `none` is the error
"missing protocol scheme". -/
def getSchemeLoop (rawURL : List Char) : List Char → List Char → Option (List Char × List Char)
  | _, [] => some ([], rawURL)
  | acc, c :: cs =>
    if c.isAlpha then getSchemeLoop rawURL (acc ++ [c]) cs
    else if c.isDigit || c = '+' || c = '-' || c = '.' then
      if acc.isEmpty then some ([], rawURL) else getSchemeLoop rawURL (acc ++ [c]) cs
    else if c = ':' then
      if acc.isEmpty then none else some (acc, cs)
    else some ([], rawURL)

/-- Go: `getScheme(rawURL)`, giving `(scheme, path)`. -/
def getScheme (rawURL : List Char) : Option (List Char × List Char) :=
  getSchemeLoop rawURL [] rawURL

/-- Go: `strings.Cut(s, sep)` for a one-byte separator: the text before the
first `sep` and the text after it. -/
def cut (sep : Char) (s : List Char) : List Char × List Char :=
  (s.takeWhile (· != sep), (s.dropWhile (· != sep)).drop 1)

/-- Go: `strings.LastIndex(s, sep) >= 0` split: the text before the last `sep`
and the text after it, or `none` when `sep` does not occur. -/
def cutLast (sep : Char) (s : List Char) : Option (List Char × List Char) :=
  if sep ∈ s then
    some (((s.reverse.dropWhile (· != sep)).drop 1).reverse, (s.reverse.takeWhile (· != sep)).reverse)
  else none

/-- Go: `validOptionalPort`. -/
def validOptionalPort : List Char → Bool
  | [] => true
  | c :: ds => c = ':' && ds.all Char.isDigit

/-- Go: `validUserinfo`. -/
def validUserinfo (s : List Char) : Bool :=
  s.all fun r => r.isAlphanum ||
    r ∈ ['-', '.', '_', ':', '~', '!', '$', '&', '\'', '(', ')', '*', '+', ',', ';', '=', '%', '@']

/-- Position of the first occurrence of `%25` in `s`, as the split around it:
the text before it and the text from it on. -/
def splitZone : List Char → Option (List Char × List Char)
  | [] => none
  | c :: rest =>
    if ('%' :: '2' :: '5' :: []).isPrefixOf (c :: rest) then some ([], c :: rest)
    else (splitZone rest).map fun p => (c :: p.1, p.2)

/-- Go: `parseHost`; `none` stands for the returned error. -/
def parseHost (host : List Char) : Option (List Char) :=
  if host.head? = some '[' then
    match cutLast ']' host with
    | none => none
    | some (beforeBracket, colonPort) =>
      if !validOptionalPort colonPort then none
      else
        match splitZone beforeBracket with
        | some (h1, zoneToBracket) =>
          match unescape h1 .encodeHost, unescape zoneToBracket .encodeZone,
              unescape (']' :: colonPort) .encodeHost with
          | some a, some b, some c => some (a ++ b ++ c)
          | _, _, _ => none
        | none => unescape host .encodeHost
  else
    match cutLast ':' host with
    | some (_, afterColon) =>
      if !validOptionalPort (':' :: afterColon) then none else unescape host .encodeHost
    | none => unescape host .encodeHost

/-- Go: `parseAuthority`, giving `(user, host)`; `none` stands for the error. -/
def parseAuthority (authority : List Char) : Option (Option (List Char) × List Char) :=
  match cutLast '@' authority with
  | none => (parseHost authority).map fun h => (none, h)
  | some (userinfo, hostPart) =>
    match parseHost hostPart with
    | none => none
    | some h =>
      if !validUserinfo userinfo then none
      else if ':' ∈ userinfo then
        match unescape (cut ':' userinfo).1 .encodeUserPassword,
            unescape (cut ':' userinfo).2 .encodeUserPassword with
        | some u, some p => some (some (u ++ ':' :: p), h)
        | _, _ => none
      else
        (unescape userinfo .encodeUserPassword).map fun u => (some u, h)

/-- Go: `parse(rawURL, false)`, the body of `url.Parse` before the fragment
is attached; `none` stands for the returned error. -/
def parseNoFragment (rawURL : List Char) : Option URL :=
  if stringContainsCTLByte rawURL then none
  else if rawURL = ['*'] then some { Path := "*" }
  else
    match getScheme rawURL with
    | none => none
    | some (scheme, rest0) =>
      let scheme := scheme.map Char.toLower
      let rest :=
        if rest0.getLast? = some '?' && rest0.count '?' = 1 then rest0.dropLast
        else (cut '?' rest0).1
      let rawQuery :=
        if rest0.getLast? = some '?' && rest0.count '?' = 1 then []
        else (cut '?' rest0).2
      if rest.head? ≠ some '/' && !scheme.isEmpty then
        some { Scheme := String.mk scheme, Opaque := String.mk rest, RawQuery := String.mk rawQuery }
      else if rest.head? ≠ some '/' && ':' ∈ (cut '/' rest).1 then none
      else if (!scheme.isEmpty || !(['/', '/', '/'].isPrefixOf rest)) && ['/', '/'].isPrefixOf rest then
        let afterSlashes := rest.drop 2
        let authority := afterSlashes.takeWhile (· != '/')
        let rest := afterSlashes.dropWhile (· != '/')
        match parseAuthority authority with
        | none => none
        | some (user, host) =>
          match unescape rest .encodePath with
          | none => none
          | some path =>
            some { Scheme := String.mk scheme, UserInfo := user.map String.mk, Host := String.mk host,
                   Path := String.mk path, RawQuery := String.mk rawQuery }
      else
        match unescape rest .encodePath with
        | none => none
        | some path =>
          some { Scheme := String.mk scheme, Path := String.mk path, RawQuery := String.mk rawQuery }

/-- Go: `url.Parse(rawURL)`; `none` stands for a non-nil error. -/
def Parse (rawURL : String) : Option URL :=
  let u := (cut '#' rawURL.data).1
  let frag := (cut '#' rawURL.data).2
  match parseNoFragment u with
  | none => none
  | some url =>
    if frag = [] then some url
    else
      match unescape frag .encodeFragment with
      | none => none
      | some f => some { url with Fragment := String.mk f }

/-- Go: the loop of `path.Base` that strips trailing slashes. -/
def stripTrailingSlashes (p : List Char) : List Char :=
  (p.reverse.dropWhile (· = '/')).reverse

/-- Go: `path[strings.LastIndexByte(path, '/')+1:]`, the text after the last
slash (the whole text when there is none). -/
def afterLastSlash (p : List Char) : List Char :=
  (p.reverse.takeWhile (· != '/')).reverse

/-- Go: `path.Base`. -/
def Base (path : String) : String :=
  if path.data = [] then "."
  else
    let p := afterLastSlash (stripTrailingSlashes path.data)
    if p = [] then "/" else String.mk p

/-! ### The text of an endpoint

The shape of a queue URL, `scheme://host[:port]/dir/.../name[/][?query][#fragment]`,
for the statements about `getQueueName`. -/

/-- A character that stands for itself in a path element: no control character
(below 0x20, or 0x7f) and none of `/`, `?`, `#` and `%`. -/
def isPlainPathChar (c : Char) : Bool :=
  !(decide (c.toNat < 0x20) || decide (c.toNat = 0x7f)) &&
    c != '/' && c != '?' && c != '#' && c != '%'

/-- A character of a host name: a letter, a digit, `-` or `.`. -/
def isHostChar (c : Char) : Bool :=
  c.isAlphanum || c == '-' || c == '.'

/-- A character of a query: no control character and not `#`. -/
def isQueryChar (c : Char) : Bool :=
  !(decide (c.toNat < 0x20) || decide (c.toNat = 0x7f)) && c != '#'

/-- The path `/dir/.../name` followed by `slashes` slashes. -/
def pathText (dirs : List (List Char)) (name : List Char) (slashes : Nat) : List Char :=
  dirs.foldr (fun dir acc => '/' :: (dir ++ acc)) ('/' :: (name ++ List.replicate slashes '/'))

/-- An optional part of the text after the character that introduces it. -/
def optionalText (mark : Char) : Option (List Char) → List Char
  | some text => mark :: text
  | none => []

/-- The text `scheme://host[:port]/dir/.../name[/][?query][#fragment]`. -/
def endpointText (scheme host : List Char) (port : Option (List Char))
    (dirs : List (List Char)) (name : List Char) (slashes : Nat)
    (query fragment : Option (List Char)) : String :=
  String.mk (scheme ++ ':' :: '/' :: '/' :: (host ++ optionalText ':' port) ++
    pathText dirs name slashes ++ optionalText '?' query ++ optionalText '#' fragment)

end GoUrl

/-! ## OpenTelemetry: attributes, status codes and the SDK recording span -/

namespace Otel

/-- Go: `attribute.Value`, for the three value types the package writes. -/
inductive Value
  | STRING (s : String)
  | INT64 (n : Int)
  | BOOL (b : Bool)
  deriving DecidableEq, Repr

/-- Go: `attribute.KeyValue`. -/
structure KeyValue where
  Key : String
  Value : Value
  deriving DecidableEq, Repr

/-- Go: `attribute.String(k, v)`, the same as `attribute.Key(k).String(v)`. -/
def attrString (k v : String) : KeyValue := ⟨k, .STRING v⟩

/-- Go: `attribute.Int(k, n)`, the same as `attribute.Key(k).Int(n)`. -/
def attrInt (k : String) (n : Int) : KeyValue := ⟨k, .INT64 n⟩

/-- Go: `attribute.Bool(k, b)`, the same as `attribute.Key(k).Bool(b)`. -/
def attrBool (k : String) (b : Bool) : KeyValue := ⟨k, .BOOL b⟩

/-- Go: `trace.SpanKind`. -/
inductive SpanKind
  | SpanKindUnspecified
  | SpanKindInternal
  | SpanKindServer
  | SpanKindClient
  | SpanKindProducer
  | SpanKindConsumer
  deriving DecidableEq, Repr

/-- Go: `codes.Code`, with `Unset = 0`, `Error = 1`, `Ok = 2`. -/
inductive Code
  | Unset
  | Error
  | Ok
  deriving DecidableEq, Repr

/-- The numeric value of a status code. -/
def Code.toNat : Code → Nat
  | .Unset => 0
  | .Error => 1
  | .Ok => 2

/-- Go: `sdktrace.Status`. -/
structure Status where
  Code : Code := .Unset
  Description : String := ""
  deriving DecidableEq, Repr

/-- A Go `error` value as a span sees it: the name of its dynamic type and
the text of `Error()`. -/
structure GoError where
  typeStr : String
  msg : String
  deriving DecidableEq, Repr

/-- One `RecordError(err, trace.WithAttributes(attrs...))` call kept by a span:
the error and the attributes handed over with it. -/
structure ErrorEvent where
  err : GoError
  attrs : List KeyValue
  deriving DecidableEq, Repr

/-- The attributes the SDK stores on the `exception` event of a recorded
error: those of the call, then `exception.type` and `exception.message`. -/
def ErrorEvent.Attributes (e : ErrorEvent) : List KeyValue :=
  e.attrs ++ [attrString "exception.type" e.err.typeStr,
              attrString "exception.message" e.err.msg]

/-- The state of one SDK recording span.  `startTime` is the explicit
`trace.WithTimestamp` option (`none`: the SDK reads its clock); `endCalls`
counts the calls of `End`. -/
structure Span where
  name : String
  kind : SpanKind
  parent : Option Nat
  startTime : Option Nat
  attributes : List KeyValue := []
  status : Status := {}
  events : List ErrorEvent := []
  endCalls : Nat := 0
  deriving DecidableEq, Repr

/-- A span keeps one value per key: a key already present takes the new value
in place, a new key goes to the end. -/
def setAttr (kv : KeyValue) : List KeyValue → List KeyValue
  | [] => [kv]
  | a :: rest => if a.Key = kv.Key then kv :: rest else a :: setAttr kv rest

/-- Go: `recordingSpan.SetAttributes`; ignored once the span has ended. -/
def Span.SetAttributes (s : Span) (kvs : List KeyValue) : Span :=
  if s.endCalls ≠ 0 then s
  else { s with attributes := kvs.foldl (fun acc kv => setAttr kv acc) s.attributes }

/-- Go: `recordingSpan.SetStatus`: ignored once the span has ended or when the
status already set has a higher code (Ok over Error over Unset); the
description is kept for Error only. -/
def Span.SetStatus (s : Span) (code : Code) (description : String) : Span :=
  if s.endCalls ≠ 0 then s
  else if s.status.Code.toNat > code.toNat then s
  else { s with status := { Code := code, Description := if code = .Error then description else "" } }

/-- Go: `recordingSpan.RecordError` with a non-nil error; ignored once the
span has ended. -/
def Span.RecordError (s : Span) (err : GoError) (attrs : List KeyValue) : Span :=
  if s.endCalls ≠ 0 then s
  else { s with events := s.events ++ [{ err := err, attrs := attrs }] }

/-- Go: `recordingSpan.End` as a function returns: the span counts the call.
When `End` runs as a deferred call while the function panics, the SDK also
records an `exception` event for the panic it recovers and panics again; this
event is not modelled. -/
def Span.End (s : Span) : Span :=
  { s with endCalls := s.endCalls + 1 }

/-- The span that `tracer.Start` makes: the options of the call, the initial
attributes going through `SetAttributes`. -/
def newSpan (parent : Option Nat) (name : String) (kind : SpanKind) (attrs : List KeyValue)
    (timestamp : Option Nat) : Span :=
  Span.SetAttributes { name := name, kind := kind, parent := parent, startTime := timestamp } attrs

/-- What `tracer.Start` fixes for the life of a span: its name, kind, parent
and start time. -/
def Span.header (s : Span) : String × SpanKind × Option Nat × Option Nat :=
  (s.name, s.kind, s.parent, s.startTime)

/-- A view of a span that `SetAttributes`, `SetStatus` and `RecordError`
leave alone. -/
def Unchanging {β : Type} (g : Span → β) : Prop :=
  (∀ s kvs, g (Span.SetAttributes s kvs) = g s) ∧
  (∀ s c d, g (Span.SetStatus s c d) = g s) ∧
  (∀ s e a, g (Span.RecordError s e a) = g s)

/-- Apply `f` to the element at position `i`. -/
def updateAt (f : Span → Span) : Nat → List Span → List Span
  | _, [] => []
  | 0, s :: rest => f s :: rest
  | i + 1, s :: rest => s :: updateAt f i rest

/-- The spans made through one tracer provider, in the order they were
started (a span is named by its position), and the spans handed to the
exporter, in the order they ended. -/
structure Tracer where
  spans : List Span := []
  exported : List Nat := []
  deriving DecidableEq, Repr

/-- Go: `tracer.Start(ctx, name, opts...)`: the new span is a child of the span
of `ctx` and its initial attributes go through `SetAttributes`. -/
def Tracer.Start (t : Tracer) (parent : Option Nat) (name : String) (kind : SpanKind)
    (attrs : List KeyValue) (timestamp : Option Nat) : Tracer × Nat :=
  ({ t with spans := t.spans ++ [newSpan parent name kind attrs timestamp] }, t.spans.length)

/-- Call `SetAttributes` on span `id`. -/
def Tracer.SetAttributes (t : Tracer) (id : Nat) (kvs : List KeyValue) : Tracer :=
  { t with spans := updateAt (fun s => s.SetAttributes kvs) id t.spans }

/-- Call `SetStatus` on span `id`. -/
def Tracer.SetStatus (t : Tracer) (id : Nat) (code : Code) (description : String) : Tracer :=
  { t with spans := updateAt (fun s => s.SetStatus code description) id t.spans }

/-- Call `RecordError` on span `id`. -/
def Tracer.RecordError (t : Tracer) (id : Nat) (err : GoError) (attrs : List KeyValue) : Tracer :=
  { t with spans := updateAt (fun s => s.RecordError err attrs) id t.spans }

/-- Call `End` on span `id`; the first call hands the span to the exporter. -/
def Tracer.End (t : Tracer) (id : Nat) : Tracer :=
  { spans := updateAt Span.End id t.spans,
    exported :=
      match t.spans[id]? with
      | some s => if s.endCalls = 0 then t.exported ++ [id] else t.exported
      | none => t.exported }

end Otel

/-! ## AWS SDK: the SQS request and response types and the middleware types -/

namespace Sqs

/-- Go: `types.MessageSystemAttributeValue`; a byte is a number below 256 and
a nil slice the empty list. -/
structure MessageSystemAttributeValue where
  DataType : Option String := none
  BinaryListValues : List (List Nat) := []
  BinaryValue : List Nat := []
  StringListValues : List String := []
  StringValue : Option String := none
  deriving DecidableEq, Repr

/-- Go: `types.SendMessageBatchRequestEntry`.  A nil pointer is `none`; a Go
map is a list of bindings read with `List.lookup`, the nil map being `none`. -/
structure SendMessageBatchRequestEntry where
  Id : Option String := none
  MessageBody : Option String := none
  MessageSystemAttributes : Option (List (String × MessageSystemAttributeValue)) := none
  deriving DecidableEq, Repr

/-- Go: `sqs.SendMessageInput`. -/
structure SendMessageInput where
  QueueUrl : Option String := none
  MessageBody : Option String := none
  MessageSystemAttributes : Option (List (String × MessageSystemAttributeValue)) := none
  deriving DecidableEq, Repr

/-- Go: `sqs.SendMessageBatchInput`. -/
structure SendMessageBatchInput where
  QueueUrl : Option String := none
  Entries : List SendMessageBatchRequestEntry := []
  deriving DecidableEq, Repr

/-- Go: `types.SendMessageBatchResultEntry`. -/
structure SendMessageBatchResultEntry where
  Id : Option String := none
  MD5OfMessageBody : Option String := none
  MessageId : Option String := none
  deriving DecidableEq, Repr

/-- Go: `types.BatchResultErrorEntry`. -/
structure BatchResultErrorEntry where
  Code : Option String := none
  Id : Option String := none
  SenderFault : Bool := false
  Message : Option String := none
  deriving DecidableEq, Repr

/-- Go: `sqs.SendMessageOutput`. -/
structure SendMessageOutput where
  MessageId : Option String := none
  SequenceNumber : Option String := none
  deriving DecidableEq, Repr

/-- Go: `sqs.SendMessageBatchOutput`. -/
structure SendMessageBatchOutput where
  Successful : List SendMessageBatchResultEntry := []
  Failed : List BatchResultErrorEntry := []
  deriving DecidableEq, Repr

/-- The dynamic type of `input.Parameters`, as the type switch of the
middleware sees it: a pointer to one of the two publish inputs, or the input
of another operation (named by `op`). -/
inductive Parameters
  | SendMessageInput (params : SendMessageInput)
  | SendMessageBatchInput (params : SendMessageBatchInput)
  | other (op : String)
  deriving DecidableEq, Repr

/-- Go: `middleware.InitializeInput`. -/
structure InitializeInput where
  Parameters : Parameters
  deriving DecidableEq, Repr

/-- The dynamic type of a non-nil `out.Result`. -/
inductive Result
  | SendMessageOutput (res : SendMessageOutput)
  | SendMessageBatchOutput (res : SendMessageBatchOutput)
  | other (op : String)
  deriving DecidableEq, Repr

/-- Go: `middleware.InitializeOutput`; a nil `Result` is `none`. -/
structure InitializeOutput where
  Result : Option Result := none
  deriving DecidableEq, Repr

/-- Go: `middleware.Metadata`, read only through
`awsmiddleware.GetRequestIDMetadata`; the other entries are `rest`. -/
structure Metadata where
  requestID : Option String := none
  rest : List (String × String) := []
  deriving DecidableEq, Repr

/-- Go: `awsmiddleware.GetRequestIDMetadata`, `(id, ok)` as an option. -/
def GetRequestIDMetadata (metadata : Metadata) : Option String := metadata.requestID

/-- The values the middleware reads from its `context.Context`: the value
stored under `spanTimestampKey`, the service id and operation name of the AWS
middleware, and the current span. -/
structure Context where
  spanTimestamp : Option Nat := none
  serviceID : String := ""
  operation : String := ""
  span : Option Nat := none
  deriving DecidableEq, Repr

/-- What `handler.HandleInitialize` returns: `(out, metadata, err)`. -/
structure HandlerResult where
  out : InitializeOutput
  metadata : Metadata
  err : Option Otel.GoError
  deriving DecidableEq, Repr

/-- Go: `middleware.InitializeHandler`, the rest of the pipeline down to the
transport. -/
abbrev InitializeHandler := Context → InitializeInput → HandlerResult

end Sqs

/-! ## Semantic convention attributes (semconv v1.26.0) -/

namespace Semconv

open Otel

def RPCSystemKey : String := "rpc.system"
def RPCMethod (v : String) : KeyValue := attrString "rpc.method" v
def RPCService (v : String) : KeyValue := attrString "rpc.service" v
def MessagingOperationName (v : String) : KeyValue := attrString "messaging.operation.name" v
def MessagingBatchMessageCount (n : Nat) : KeyValue := attrInt "messaging.batch.message_count" n
def MessagingSystemAWSSqs : KeyValue := attrString "messaging.system" "aws_sqs"
def MessagingOperationTypePublish : KeyValue := attrString "messaging.operation.type" "publish"
def MessagingOperationTypeCreate : KeyValue := attrString "messaging.operation.type" "create"
def MessagingDestinationName (v : String) : KeyValue := attrString "messaging.destination.name" v
def NetworkPeerAddress (v : String) : KeyValue := attrString "network.peer.address" v
def MessagingMessageBodySize (n : Nat) : KeyValue := attrInt "messaging.message.body.size" n
def MessagingMessageID (v : String) : KeyValue := attrString "messaging.message.id" v
def AWSRequestID (v : String) : KeyValue := attrString "aws.request_id" v

end Semconv

/-! ## The package `otelsqs` -/

namespace Otelsqs

open Otel Sqs

/-- Go: `SQSSystemAttributesCarrier`. -/
structure SQSSystemAttributesCarrier where
  Attributes : Option (List (String × MessageSystemAttributeValue))
  deriving DecidableEq, Repr

/-- Go: `(*SQSSystemAttributesCarrier).Get`. -/
def SQSSystemAttributesCarrier.Get (c : SQSSystemAttributesCarrier) (key : String) : String :=
  match c.Attributes with
  | none => ""
  | some attributes =>
    match attributes.lookup key with
    | none => ""
    | some val =>
      match val.StringValue with
      | none => ""
      | some sv => sv

/-- Go: `(*SQSSystemAttributesCarrier).Set`.  The nil map is replaced by a
new one; the assignment puts the new binding in front of the bindings of the
map, where it hides an older binding of `key`. -/
def SQSSystemAttributesCarrier.Set (c : SQSSystemAttributesCarrier) (key value : String) :
    SQSSystemAttributesCarrier :=
  let attributes :=
    match c.Attributes with
    | none => []
    | some attributes => attributes
  { Attributes :=
      some ((key, { DataType := some "String", StringValue := some value }) :: attributes) }

/-- Go: `(*SQSSystemAttributesCarrier).Keys`: the keys of the map, each one
once (a hidden binding is not part of the map), in one of the orders in which
Go may range over the map; ranging over the nil map gives nothing. -/
def SQSSystemAttributesCarrier.Keys (c : SQSSystemAttributesCarrier) : List String :=
  match c.Attributes with
  | none => []
  | some attributes => (attributes.map Prod.fst).dedup

/-- Go: `len(c.Attributes)`, the number of keys of the map (0 for the nil
map). -/
def SQSSystemAttributesCarrier.len (c : SQSSystemAttributesCarrier) : Nat :=
  match c.Attributes with
  | none => 0
  | some attributes => (attributes.map Prod.fst).toFinset.card

/-- Go: `c.Attributes[key]` with the `ok` flag, as an option. -/
def SQSSystemAttributesCarrier.entry (c : SQSSystemAttributesCarrier) (key : String) :
    Option MessageSystemAttributeValue :=
  match c.Attributes with
  | none => none
  | some attributes => attributes.lookup key

def KeyAWSErrorCode : String := "aws.error.code"
def KeyAWSErrorSendFault : String := "aws.error.sender_fault"
def KeySQSBatchRequestID : String := "aws.sqs.batch_request_id"

def attrRPCSystemAWSAPI : KeyValue := attrString Semconv.RPCSystemKey "aws-api"
def attrOpSendMessage : KeyValue := Semconv.MessagingOperationName "SendMessage"
def attrOpSendMessageBatch : KeyValue := Semconv.MessagingOperationName "SendMessageBatch"

/-- Go: the middleware function `initializeBefore`: it stores the current
time (`now`) under `spanTimestampKey` and calls the next handler. -/
def initializeBefore {ρ : Type} (now : Nat) (ctx : Context) (input : InitializeInput)
    (handler : Context → InitializeInput → ρ) : ρ :=
  handler { ctx with spanTimestamp := some now } input

/-- Go: `addAttrsFromQueueURL`; the result is the new value of `*attrs`. -/
def addAttrsFromQueueURL (attrs : List KeyValue) (queueURL : Option String) : List KeyValue :=
  match queueURL with
  | some q => attrs ++ [Semconv.MessagingDestinationName q, Semconv.NetworkPeerAddress q]
  | none => attrs

/-- Go: `addAttrsFromMessageBody`; `len(*body)` is the length in bytes. -/
def addAttrsFromMessageBody (attrs : List KeyValue) (body : Option String) : List KeyValue :=
  match body with
  | some b => attrs ++ [Semconv.MessagingMessageBodySize b.utf8ByteSize]
  | none => attrs

/-- Go: `defaultSpanName`. -/
def defaultSpanName (serviceID operation : String) : String :=
  if operation ≠ "" then serviceID ++ "." ++ operation else serviceID

/-- Go: `getQueueName`. -/
def getQueueName (queueURL : String) : String :=
  match GoUrl.Parse queueURL with
  | none => queueURL
  | some url => GoUrl.Base url.Path

/-- Go: `SendMessageBatchError`. -/
structure SendMessageBatchError where
  Entry : BatchResultErrorEntry
  deriving DecidableEq, Repr

/-- Go: `(*SendMessageBatchError).Code`; the receiver is a pointer, `none`
being nil. -/
def SendMessageBatchError.Code (e : Option SendMessageBatchError) : String :=
  match e with
  | none => ""
  | some e =>
    match e.Entry.Code with
    | none => ""
    | some code => code

/-- Go: `(*SendMessageBatchError).Message`. -/
def SendMessageBatchError.Message (e : Option SendMessageBatchError) : String :=
  match e with
  | none => ""
  | some e =>
    match e.Entry.Message with
    | none => ""
    | some message => message

/-- Go: `(*SendMessageBatchError).BatchRequestID`. -/
def SendMessageBatchError.BatchRequestID (e : Option SendMessageBatchError) : String :=
  match e with
  | none => ""
  | some e =>
    match e.Entry.Id with
    | none => ""
    | some id => id

/-- Go: `(*SendMessageBatchError).SenderFault`. -/
def SendMessageBatchError.SenderFault (e : Option SendMessageBatchError) : Bool :=
  match e with
  | none => false
  | some e => e.Entry.SenderFault

/-- Go: `(*SendMessageBatchError).Error`. -/
def SendMessageBatchError.Error (e : Option SendMessageBatchError) : String :=
  let b := SendMessageBatchError.Code e
  let msg := SendMessageBatchError.Message e
  if msg ≠ "" then b ++ ": " ++ msg else b

/-- The `error` value that `*SendMessageBatchError` is to a span. -/
def SendMessageBatchError.toGoError (e : Option SendMessageBatchError) : GoError :=
  { typeStr := "*otelsqs.SendMessageBatchError", msg := SendMessageBatchError.Error e }

/-- Go: `recordSendMessageBatchError`, on the span `span` of the tracer. -/
def recordSendMessageBatchError (t : Tracer) (span : Nat) (err : Option SendMessageBatchError) :
    Tracer :=
  (t.RecordError span (SendMessageBatchError.toGoError err)
      [attrString KeySQSBatchRequestID (SendMessageBatchError.BatchRequestID err),
       attrString KeyAWSErrorCode (SendMessageBatchError.Code err),
       attrBool KeyAWSErrorSendFault (SendMessageBatchError.SenderFault err)]).SetStatus
    span .Error (SendMessageBatchError.Error err)

/-- The attributes of the span of a `SendMessage` request (mw.go, lines
88-98). -/
def sendMessageAttrs (serviceID operation : String) (params : SendMessageInput) : List KeyValue :=
  let attrs := [attrRPCSystemAWSAPI, Semconv.RPCMethod operation, Semconv.RPCService serviceID,
    attrOpSendMessage, Semconv.MessagingSystemAWSSqs, Semconv.MessagingOperationTypePublish]
  let attrs := addAttrsFromQueueURL attrs params.QueueUrl
  addAttrsFromMessageBody attrs params.MessageBody

/-- The attributes of the span of a `SendMessageBatch` request (mw.go, lines
104-114). -/
def sendMessageBatchAttrs (serviceID operation : String) (params : SendMessageBatchInput) :
    List KeyValue :=
  let attrs := [attrRPCSystemAWSAPI, Semconv.RPCMethod operation, Semconv.RPCService serviceID,
    attrOpSendMessageBatch, Semconv.MessagingBatchMessageCount params.Entries.length,
    Semconv.MessagingSystemAWSSqs, Semconv.MessagingOperationTypePublish]
  addAttrsFromQueueURL attrs params.QueueUrl

/-- What the batch branch of the middleware has built so far: the tracer, the
map `createSpanByRequestID` (the newest binding of a key comes first and is
the one `List.lookup` reads, as a Go map assignment replaces the old one) and
the deferred `End` calls, the one deferred last first. -/
structure BatchState where
  tracer : Tracer
  createSpanByRequestID : List (String × Nat) := []
  deferred : List Nat := []
  deriving DecidableEq, Repr

/-- The attributes of a `create` span (mw.go, lines 123-129). -/
def createSpanAttrs (queueUrl batchID : String) : List KeyValue :=
  [Semconv.MessagingSystemAWSSqs,
   Semconv.MessagingOperationTypeCreate,
   Semconv.MessagingDestinationName queueUrl,
   Semconv.NetworkPeerAddress queueUrl,
   attrString KeySQSBatchRequestID batchID]

/-- The loop over `params.Entries` (mw.go, lines 119-134).  `Except.error` is
the panic of `*entry.Id` on a nil pointer, with the state reached. -/
def startCreateSpans (ctx : Context) (queueName queueUrl : String) (ts : Nat) :
    List SendMessageBatchRequestEntry → BatchState → Except BatchState BatchState
  | [], st => .ok st
  | entry :: rest, st =>
    match entry.Id with
    | none => .error st
    | some batchID =>
      let started := st.tracer.Start ctx.span ("create " ++ queueName) .SpanKindProducer
        (createSpanAttrs queueUrl batchID) (some ts)
      startCreateSpans ctx queueName queueUrl ts rest
        { tracer := started.1,
          createSpanByRequestID := (batchID, started.2) :: st.createSpanByRequestID,
          deferred := started.2 :: st.deferred }

/-- The loop over `res.Successful` (mw.go, lines 158-166).  `Except.error` is
a nil-pointer panic (`*successfulEntry.Id`, `*successfulEntry.MessageId`), with
the tracer as it was then. -/
def reconcileSuccessful (createSpanByRequestID : List (String × Nat)) :
    Tracer → List SendMessageBatchResultEntry → Except Tracer Tracer
  | t, [] => .ok t
  | t, successfulEntry :: rest =>
    match successfulEntry.Id with
    | none => .error t
    | some batchID =>
      match createSpanByRequestID.lookup batchID with
      | none => reconcileSuccessful createSpanByRequestID t rest
      | some createSpan =>
        match successfulEntry.MessageId with
        | none => .error t
        | some messageId =>
          reconcileSuccessful createSpanByRequestID
            ((t.SetAttributes createSpan [Semconv.MessagingMessageID messageId]).SetStatus
              createSpan .Ok "") rest

/-- The loop over `res.Failed` (mw.go, lines 167-174).  `Except.error` is the
nil-pointer panic of `*failedEntry.Id`. -/
def reconcileFailed (createSpanByRequestID : List (String × Nat)) :
    Tracer → List BatchResultErrorEntry → Except Tracer Tracer
  | t, [] => .ok t
  | t, failedEntry :: rest =>
    match failedEntry.Id with
    | none => .error t
    | some batchID =>
      match createSpanByRequestID.lookup batchID with
      | none => reconcileFailed createSpanByRequestID t rest
      | some createSpan =>
        reconcileFailed createSpanByRequestID
          (recordSendMessageBatchError t createSpan (some { Entry := failedEntry })) rest

/-- The handling of `out.Result` (mw.go, lines 151-176). -/
def reconcileResult (span : Nat) (createSpanByRequestID : List (String × Nat)) (t : Tracer) :
    Option Result → Except Tracer Tracer
  | none => .ok t
  | some (.SendMessageOutput res) =>
    match res.MessageId with
    | some msgID => .ok (t.SetAttributes span [Semconv.MessagingMessageID msgID])
    | none => .ok t
  | some (.SendMessageBatchOutput res) =>
    match reconcileSuccessful createSpanByRequestID t res.Successful with
    | .error t1 => .error t1
    | .ok t1 => reconcileFailed createSpanByRequestID t1 res.Failed
  | some (.other _) => .ok t

/-- The identifiers that a result names in its success and failure lists. -/
def resultIds : Option Result → List (Option String)
  | some (.SendMessageBatchOutput res) => res.Successful.map (·.Id) ++ res.Failed.map (·.Id)
  | _ => []

/-- The tracer a reconciliation leaves, whether it completed or panicked. -/
def stateOf : Except Tracer Tracer → Tracer
  | .ok t => t
  | .error t => t

/-- What the success entry `e` does to the span `v`, when it is processed
without a panic. -/
def successEffect (createSpanByRequestID : List (String × Nat)) (v : Nat) (s : Span)
    (e : SendMessageBatchResultEntry) : Span :=
  match e.Id, e.MessageId with
  | some batchID, some messageId =>
    if createSpanByRequestID.lookup batchID = some v then
      (s.SetAttributes [Semconv.MessagingMessageID messageId]).SetStatus .Ok ""
    else s
  | _, _ => s

/-- What the failure entry `e` does to the span `v`, when it is processed
without a panic. -/
def failedEffect (createSpanByRequestID : List (String × Nat)) (v : Nat) (s : Span)
    (e : BatchResultErrorEntry) : Span :=
  match e.Id with
  | some batchID =>
    if createSpanByRequestID.lookup batchID = some v then
      (s.RecordError (SendMessageBatchError.toGoError (some { Entry := e }))
        [attrString KeySQSBatchRequestID (SendMessageBatchError.BatchRequestID (some { Entry := e })),
         attrString KeyAWSErrorCode (SendMessageBatchError.Code (some { Entry := e })),
         attrBool KeyAWSErrorSendFault
           (SendMessageBatchError.SenderFault (some { Entry := e }))]).SetStatus
        .Error (SendMessageBatchError.Error (some { Entry := e }))
    else s
  | none => s

/-- Run the deferred `End` calls, the first of the list first. -/
def runDeferred (deferred : List Nat) (t : Tracer) : Tracer :=
  deferred.foldl Tracer.End t

/-- How a call of the middleware function ends. -/
inductive Outcome
  | returned (out : InitializeOutput) (metadata : Metadata) (err : Option GoError)
  | panicked
  deriving DecidableEq, Repr

/-- One call of `handler.HandleInitialize`: its arguments and the tracer as
it was at the call. -/
structure HandlerCall where
  ctx : Context
  input : InitializeInput
  tracer : Tracer
  deriving DecidableEq, Repr

/-- What one call of the middleware function leaves behind: the tracer after
the deferred calls, the calls of the next handler, and the outcome. -/
structure Run where
  tracer : Tracer
  handlerCalls : List HandlerCall
  outcome : Outcome
  deriving DecidableEq, Repr

/-- What the middleware puts on the span of the request from the error and
the metadata that the handler returned (mw.go, lines 143-149). -/
def recordOutcome (t : Tracer) (span : Nat) (res : HandlerResult) : Tracer :=
  let t1 :=
    match res.err with
    | some err => (t.RecordError span err []).SetStatus span .Error err.msg
    | none => t
  match GetRequestIDMetadata res.metadata with
  | some requestID => t1.SetAttributes span [Semconv.AWSRequestID requestID]
  | none => t1

/-- What `recordOutcome` does to the span of the request. -/
def outcomeEffect (res : HandlerResult) (s : Span) : Span :=
  let s1 :=
    match res.err with
    | some err => (s.RecordError err []).SetStatus .Error err.msg
    | none => s
  match GetRequestIDMetadata res.metadata with
  | some requestID => s1.SetAttributes [Semconv.AWSRequestID requestID]
  | none => s1

/-- What the reconciliation does to the span of the request, to which no
identifier is bound: it puts the message id of a `SendMessageOutput` on it. -/
def resultEffect (result : Option Result) (s : Span) : Span :=
  match result with
  | some (.SendMessageOutput res) =>
    match res.MessageId with
    | some msgID => s.SetAttributes [Semconv.MessagingMessageID msgID]
    | none => s
  | _ => s

/-- The attribute that the request id of the metadata adds to the span of the
request. -/
def requestIDAttrs (metadata : Metadata) : List KeyValue :=
  match GetRequestIDMetadata metadata with
  | some requestID => [Semconv.AWSRequestID requestID]
  | none => []

/-- The attribute that the message id of a `SendMessageOutput` adds to the
span of the request. -/
def messageIDAttrs : Option Result → List KeyValue
  | some (.SendMessageOutput res) =>
    match res.MessageId with
    | some msgID => [Semconv.MessagingMessageID msgID]
    | none => []
  | _ => []

/-- The part of the middleware function after the `switch` (mw.go, lines
140-177): `span` is the span of the request and `st` what the switch built. -/
def afterStart (handler : InitializeHandler) (ctx : Context) (input : InitializeInput)
    (span : Nat) (st : BatchState) : Run :=
  let deferred := span :: st.deferred
  let res := handler ctx input
  let t2 := recordOutcome st.tracer span res
  match reconcileResult span st.createSpanByRequestID t2 res.out.Result with
  | .ok t3 =>
    { tracer := runDeferred deferred t3,
      handlerCalls := [{ ctx := ctx, input := input, tracer := st.tracer }],
      outcome := .returned res.out res.metadata res.err }
  | .error t3 =>
    { tracer := runDeferred deferred t3,
      handlerCalls := [{ ctx := ctx, input := input, tracer := st.tracer }],
      outcome := .panicked }

/-- Go: the middleware function registered by `root.initializeAfter` (mw.go,
lines 79-178), run with the tracer in state `t`.  A panic before the handler
is called runs the `End` calls deferred until then. -/
def initializeAfter (t : Tracer) (ctx : Context) (input : InitializeInput)
    (handler : InitializeHandler) : Run :=
  match ctx.spanTimestamp with
  | none => { tracer := t, handlerCalls := [], outcome := .panicked }
  | some ts =>
    let serviceID := ctx.serviceID
    let operation := ctx.operation
    match input.Parameters with
    | .SendMessageInput params =>
      let attrs := sendMessageAttrs serviceID operation params
      match params.QueueUrl with
      | none => { tracer := t, handlerCalls := [], outcome := .panicked }
      | some queueUrl =>
        let queueName := getQueueName queueUrl
        let started := t.Start ctx.span ("publish " ++ queueName) .SpanKindProducer attrs none
        afterStart handler { ctx with span := some started.2 } input started.2
          { tracer := started.1 }
    | .SendMessageBatchInput params =>
      let attrs := sendMessageBatchAttrs serviceID operation params
      match params.QueueUrl with
      | none => { tracer := t, handlerCalls := [], outcome := .panicked }
      | some queueUrl =>
        let queueName := getQueueName queueUrl
        let started := t.Start ctx.span ("publish " ++ queueName) .SpanKindClient attrs none
        let ctx := { ctx with span := some started.2 }
        match startCreateSpans ctx queueName queueUrl ts params.Entries { tracer := started.1 } with
        | .error st =>
          { tracer := runDeferred st.deferred st.tracer, handlerCalls := [], outcome := .panicked }
        | .ok st => afterStart handler ctx input started.2 st
    | .other _ =>
      let started := t.Start ctx.span (defaultSpanName serviceID operation) .SpanKindClient []
        (some ts)
      afterStart handler { ctx with span := some started.2 } input started.2
        { tracer := started.1 }

/-- The two steps that `AppendMiddlewares` registers, in pipeline order:
`initializeBefore` calls `initializeAfter`, which calls `handler`. -/
def middleware (now : Nat) (t : Tracer) (ctx : Context) (input : InitializeInput)
    (handler : InitializeHandler) : Run :=
  initializeBefore now ctx input fun ctx1 input1 => initializeAfter t ctx1 input1 handler

/-! ### Well-formed requests and results

The members that the data model of the specification gives every entry: a
batch entry has an identifier, a request has a queue URL (the SDK validates
both before this middleware runs), a success result has an identifier and a
message identifier, a failure result an identifier. -/

/-- The request has a queue URL and each of its batch entries an identifier. -/
def RequestWellFormed : InitializeInput → Prop
  | ⟨.SendMessageInput params⟩ => params.QueueUrl ≠ none
  | ⟨.SendMessageBatchInput params⟩ =>
    params.QueueUrl ≠ none ∧ ∀ e ∈ params.Entries, e.Id ≠ none
  | ⟨.other _⟩ => True

/-- Every success entry of a batch result has an identifier and a message
identifier, every failure entry an identifier. -/
def ResultWellFormed : Option Result → Prop
  | some (.SendMessageBatchOutput res) =>
    (∀ e ∈ res.Successful, e.Id ≠ none ∧ e.MessageId ≠ none) ∧ ∀ e ∈ res.Failed, e.Id ≠ none
  | _ => True

instance : (input : InitializeInput) → Decidable (RequestWellFormed input)
  | ⟨.SendMessageInput params⟩ => inferInstanceAs (Decidable (params.QueueUrl ≠ none))
  | ⟨.SendMessageBatchInput params⟩ =>
    inferInstanceAs (Decidable (params.QueueUrl ≠ none ∧ ∀ e ∈ params.Entries, e.Id ≠ none))
  | ⟨.other _⟩ => inferInstanceAs (Decidable True)

instance : (result : Option Result) → Decidable (ResultWellFormed result)
  | some (.SendMessageBatchOutput res) =>
    inferInstanceAs (Decidable ((∀ e ∈ res.Successful, e.Id ≠ none ∧ e.MessageId ≠ none) ∧
      ∀ e ∈ res.Failed, e.Id ≠ none))
  | some (.SendMessageOutput _) => inferInstanceAs (Decidable True)
  | some (.other _) => inferInstanceAs (Decidable True)
  | none => inferInstanceAs (Decidable True)

/-- The `create` span of the entry `batchID`, as `tracer.Start` makes it in
the loop over the entries: `parent` is the span of the request. -/
def createSpan (parent : Nat) (queueUrl : String) (ts : Nat) (batchID : String) : Span :=
  newSpan (some parent) ("create " ++ getQueueName queueUrl) .SpanKindProducer
    (createSpanAttrs queueUrl batchID) (some ts)

/-- The span of a batch request, as `tracer.Start` makes it. -/
def batchSpan (ctx : Context) (params : SendMessageBatchInput) (queueUrl : String) : Span :=
  newSpan ctx.span ("publish " ++ getQueueName queueUrl) .SpanKindClient
    (sendMessageBatchAttrs ctx.serviceID ctx.operation params) none

/-- The span of a `SendMessage` request, as `tracer.Start` makes it. -/
def sendMessageSpan (ctx : Context) (params : SendMessageInput) (queueUrl : String) : Span :=
  newSpan ctx.span ("publish " ++ getQueueName queueUrl) .SpanKindProducer
    (sendMessageAttrs ctx.serviceID ctx.operation params) none

/-- The context that the next handler receives from a request made with
`ctx` at time `now` when the tracer is in state `t`: the timestamp of
`initializeBefore` and the span of the request. -/
def handlerContext (now : Nat) (t : Tracer) (ctx : Context) : Context :=
  { ctx with spanTimestamp := some now, span := some t.spans.length }

/-! ### The request and response of `TestMiddleware_SendMessageBatch` -/

/-- The queue URL of mw_test.go. -/
def testQueueURL : String := "http://aws.test/123456789012/my-queue"

/-- The batch input of the test case `ok`. -/
def testBatchInput : SendMessageBatchInput :=
  { QueueUrl := some testQueueURL,
    Entries :=
      [{ Id := some "batch-1", MessageBody := some "\x7b\"id\":\"msg-1\"\x7d" },
       { Id := some "batch-2", MessageBody := some "\x7b\"id\":\"msg-2\"\x7d" },
       { Id := some "batch-3", MessageBody := some "\x7b\"id\":\"msg-3\"\x7d" },
       { Id := some "batch-4", MessageBody := some "\x7b\"id\":\"msg-4\"\x7d" }] }

/-- The batch output of the test case `ok` (the digests are irrelevant to the
middleware and left out). -/
def testBatchOutput : SendMessageBatchOutput :=
  { Successful :=
      [{ Id := some "batch-1", MessageId := some "msg-1" },
       { Id := some "batch-2", MessageId := some "msg-2" }],
    Failed :=
      [{ Code := some "SomeError", Id := some "batch-3", SenderFault := false,
         Message := some "oops" },
       { Code := some "AnotherError", Id := some "batch-4", SenderFault := true }] }

/-- The context of an SQS `SendMessageBatch` call. -/
def testBatchContext : Context :=
  { serviceID := "SQS", operation := "SendMessageBatch" }

/-- A batch result that names `batch-1` in two success entries. -/
def repeatedSuccessOutput : SendMessageBatchOutput :=
  { Successful :=
      [{ Id := some "batch-1", MessageId := some "msg-1" },
       { Id := some "batch-1", MessageId := some "msg-9" }] }

/-- A batch result that names `batch-3` in a success entry and in two failure
entries. -/
def repeatedFailureOutput : SendMessageBatchOutput :=
  { Successful := [{ Id := some "batch-3", MessageId := some "msg-3" }],
    Failed :=
      [{ Code := some "SomeError", Id := some "batch-3", SenderFault := false,
         Message := some "oops" },
       { Code := some "AnotherError", Id := some "batch-3", SenderFault := true }] }

/-- A batch result that names only an identifier that was not submitted. -/
def unknownIdOutput : SendMessageBatchOutput :=
  { Successful := [{ Id := some "batch-9", MessageId := some "msg-9" }],
    Failed := [{ Code := some "SomeError", Id := some "batch-8", Message := some "oops" }] }

/-- A batch result whose first success entry has no identifier. -/
def missingIdOutput : SendMessageBatchOutput :=
  { Successful :=
      [{ MessageId := some "msg-0" },
       { Id := some "batch-1", MessageId := some "msg-1" }] }

/-- A batch result whose success entry for `batch-1` has no message id. -/
def missingMessageIdOutput : SendMessageBatchOutput :=
  { Successful := [{ Id := some "batch-1" }] }

/-- A batch result whose failure entry has no identifier. -/
def missingFailedIdOutput : SendMessageBatchOutput :=
  { Failed := [{ Code := some "SomeError", Message := some "oops" }] }

/-- A transport error. -/
def transportError : GoError :=
  { typeStr := "*smithy.OperationError", msg := "operation error SQS: SendMessageBatch" }

/-- Go: the header that `propagation.TraceContext` reads first on `Extract`;
without it the extracted span context, and so its trace id, is invalid. -/
def traceparentHeader : String := "traceparent"

/-- The entries of a batch input in which `TraceContext.Extract` finds a
`traceparent` header, read through a carrier bound to the entry as in the
test server of mw_test.go. -/
def entriesWithTraceparent (input : InitializeInput) : List SendMessageBatchRequestEntry :=
  match input.Parameters with
  | .SendMessageBatchInput params =>
    params.Entries.filter fun entry =>
      (SQSSystemAttributesCarrier.mk entry.MessageSystemAttributes).Get traceparentHeader != ""
  | _ => []

/-- A batch input whose first and third entries have the identifier `batch-1`. -/
def sharedIdInput : SendMessageBatchInput :=
  { QueueUrl := some testQueueURL,
    Entries :=
      [{ Id := some "batch-1", MessageBody := some "\x7b\"id\":\"msg-1\"\x7d" },
       { Id := some "batch-2", MessageBody := some "\x7b\"id\":\"msg-2\"\x7d" },
       { Id := some "batch-1", MessageBody := some "\x7b\"id\":\"msg-3\"\x7d" }] }

/-- A batch result with a success entry for `batch-1` and a failure entry for
`batch-2`. -/
def sharedIdOutput : SendMessageBatchOutput :=
  { Successful := [{ Id := some "batch-1", MessageId := some "msg-1" }],
    Failed := [{ Code := some "SomeError", Id := some "batch-2", SenderFault := false,
                 Message := some "oops" }] }

/-- A batch result with a failure entry for `batch-1`. -/
def sharedIdFailedOutput : SendMessageBatchOutput :=
  { Failed := [{ Code := some "SomeError", Id := some "batch-1", SenderFault := true,
                 Message := some "oops" }] }

/-- The input of the test case `ok` of `TestMiddleware_SendMessage`. -/
def testSendInput : SendMessageInput :=
  { MessageBody := some "\x7b\"msg\":\"0xdeadbeaf\"\x7d", QueueUrl := some testQueueURL }

/-- The output of the test case `ok` of `TestMiddleware_SendMessage`. -/
def testSendOutput : SendMessageOutput :=
  { MessageId := some "msg-1", SequenceNumber := some "1" }

/-- The context of an SQS `SendMessage` call. -/
def testSendContext : Context :=
  { serviceID := "SQS", operation := "SendMessage" }

/-- A handler that answers every call with `out` and no error. -/
def respondWith (out : Option Result) : InitializeHandler :=
  fun _ _ => { out := { Result := out }, metadata := {}, err := none }

/-- A handler that answers every call with `out` and the error `err`. -/
def failWith (out : Option Result) (err : GoError) : InitializeHandler :=
  fun _ _ => { out := { Result := out }, metadata := {}, err := some err }

end Otelsqs

/-! ## The middleware stack of `github.com/aws/smithy-go/middleware`

The initialize step of a stack, as `ordered_group.go` and `step_initialize.go`
keep it: the identifiers in pipeline order and the middleware registered under
each identifier.  A middleware is given by its `ID()`; a method that returns an
error leaves the step as it was. -/

namespace Smithy

/-- Go: `middleware.RelativePosition`. -/
inductive RelativePosition
  | After
  | Before
  deriving DecidableEq, Repr

/-- Go: a value of `middleware.InitializeMiddleware`, by its `ID()`. -/
structure InitializeMiddleware where
  ID : String
  deriving DecidableEq, Repr

/-- Go: `middleware.InitializeStep`: `ids.order.order` and `ids.items`. -/
structure InitializeStep where
  order : List String := []
  items : List (String × InitializeMiddleware) := []
  deriving DecidableEq, Repr

/-- Go: `InitializeStep.Add` (`orderedIDs.Add`, `relativeOrder.Add`): refused
for an empty identifier and for one that the step already has; otherwise the
middleware goes to the front (`Before`) or to the end (`After`). -/
def InitializeStep.Add (s : InitializeStep) (m : InitializeMiddleware)
    (pos : RelativePosition) : Except String InitializeStep :=
  if m.ID = "" then .error "empty ID, ID must not be empty"
  else if s.order.contains m.ID then .error ("already exists, " ++ m.ID)
  else
    match pos with
    | .Before => .ok { order := m.ID :: s.order, items := (m.ID, m) :: s.items }
    | .After => .ok { order := s.order ++ [m.ID], items := (m.ID, m) :: s.items }

/-- Go: `InitializeStep.Swap` (`orderedIDs.Swap`, `relativeOrder.Swap`): the
middleware registered as `id` is removed and `m` takes its place in the order;
refused when the step has no `id`, or has the identifier of `m` already under
another name than `id`.  The result is the removed middleware and the step. -/
def InitializeStep.Swap (s : InitializeStep) (id : String) (m : InitializeMiddleware) :
    Except String (Option InitializeMiddleware × InitializeStep) :=
  if id = "" then .error "swap from ID must not be empty"
  else if m.ID = "" then .error "swap to ID must not be empty"
  else if !s.order.contains id then .error ("not found, " ++ id)
  else if s.order.contains m.ID && id != m.ID then .error ("already exists, " ++ m.ID)
  else
    .ok (s.items.lookup id,
      { order := s.order.replace id m.ID,
        items := (m.ID, m) :: s.items.filter fun item => item.1 != id })

/-- Go: `middleware.Stack`, by its initialize step. -/
structure Stack where
  Initialize : InitializeStep := {}
  deriving DecidableEq, Repr

end Smithy

namespace Otelsqs
open Smithy

def scope : String :=
  "github.com/aereal/otel-instrumentation/github.com/aws/aws-sdk-go-v2/service/sqs/otelsqs"
def idOtelAWSInitializeBefore : String := "OTelInitializeMiddlewareBefore"
def idOtelAWSInitializeAfter : String := "OTelInitializeMiddlewareAfter"

/-- Go: the variable `initializeBefore` as a middleware of the stack: the
function `initializeBefore` under the identifier given to
`mw.InitializeMiddlewareFunc`. -/
def initializeBeforeMiddleware : InitializeMiddleware :=
  { ID := scope ++ ".InitializeBefore" }

/-- Go: the variable `fn` of `root.initializeAfter` as a middleware of the
stack: the function `initializeAfter` under the identifier given to
`mw.InitializeMiddlewareFunc`. -/
def initializeAfterMiddleware : InitializeMiddleware :=
  { ID := scope ++ ".InitializeAfter" }

/-- Go: `swap`: whether `step.Swap` returned no error, and the step after the
call. -/
def swap (step : InitializeStep) (id : String) (mwFn : InitializeMiddleware) :
    Bool × InitializeStep :=
  match step.Swap id mwFn with
  | .ok (_, swapped) => (true, swapped)
  | .error _ => (false, step)

/-- Go: `root.initializeBefore`: the error returned, `none` being nil, and the
stack after the call. -/
def root.initializeBefore (stack : Stack) : Option String × Stack :=
  match swap stack.Initialize idOtelAWSInitializeBefore initializeBeforeMiddleware with
  | (true, step) => (none, { stack with Initialize := step })
  | (false, step) =>
    match step.Add initializeBeforeMiddleware .Before with
    | .ok added => (none, { stack with Initialize := added })
    | .error err => (some err, { stack with Initialize := step })

/-- Go: `root.initializeAfter`, the registration: the error returned, `none`
being nil, and the stack after the call. -/
def root.initializeAfter (stack : Stack) : Option String × Stack :=
  match swap stack.Initialize idOtelAWSInitializeAfter initializeAfterMiddleware with
  | (true, step) => (none, { stack with Initialize := step })
  | (false, step) =>
    match step.Add initializeAfterMiddleware .After with
    | .ok added => (none, { stack with Initialize := added })
    | .error err => (some err, { stack with Initialize := step })

/-- A stack on which otelaws registered its two initialize steps around a step
of the SDK. -/
def otelawsStack : Stack :=
  { Initialize :=
      { order := [idOtelAWSInitializeBefore, "RegisterServiceMetadata",
                  idOtelAWSInitializeAfter],
        items := [(idOtelAWSInitializeAfter, { ID := idOtelAWSInitializeAfter }),
                  (idOtelAWSInitializeBefore, { ID := idOtelAWSInitializeBefore }),
                  ("RegisterServiceMetadata", { ID := "RegisterServiceMetadata" })] } }

end Otelsqs

/-! ## The package `awslambda`: `trace.go`

The collaborators are modelled as far as `StartTraceFromSQSMessage` uses them:
the span context of a Go context, `propagation.MapCarrier`, the wrapper
`xray.Propagator.Extract` around the parser of the X-Ray trace header, which is
a parameter, `trace.LinkFromContext`, and `tracer.Start` of the SDK with the
options for the kind, the attributes and the links, which keeps a link only if
its span context is valid. -/

namespace Awslambda
open Otel

/-- Go: `trace.SpanContext`: the trace id and span id as numbers, zero when
unset, the sampled flag and whether the context came from another process. -/
structure SpanContext where
  TraceID : Nat := 0
  SpanID : Nat := 0
  Sampled : Bool := false
  Remote : Bool := false
  deriving DecidableEq, Repr

/-- Go: `SpanContext.IsValid`: both ids are set. -/
def SpanContext.IsValid (sc : SpanContext) : Bool :=
  sc.TraceID != 0 && sc.SpanID != 0

/-- Go: `SpanContext.WithRemote`. -/
def SpanContext.WithRemote (sc : SpanContext) (remote : Bool) : SpanContext :=
  { sc with Remote := remote }

/-- Go: `trace.Link`. -/
structure Link where
  spanContext : SpanContext
  attributes : List KeyValue := []
  deriving DecidableEq, Repr

/-- Go: `context.Context`, by the span context of the span it carries, the
zero span context when it carries none. -/
structure GoContext where
  spanContext : SpanContext := {}
  deriving DecidableEq, Repr

/-- Go: `trace.SpanContextFromContext`. -/
def SpanContextFromContext (ctx : GoContext) : SpanContext :=
  ctx.spanContext

/-- Go: `trace.ContextWithRemoteSpanContext`. -/
def ContextWithRemoteSpanContext (ctx : GoContext) (sc : SpanContext) : GoContext :=
  { ctx with spanContext := sc.WithRemote true }

/-- Go: `trace.LinkFromContext` without attributes. -/
def LinkFromContext (ctx : GoContext) : Link :=
  { spanContext := SpanContextFromContext ctx }

/-- Go: `propagation.MapCarrier`. -/
abbrev MapCarrier := List (String × String)

/-- Go: `MapCarrier.Get`. -/
def MapCarrier.Get (c : MapCarrier) (key : String) : String :=
  (c.lookup key).getD ""

/-- Go: `MapCarrier.Set`. -/
def MapCarrier.Set (c : MapCarrier) (key value : String) : MapCarrier :=
  (key, value) :: c

def attrAWSTraceHeader : String := "AWSTraceHeader"
def headerXrayID : String := "X-Amzn-Trace-Id"

/-- Go: `xray.Propagator.Extract`.  `extract` is the parser of the header of
that package, `none` standing for its error: the context gets the parsed span
context as a remote one when the header is there, parses, and gives a valid
span context, and is returned as it came otherwise. -/
def Propagator.Extract (extract : String → Option SpanContext) (ctx : GoContext)
    (carrier : MapCarrier) : GoContext :=
  let header := carrier.Get headerXrayID
  if header ≠ "" then
    match extract header with
    | some sc => if sc.IsValid then ContextWithRemoteSpanContext ctx sc else ctx
    | none => ctx
  else ctx

/-- Go: `trace.SpanStartOption`, the three options that `trace.go` uses. -/
inductive SpanStartOption
  | WithSpanKind (kind : SpanKind)
  | WithAttributes (attributes : List KeyValue)
  | WithLinks (links : List Link)
  deriving DecidableEq, Repr

/-- Go: `trace.SpanConfig`, what the options set. -/
structure SpanConfig where
  spanKind : SpanKind := .SpanKindUnspecified
  attributes : List KeyValue := []
  links : List Link := []
  deriving DecidableEq, Repr

/-- Go: applying one option to the configuration; attributes and links are
appended, the kind is replaced. -/
def SpanConfig.apply (c : SpanConfig) : SpanStartOption → SpanConfig
  | .WithSpanKind kind => { c with spanKind := kind }
  | .WithAttributes attributes => { c with attributes := c.attributes ++ attributes }
  | .WithLinks links => { c with links := c.links ++ links }

/-- Go: `trace.ValidateSpanKind`. -/
def ValidateSpanKind : SpanKind → SpanKind
  | .SpanKindUnspecified => .SpanKindInternal
  | kind => kind

/-- A span as `tracer.Start` of the SDK makes it here: the span of the model
`Otel`, the span context of its parent, and its links. -/
structure LinkedSpan where
  span : Span
  parent : SpanContext
  links : List Link
  deriving DecidableEq, Repr

/-- Go: `tracer.Start` of the SDK: the options are applied in order, the
parent is the span of `ctx`, and of the links those with a valid span context
are kept (`recordingSpan.addLink`).  The result is the span; the context
returned with it is not modelled. -/
def Start (ctx : GoContext) (name : String) (opts : List SpanStartOption) : LinkedSpan :=
  let config := opts.foldl SpanConfig.apply {}
  { span := newSpan none name (ValidateSpanKind config.spanKind) config.attributes none,
    parent := SpanContextFromContext ctx,
    links := config.links.filter fun link => link.spanContext.IsValid }

/-- Go: `events.SQSMessage`, the two fields that `trace.go` reads; a nil map
reads as the empty one. -/
structure SQSMessage where
  MessageId : String := ""
  Attributes : List (String × String) := []
  deriving DecidableEq, Repr

/-- Go: `semconv.MessagingSystemKey` (v1.12.0). -/
def MessagingSystemKey : String := "messaging.system"
/-- Go: `semconv.MessagingOperationProcess` (v1.12.0). -/
def MessagingOperationProcess : KeyValue := attrString "messaging.operation" "process"
/-- Go: `semconv.FaaSTriggerPubsub` (v1.12.0). -/
def FaaSTriggerPubsub : KeyValue := attrString "faas.trigger" "pubsub"

def commonAttrs : List KeyValue :=
  [attrString MessagingSystemKey "AmazonSQS",
   MessagingOperationProcess,
   FaaSTriggerPubsub,
   attrString "messaging.source.kind" "queue"]

def messagingSourceNameKey : String := "messaging.source.name"
def messagingMessageIDKey : String := "messaging.message.id"

/-- Go: `StartTraceFromSQSMessage`; `extract` is the parser of the X-Ray
header that `xray.Propagator` uses.  The result is the span that is started. -/
def StartTraceFromSQSMessage (extract : String → Option SpanContext) (ctx : GoContext)
    (queueName : String) (msg : SQSMessage) : LinkedSpan :=
  let attrs := commonAttrs ++
    [attrString messagingSourceNameKey queueName, attrString messagingMessageIDKey msg.MessageId]
  let opts := [SpanStartOption.WithSpanKind .SpanKindConsumer, .WithAttributes attrs]
  let opts :=
    match msg.Attributes.lookup attrAWSTraceHeader with
    | some traceID =>
      let carrier := MapCarrier.Set [] headerXrayID traceID
      let remoteCtx := Propagator.Extract extract ctx carrier
      let link := LinkFromContext remoteCtx
      opts ++ [.WithLinks [link]]
    | none => opts
  Start ctx (queueName ++ " process") opts

/-! ### The messages of `TestStartTraceFromSQSMessage` -/

/-- The header of the test case `with links`. -/
def testTraceHeader : String :=
  "Root=1-5759e988-bd862e3fe1be46a994272793;Sampled=1;Parent=53995c3f42cd8ad8"

/-- The parser of the X-Ray header on the header of the test case
`with links`, with the ids that trace_test.go expects; the examples parse no
other header, and this stand-in rejects them. -/
def testExtract (header : String) : Option SpanContext :=
  if header = testTraceHeader then
    some { TraceID := 0x5759e988bd862e3fe1be46a994272793, SpanID := 0x53995c3f42cd8ad8,
           Sampled := true }
  else none

/-- The message of the test case `with links`. -/
def testMessageWithHeader : SQSMessage :=
  { MessageId := "msg-1", Attributes := [(attrAWSTraceHeader, testTraceHeader)] }

/-- A message whose attribute `AWSTraceHeader` is there and empty. -/
def testMessageEmptyHeader : SQSMessage :=
  { MessageId := "msg-1", Attributes := [(attrAWSTraceHeader, "")] }

end Awslambda

/-! ## Theorems -/

namespace Otelsqs

open Otel Sqs

/-- `path.Base` of a path that ends in a non-empty element `seg`, after a
slash or at the start and before any number of trailing slashes, is `seg`. -/
theorem Base_segment (pre seg : List Char) (k : Nat)
    (hpre : pre = [] ∨ ∃ dir, pre = dir ++ ['/']) (hne : seg ≠ []) (hseg : '/' ∉ seg) :
    GoUrl.Base (String.mk (pre ++ seg ++ List.replicate k '/')) = String.mk seg := by
  have hstrip : GoUrl.stripTrailingSlashes (pre ++ seg ++ List.replicate k '/') = pre ++ seg := by
    unfold GoUrl.stripTrailingSlashes
    rw [List.reverse_append, List.reverse_replicate]
    have h1 : ∀ (n : Nat) (l : List Char), (∀ c, l.head? = some c → c ≠ '/') →
        List.dropWhile (fun x => decide (x = '/')) (List.replicate n '/' ++ l) = l := by
      intro n
      induction n with
      | zero =>
        intro l hl
        cases l with
        | nil => rfl
        | cons a t =>
          have := hl a rfl
          simp [List.dropWhile, this]
      | succ n ih =>
        intro l hl
        simp only [List.replicate_succ, List.cons_append, List.dropWhile, decide_True]
        exact ih l hl
    rw [h1]
    · simp
    · intro c hc
      rw [List.reverse_append] at hc
      cases hs : seg.reverse with
      | nil => simp at hs; exact absurd hs hne
      | cons a t =>
        rw [hs] at hc
        simp at hc
        subst hc
        have : a ∈ seg := by
          have : a ∈ seg.reverse := by rw [hs]; simp
          simpa using this
        intro h
        exact hseg (h ▸ this)
  have hlast : GoUrl.afterLastSlash (pre ++ seg) = seg := by
    unfold GoUrl.afterLastSlash
    rw [List.reverse_append]
    have h2 : ∀ (l r : List Char), (∀ c ∈ l, c ≠ '/') → (r = [] ∨ r.head? = some '/') →
        List.takeWhile (fun x => x != '/') (l ++ r) = l := by
      intro l
      induction l with
      | nil =>
        intro r _ hr
        rcases hr with hr | hr
        · subst hr; rfl
        · cases r with
          | nil => rfl
          | cons a t =>
            simp at hr
            subst hr
            simp [List.takeWhile]
      | cons a t ih =>
        intro r hl hr
        have ha : a ≠ '/' := hl a (by simp)
        have hb : (a != '/') = true := by simp [ha]
        have := ih r (fun c hc => hl c (by simp [hc])) hr
        rw [List.cons_append, List.takeWhile_cons, hb, this]
        rfl
    rw [h2]
    · simp
    · intro c hc
      have : c ∈ seg := by simpa using hc
      intro h
      exact hseg (h ▸ this)
    · rcases hpre with h | ⟨dir, h⟩
      · left; simp [h]
      · right; simp [h]
  unfold GoUrl.Base
  have hnil : pre ++ seg ++ List.replicate k '/' ≠ [] := by
    cases seg with
    | nil => exact absurd rfl hne
    | cons a t => simp
  simp only [hnil, if_false, hstrip, hlast, hne]


/-- C4: `SendMessageBatchError.Error()` is the code alone when the entry has
no message (absent or empty) and otherwise the code, `": "` and the message,
an absent code counting as the empty string. -/
theorem SendMessageBatchError_Error_spec (entry : BatchResultErrorEntry) :
    SendMessageBatchError.Error (some { Entry := entry }) =
      (if entry.Message = none ∨ entry.Message = some "" then entry.Code.getD ""
       else entry.Code.getD "" ++ ": " ++ entry.Message.getD "") ∧
    SendMessageBatchError.Error (some { Entry :=
      { Code := some "SomeError", Id := some "batch-3", Message := some "oops" } }) =
      "SomeError: oops" ∧
    SendMessageBatchError.Error (some { Entry :=
      { Code := some "AnotherError", Id := some "batch-4", SenderFault := true } }) =
      "AnotherError" := by
  refine ⟨?_, by decide, by decide⟩
  obtain ⟨code, id, fault, message⟩ := entry
  cases message with
  | none =>
    cases code <;>
      simp [SendMessageBatchError.Error, SendMessageBatchError.Code, SendMessageBatchError.Message]
  | some m =>
    cases code <;> by_cases h : m = "" <;>
      simp [SendMessageBatchError.Error, SendMessageBatchError.Code,
        SendMessageBatchError.Message, h]

end Otelsqs

namespace Otel

theorem updateAt_length (f : Span → Span) (i : Nat) (l : List Span) :
    (updateAt f i l).length = l.length := by
  induction l generalizing i with
  | nil => cases i <;> rfl
  | cons a rest ih =>
    cases i with
    | zero => rfl
    | succ i => simp [updateAt, ih]

theorem updateAt_getElem? (f : Span → Span) (i j : Nat) (l : List Span) :
    (updateAt f i l)[j]? = if j = i then (l[j]?).map f else l[j]? := by
  induction l generalizing i j with
  | nil => cases i <;> simp [updateAt]
  | cons a rest ih =>
    cases i with
    | zero =>
      cases j with
      | zero => simp [updateAt]
      | succ j => simp [updateAt]
    | succ i =>
      cases j with
      | zero => simp [updateAt]
      | succ j => simp [updateAt, ih]

theorem updateAt_map_endCalls (f : Span → Span) (hf : ∀ s, (f s).endCalls = s.endCalls)
    (i : Nat) (l : List Span) :
    (updateAt f i l).map (·.endCalls) = l.map (·.endCalls) := by
  induction l generalizing i with
  | nil => cases i <;> rfl
  | cons a rest ih =>
    cases i with
    | zero => simp [updateAt, hf]
    | succ i => simp [updateAt, ih]

theorem Span_SetAttributes_endCalls (s : Span) (kvs : List KeyValue) :
    (s.SetAttributes kvs).endCalls = s.endCalls := by
  unfold Span.SetAttributes; split <;> rfl

theorem Span_SetStatus_endCalls (s : Span) (c : Code) (d : String) :
    (s.SetStatus c d).endCalls = s.endCalls := by
  unfold Span.SetStatus; split
  · rfl
  · split <;> rfl

theorem Span_RecordError_endCalls (s : Span) (e : GoError) (a : List KeyValue) :
    (s.RecordError e a).endCalls = s.endCalls := by
  unfold Span.RecordError; split <;> rfl

end Otel
namespace Otel

theorem Tracer_SetAttributes_spans (t : Tracer) (id j : Nat) (kvs : List KeyValue) :
    (t.SetAttributes id kvs).spans[j]? =
      if j = id then (t.spans[j]?).map (fun s => s.SetAttributes kvs) else t.spans[j]? :=
  updateAt_getElem? _ id j t.spans

theorem Tracer_SetStatus_spans (t : Tracer) (id j : Nat) (c : Code) (d : String) :
    (t.SetStatus id c d).spans[j]? =
      if j = id then (t.spans[j]?).map (fun s => s.SetStatus c d) else t.spans[j]? :=
  updateAt_getElem? _ id j t.spans

theorem Tracer_RecordError_spans (t : Tracer) (id j : Nat) (e : GoError) (a : List KeyValue) :
    (t.RecordError id e a).spans[j]? =
      if j = id then (t.spans[j]?).map (fun s => s.RecordError e a) else t.spans[j]? :=
  updateAt_getElem? _ id j t.spans

theorem Tracer_End_spans (t : Tracer) (id j : Nat) :
    (t.End id).spans[j]? = if j = id then (t.spans[j]?).map Span.End else t.spans[j]? :=
  updateAt_getElem? _ id j t.spans

theorem Tracer_SetAttributes_endCalls (t : Tracer) (id : Nat) (kvs : List KeyValue) :
    (t.SetAttributes id kvs).spans.map (·.endCalls) = t.spans.map (·.endCalls) :=
  updateAt_map_endCalls _ (fun s => Span_SetAttributes_endCalls s kvs) id t.spans

theorem Tracer_SetStatus_endCalls (t : Tracer) (id : Nat) (c : Code) (d : String) :
    (t.SetStatus id c d).spans.map (·.endCalls) = t.spans.map (·.endCalls) :=
  updateAt_map_endCalls _ (fun s => Span_SetStatus_endCalls s c d) id t.spans

theorem Tracer_RecordError_endCalls (t : Tracer) (id : Nat) (e : GoError) (a : List KeyValue) :
    (t.RecordError id e a).spans.map (·.endCalls) = t.spans.map (·.endCalls) :=
  updateAt_map_endCalls _ (fun s => Span_RecordError_endCalls s e a) id t.spans

end Otel

namespace Otelsqs
open Otel Sqs

/-- The effect on one span of the deferred `End` calls: one more ended call for each
occurrence of the span in the list. -/
theorem runDeferred_spans (ids : List Nat) (t : Tracer) (v : Nat) :
    (runDeferred ids t).spans[v]? =
      (t.spans[v]?).map fun s => { s with endCalls := s.endCalls + ids.count v } := by
  induction ids generalizing t with
  | nil =>
    simp [runDeferred]
  | cons a rest ih =>
    have h : runDeferred (a :: rest) t = runDeferred rest (t.End a) := rfl
    rw [h, ih, Tracer_End_spans]
    by_cases hv : v = a
    · subst hv
      cases t.spans[v]? with
      | none => simp
      | some s => simp [Span.End, Nat.add_assoc, Nat.add_comm 1]
    · have hv2 : (a == v) = false := by simp [Ne.symm hv]
      simp [hv, List.count_cons, hv2]

theorem runDeferred_length (ids : List Nat) (t : Tracer) :
    (runDeferred ids t).spans.length = t.spans.length := by
  induction ids generalizing t with
  | nil => rfl
  | cons a rest ih =>
    have h : runDeferred (a :: rest) t = runDeferred rest (t.End a) := rfl
    rw [h, ih]
    exact updateAt_length _ _ _


theorem recordSendMessageBatchError_spans (t : Tracer) (id j : Nat)
    (err : Option SendMessageBatchError) :
    (recordSendMessageBatchError t id err).spans[j]? =
      if j = id then
        (t.spans[j]?).map fun s =>
          (s.RecordError (SendMessageBatchError.toGoError err)
            [attrString KeySQSBatchRequestID (SendMessageBatchError.BatchRequestID err),
             attrString KeyAWSErrorCode (SendMessageBatchError.Code err),
             attrBool KeyAWSErrorSendFault (SendMessageBatchError.SenderFault err)]).SetStatus
            .Error (SendMessageBatchError.Error err)
      else t.spans[j]? := by
  unfold recordSendMessageBatchError
  rw [Tracer_SetStatus_spans, Tracer_RecordError_spans]
  by_cases h : j = id
  · subst h
    cases t.spans[j]? <;> simp
  · simp [h]

theorem recordSendMessageBatchError_endCalls (t : Tracer) (id : Nat)
    (err : Option SendMessageBatchError) :
    (recordSendMessageBatchError t id err).spans.map (·.endCalls) = t.spans.map (·.endCalls) := by
  unfold recordSendMessageBatchError
  rw [Tracer_SetStatus_endCalls, Tracer_RecordError_endCalls]

/-- Reconciling the success entries never changes how often a span was ended. -/
theorem reconcileSuccessful_endCalls (m : List (String × Nat))
    (es : List SendMessageBatchResultEntry) (t : Tracer) :
    (stateOf (reconcileSuccessful m t es)).spans.map (·.endCalls) = t.spans.map (·.endCalls) := by
  induction es generalizing t with
  | nil => rfl
  | cons e rest ih =>
    cases hid : e.Id with
    | none => simp only [reconcileSuccessful, hid, stateOf]
    | some b =>
      cases hl : m.lookup b with
      | none =>
        simp only [reconcileSuccessful, hid, hl]
        exact ih t
      | some c =>
        cases hm : e.MessageId with
        | none => simp only [reconcileSuccessful, hid, hl, hm, stateOf]
        | some mid =>
          simp only [reconcileSuccessful, hid, hl, hm]
          rw [ih, Tracer_SetStatus_endCalls, Tracer_SetAttributes_endCalls]

theorem reconcileFailed_endCalls (m : List (String × Nat))
    (es : List BatchResultErrorEntry) (t : Tracer) :
    (stateOf (reconcileFailed m t es)).spans.map (·.endCalls) = t.spans.map (·.endCalls) := by
  induction es generalizing t with
  | nil => rfl
  | cons e rest ih =>
    cases hid : e.Id with
    | none => simp only [reconcileFailed, hid, stateOf]
    | some b =>
      cases hl : m.lookup b with
      | none =>
        simp only [reconcileFailed, hid, hl]
        exact ih t
      | some c =>
        simp only [reconcileFailed, hid, hl]
        rw [ih, recordSendMessageBatchError_endCalls]

theorem reconcileResult_endCalls (span : Nat) (m : List (String × Nat)) (t : Tracer)
    (result : Option Result) :
    (stateOf (reconcileResult span m t result)).spans.map (·.endCalls) =
      t.spans.map (·.endCalls) := by
  cases result with
  | none => rfl
  | some r =>
    cases r with
    | SendMessageOutput res =>
      cases hm : res.MessageId with
      | none => simp only [reconcileResult, hm, stateOf]
      | some mid => simp only [reconcileResult, hm, stateOf, Tracer_SetAttributes_endCalls]
    | SendMessageBatchOutput res =>
      have h1 := reconcileSuccessful_endCalls m res.Successful t
      cases hs : reconcileSuccessful m t res.Successful with
      | error t1 =>
        rw [hs] at h1
        simp only [reconcileResult, hs]
        exact h1
      | ok t1 =>
        rw [hs] at h1
        simp only [reconcileResult, hs]
        rw [reconcileFailed_endCalls]
        exact h1
    | other op => rfl

/-- The span `v` after the success entries were reconciled without a panic. -/
theorem reconcileSuccessful_ok_spans (m : List (String × Nat)) (v : Nat)
    (es : List SendMessageBatchResultEntry) (t t1 : Tracer)
    (h : reconcileSuccessful m t es = .ok t1) :
    t1.spans[v]? = (t.spans[v]?).map fun s => es.foldl (successEffect m v) s := by
  induction es generalizing t with
  | nil =>
    simp [reconcileSuccessful] at h
    subst h
    simp
  | cons e rest ih =>
    cases hid : e.Id with
    | none => simp [reconcileSuccessful, hid] at h
    | some b =>
      cases hl : m.lookup b with
      | none =>
        simp only [reconcileSuccessful, hid, hl] at h
        rw [ih t h]
        have : ∀ s, successEffect m v s e = s := by
          intro s
          unfold successEffect
          rw [hid]
          cases e.MessageId <;> simp [hl]
        simp [List.foldl_cons, this]
      | some c =>
        cases hm : e.MessageId with
        | none => simp [reconcileSuccessful, hid, hl, hm] at h
        | some mid =>
          simp only [reconcileSuccessful, hid, hl, hm] at h
          rw [ih _ h, Tracer_SetStatus_spans, Tracer_SetAttributes_spans]
          have he : ∀ s, successEffect m v s e =
              if c = v then (s.SetAttributes [Semconv.MessagingMessageID mid]).SetStatus .Ok ""
              else s := by
            intro s
            unfold successEffect
            rw [hid, hm]
            simp [hl]
          by_cases hv : v = c
          · subst hv
            cases t.spans[v]? <;> simp [List.foldl_cons, he]
          · have hv2 : ¬ c = v := fun h => hv h.symm
            cases t.spans[v]? <;> simp [List.foldl_cons, he, hv, hv2]

theorem reconcileFailed_ok_spans (m : List (String × Nat)) (v : Nat)
    (es : List BatchResultErrorEntry) (t t1 : Tracer)
    (h : reconcileFailed m t es = .ok t1) :
    t1.spans[v]? = (t.spans[v]?).map fun s => es.foldl (failedEffect m v) s := by
  induction es generalizing t with
  | nil =>
    simp [reconcileFailed] at h
    subst h
    simp
  | cons e rest ih =>
    cases hid : e.Id with
    | none => simp [reconcileFailed, hid] at h
    | some b =>
      cases hl : m.lookup b with
      | none =>
        simp only [reconcileFailed, hid, hl] at h
        rw [ih t h]
        have : ∀ s, failedEffect m v s e = s := by
          intro s
          unfold failedEffect
          rw [hid]
          simp [hl]
        simp [List.foldl_cons, this]
      | some c =>
        simp only [reconcileFailed, hid, hl] at h
        rw [ih _ h, recordSendMessageBatchError_spans]
        have he : ∀ s, failedEffect m v s e =
            if c = v then
              (s.RecordError (SendMessageBatchError.toGoError (some { Entry := e }))
                [attrString KeySQSBatchRequestID
                   (SendMessageBatchError.BatchRequestID (some { Entry := e })),
                 attrString KeyAWSErrorCode (SendMessageBatchError.Code (some { Entry := e })),
                 attrBool KeyAWSErrorSendFault
                   (SendMessageBatchError.SenderFault (some { Entry := e }))]).SetStatus
                .Error (SendMessageBatchError.Error (some { Entry := e }))
            else s := by
          intro s
          unfold failedEffect
          rw [hid]
          simp [hl]
        by_cases hv : v = c
        · subst hv
          cases t.spans[v]? <;> simp [List.foldl_cons, he]
        · have hv2 : ¬ c = v := fun h => hv h.symm
          cases t.spans[v]? <;> simp [List.foldl_cons, he, hv, hv2]


/-- Success entries that are not bound to the span `v` leave it as it is, also when
the loop panics. -/
theorem reconcileSuccessful_frame (m : List (String × Nat)) (v : Nat)
    (es : List SendMessageBatchResultEntry)
    (hes : ∀ e ∈ es, ∀ b, e.Id = some b → m.lookup b ≠ some v) (t : Tracer) :
    (stateOf (reconcileSuccessful m t es)).spans[v]? = t.spans[v]? := by
  induction es generalizing t with
  | nil => rfl
  | cons e rest ih =>
    have hrest : ∀ e ∈ rest, ∀ b, e.Id = some b → m.lookup b ≠ some v :=
      fun e1 h1 => hes e1 (List.mem_cons_of_mem _ h1)
    cases hid : e.Id with
    | none => simp only [reconcileSuccessful, hid, stateOf]
    | some b =>
      cases hl : m.lookup b with
      | none =>
        simp only [reconcileSuccessful, hid, hl]
        exact ih hrest t
      | some c =>
        cases hm : e.MessageId with
        | none => simp only [reconcileSuccessful, hid, hl, hm, stateOf]
        | some mid =>
          simp only [reconcileSuccessful, hid, hl, hm]
          rw [ih hrest, Tracer_SetStatus_spans, Tracer_SetAttributes_spans]
          have hc : v ≠ c := by
            intro h
            exact hes e (List.mem_cons_self _ _) b hid (by rw [hl, h])
          simp [hc]

theorem reconcileFailed_frame (m : List (String × Nat)) (v : Nat)
    (es : List BatchResultErrorEntry)
    (hes : ∀ e ∈ es, ∀ b, e.Id = some b → m.lookup b ≠ some v) (t : Tracer) :
    (stateOf (reconcileFailed m t es)).spans[v]? = t.spans[v]? := by
  induction es generalizing t with
  | nil => rfl
  | cons e rest ih =>
    have hrest : ∀ e ∈ rest, ∀ b, e.Id = some b → m.lookup b ≠ some v :=
      fun e1 h1 => hes e1 (List.mem_cons_of_mem _ h1)
    cases hid : e.Id with
    | none => simp only [reconcileFailed, hid, stateOf]
    | some b =>
      cases hl : m.lookup b with
      | none =>
        simp only [reconcileFailed, hid, hl]
        exact ih hrest t
      | some c =>
        simp only [reconcileFailed, hid, hl]
        rw [ih hrest, recordSendMessageBatchError_spans]
        have hc : v ≠ c := by
          intro h
          exact hes e (List.mem_cons_self _ _) b hid (by rw [hl, h])
        simp [hc]

/-- A batch result whose entries are not bound to the span `v` leaves it as it is, also
when the reconciliation panics. -/
theorem reconcileBatch_frame (span : Nat) (m : List (String × Nat)) (v : Nat)
    (res : SendMessageBatchOutput)
    (hs : ∀ e ∈ res.Successful, ∀ b, e.Id = some b → m.lookup b ≠ some v)
    (hf : ∀ e ∈ res.Failed, ∀ b, e.Id = some b → m.lookup b ≠ some v) (t : Tracer) :
    (stateOf (reconcileResult span m t (some (.SendMessageBatchOutput res)))).spans[v]? =
      t.spans[v]? := by
  have h1 := reconcileSuccessful_frame m v res.Successful hs t
  cases hr : reconcileSuccessful m t res.Successful with
  | error t1 =>
    rw [hr] at h1
    simp only [reconcileResult, hr]
    exact h1
  | ok t1 =>
    rw [hr] at h1
    simp only [reconcileResult, hr]
    rw [reconcileFailed_frame m v res.Failed hf t1]
    exact h1

/-- Success entries that all have an identifier and a message identifier are reconciled
without a panic. -/
theorem reconcileSuccessful_ok (m : List (String × Nat))
    (es : List SendMessageBatchResultEntry)
    (hes : ∀ e ∈ es, e.Id ≠ none ∧ e.MessageId ≠ none) (t : Tracer) :
    ∃ t1, reconcileSuccessful m t es = .ok t1 := by
  induction es generalizing t with
  | nil => exact ⟨t, rfl⟩
  | cons e rest ih =>
    have hrest : ∀ e ∈ rest, e.Id ≠ none ∧ e.MessageId ≠ none :=
      fun e1 h1 => hes e1 (List.mem_cons_of_mem _ h1)
    have he := hes e (List.mem_cons_self _ _)
    cases hid : e.Id with
    | none => exact absurd hid he.1
    | some b =>
      cases hm : e.MessageId with
      | none => exact absurd hm he.2
      | some mid =>
        cases hl : m.lookup b with
        | none =>
          simp only [reconcileSuccessful, hid, hl]
          exact ih hrest t
        | some c =>
          simp only [reconcileSuccessful, hid, hl, hm]
          exact ih hrest _

theorem reconcileFailed_ok (m : List (String × Nat))
    (es : List BatchResultErrorEntry) (hes : ∀ e ∈ es, e.Id ≠ none) (t : Tracer) :
    ∃ t1, reconcileFailed m t es = .ok t1 := by
  induction es generalizing t with
  | nil => exact ⟨t, rfl⟩
  | cons e rest ih =>
    have hrest : ∀ e ∈ rest, e.Id ≠ none := fun e1 h1 => hes e1 (List.mem_cons_of_mem _ h1)
    have he := hes e (List.mem_cons_self _ _)
    cases hid : e.Id with
    | none => exact absurd hid he
    | some b =>
      cases hl : m.lookup b with
      | none =>
        simp only [reconcileFailed, hid, hl]
        exact ih hrest t
      | some c =>
        simp only [reconcileFailed, hid, hl]
        exact ih hrest _

/-- A well-formed result is reconciled without a panic. -/
theorem reconcileResult_ok (span : Nat) (m : List (String × Nat)) (t : Tracer)
    (result : Option Result) (h : ResultWellFormed result) :
    ∃ t1, reconcileResult span m t result = .ok t1 := by
  cases result with
  | none => exact ⟨t, rfl⟩
  | some r =>
    cases r with
    | SendMessageOutput res =>
      cases hm : res.MessageId with
      | none => exact ⟨t, by simp only [reconcileResult, hm]⟩
      | some mid =>
        exact ⟨t.SetAttributes span [Semconv.MessagingMessageID mid],
          by simp only [reconcileResult, hm]⟩
    | SendMessageBatchOutput res =>
      obtain ⟨t1, h1⟩ := reconcileSuccessful_ok m res.Successful h.1 t
      obtain ⟨t2, h2⟩ := reconcileFailed_ok m res.Failed h.2 t1
      exact ⟨t2, by simp only [reconcileResult, h1, h2]⟩
    | other op => exact ⟨t, rfl⟩

/-- The three parts of what `afterStart` leaves. -/
theorem afterStart_eq (handler : InitializeHandler) (ctx : Context) (input : InitializeInput)
    (span : Nat) (st : BatchState) :
    (afterStart handler ctx input span st).tracer =
      runDeferred (span :: st.deferred)
        (stateOf (reconcileResult span st.createSpanByRequestID
          (recordOutcome st.tracer span (handler ctx input)) (handler ctx input).out.Result)) ∧
    (afterStart handler ctx input span st).handlerCalls =
      [{ ctx := ctx, input := input, tracer := st.tracer }] ∧
    (afterStart handler ctx input span st).outcome =
      (match reconcileResult span st.createSpanByRequestID
          (recordOutcome st.tracer span (handler ctx input)) (handler ctx input).out.Result with
       | .ok _ => .returned (handler ctx input).out (handler ctx input).metadata
           (handler ctx input).err
       | .error _ => .panicked) := by
  cases h : reconcileResult span st.createSpanByRequestID
      (recordOutcome st.tracer span (handler ctx input)) (handler ctx input).out.Result with
  | ok t3 =>
    simp only [afterStart, h, stateOf, and_self]
  | error t3 =>
    simp only [afterStart, h, stateOf, and_self]

theorem recordOutcome_endCalls (t : Tracer) (span : Nat) (res : HandlerResult) :
    (recordOutcome t span res).spans.map (·.endCalls) = t.spans.map (·.endCalls) := by
  unfold recordOutcome
  cases GetRequestIDMetadata res.metadata <;> cases res.err <;>
    simp only [Tracer_SetAttributes_endCalls, Tracer_SetStatus_endCalls,
      Tracer_RecordError_endCalls]

/-- The handler's error and request id go to the span of the request only. -/
theorem recordOutcome_frame (t : Tracer) (span v : Nat) (hv : v ≠ span) (res : HandlerResult) :
    (recordOutcome t span res).spans[v]? = t.spans[v]? := by
  unfold recordOutcome
  cases GetRequestIDMetadata res.metadata <;> cases res.err <;>
    simp only [Tracer_SetAttributes_spans, Tracer_SetStatus_spans, Tracer_RecordError_spans,
      hv, if_false]


theorem lookup_cons_self (k : String) (v : Nat) (m : List (String × Nat)) :
    List.lookup k ((k, v) :: m) = some v := by
  simp [List.lookup]

theorem lookup_cons_ne (k b : String) (h : k ≠ b) (v : Nat) (m : List (String × Nat)) :
    List.lookup k ((b, v) :: m) = List.lookup k m := by
  have hb : (k == b) = false := by simp [h]
  simp [List.lookup, hb]

/-- What the loop over the entries builds when every entry has an identifier: one
`create` span per entry after the spans that were there, one deferred `End` per new
span, and a map that binds an identifier to the span of the last entry that has it. -/
theorem startCreateSpans_ok (ctx : Context) (parent : Nat) (hctx : ctx.span = some parent)
    (q : String) (ts : Nat)
    (entries : List SendMessageBatchRequestEntry) (hIds : ∀ e ∈ entries, e.Id ≠ none)
    (st : BatchState) :
    ∃ st1, startCreateSpans ctx (getQueueName q) q ts entries st = .ok st1 ∧
      st1.tracer.spans = st.tracer.spans ++
        entries.map (fun e => createSpan parent q ts (e.Id.getD "")) ∧
      st1.tracer.exported = st.tracer.exported ∧
      st1.deferred = (List.range' st.tracer.spans.length entries.length).reverse ++ st.deferred ∧
      (∀ k, (∀ e ∈ entries, e.Id ≠ some k) →
        st1.createSpanByRequestID.lookup k = st.createSpanByRequestID.lookup k) ∧
      (∀ k v, st1.createSpanByRequestID.lookup k = some v →
        st.createSpanByRequestID.lookup k = some v ∨
        ∃ j e, v = st.tracer.spans.length + j ∧ entries[j]? = some e ∧ e.Id = some k) ∧
      (∀ pre e post k, entries = pre ++ e :: post → e.Id = some k →
        (∀ e1 ∈ post, e1.Id ≠ some k) →
        st1.createSpanByRequestID.lookup k = some (st.tracer.spans.length + pre.length)) := by
  induction entries generalizing st with
  | nil =>
    refine ⟨st, rfl, by simp, rfl, by simp, fun _ _ => rfl, fun k v h => Or.inl h, ?_⟩
    intro pre e post k h
    simp at h
  | cons e0 rest ih =>
    have hrest : ∀ e ∈ rest, e.Id ≠ none := fun e1 h1 => hIds e1 (List.mem_cons_of_mem _ h1)
    cases hid : e0.Id with
    | none => exact absurd hid (hIds e0 (List.mem_cons_self _ _))
    | some b =>
      obtain ⟨st1, h1, h2, h3, h4, h5, h6, h7⟩ := ih hrest
        { tracer := (st.tracer.Start ctx.span ("create " ++ getQueueName q) .SpanKindProducer
            (createSpanAttrs q b) (some ts)).1,
          createSpanByRequestID := (b, st.tracer.spans.length) :: st.createSpanByRequestID,
          deferred := st.tracer.spans.length :: st.deferred }
      have hlen : (st.tracer.Start ctx.span ("create " ++ getQueueName q) .SpanKindProducer
            (createSpanAttrs q b) (some ts)).1.spans.length = st.tracer.spans.length + 1 := by
        simp [Tracer.Start]
      refine ⟨st1, ?_, ?_, ?_, ?_, ?_, ?_, ?_⟩
      · simp only [startCreateSpans, hid]
        exact h1
      · rw [h2]
        simp [Tracer.Start, hid, createSpan, hctx]
      · rw [h3]
        rfl
      · rw [h4, hlen]
        simp [List.range'_succ]
      · intro k hk
        rw [h5 k (fun e1 h1 => hk e1 (List.mem_cons_of_mem _ h1))]
        have hb : k ≠ b := by
          intro h
          exact hk e0 (List.mem_cons_self _ _) (by rw [hid, h])
        exact lookup_cons_ne k b hb _ _
      · intro k v hk
        rcases h6 k v hk with h | ⟨j, e, hv, hj, he⟩
        · by_cases hb : k = b
          · subst hb
            rw [lookup_cons_self] at h
            right
            exact ⟨0, e0, by simpa using (Option.some.inj h).symm, by simp, hid⟩
          · left
            rw [lookup_cons_ne k b hb] at h
            exact h
        · right
          refine ⟨j + 1, e, ?_, by simpa using hj, he⟩
          rw [hv, hlen]
          omega
      · intro pre e post k hsplit hek hpost
        cases pre with
        | nil =>
          simp at hsplit
          obtain ⟨he, hp⟩ := hsplit
          subst he hp
          rw [h5 k hpost]
          have hb : k = b := by
            rw [hid] at hek
            exact (Option.some.inj hek).symm
          rw [hb]
          simp [lookup_cons_self]
        | cons p0 pre1 =>
          simp at hsplit
          obtain ⟨_, hp⟩ := hsplit
          rw [h7 pre1 e post k hp hek hpost, hlen]
          simp
          omega


/-- A batch request with a queue URL and identifiers on all entries reaches the call of
the next handler with the span of the request and one `create` span per entry started,
none of them ended, and the state described by `startCreateSpans_ok`. -/
theorem middleware_batch (now : Nat) (t : Tracer) (ctx : Context) (q : String)
    (entries : List SendMessageBatchRequestEntry) (hIds : ∀ e ∈ entries, e.Id ≠ none) :
    ∃ st1 : BatchState,
      (∀ handler : InitializeHandler,
        middleware now t ctx ⟨.SendMessageBatchInput { QueueUrl := some q, Entries := entries }⟩
            handler =
          afterStart handler (handlerContext now t ctx)
            ⟨.SendMessageBatchInput { QueueUrl := some q, Entries := entries }⟩ t.spans.length
            st1) ∧
      st1.tracer.spans = t.spans ++
        batchSpan ctx { QueueUrl := some q, Entries := entries } q ::
          entries.map (fun e => createSpan t.spans.length q now (e.Id.getD "")) ∧
      st1.tracer.exported = t.exported ∧
      st1.deferred = (List.range' (t.spans.length + 1) entries.length).reverse ∧
      (∀ k, (∀ e ∈ entries, e.Id ≠ some k) → st1.createSpanByRequestID.lookup k = none) ∧
      (∀ k v, st1.createSpanByRequestID.lookup k = some v →
        ∃ j e, v = t.spans.length + 1 + j ∧ entries[j]? = some e ∧ e.Id = some k) ∧
      (∀ pre e post k, entries = pre ++ e :: post → e.Id = some k →
        (∀ e1 ∈ post, e1.Id ≠ some k) →
        st1.createSpanByRequestID.lookup k = some (t.spans.length + 1 + pre.length)) := by
  obtain ⟨st1, h1, h2, h3, h4, h5, h6, h7⟩ :=
    startCreateSpans_ok (handlerContext now t ctx) t.spans.length rfl q now entries hIds
      { tracer := (t.Start ctx.span ("publish " ++ getQueueName q) .SpanKindClient
          (sendMessageBatchAttrs ctx.serviceID ctx.operation
            { QueueUrl := some q, Entries := entries }) none).1 }
  have hlen : (t.Start ctx.span ("publish " ++ getQueueName q) .SpanKindClient
      (sendMessageBatchAttrs ctx.serviceID ctx.operation
        { QueueUrl := some q, Entries := entries }) none).1.spans.length = t.spans.length + 1 := by
    simp [Tracer.Start]
  refine ⟨st1, ?_, ?_, ?_, ?_, ?_, ?_, ?_⟩
  · intro handler
    simp only [middleware, initializeBefore, initializeAfter]
    have h1b := h1
    simp only [handlerContext, Tracer.Start] at h1b
    simp only [Tracer.Start, h1b]
    rfl
  · rw [h2]
    simp [Tracer.Start, batchSpan]
  · rw [h3]
    rfl
  · rw [h4, hlen]
    simp
  · intro k hk
    rw [h5 k hk]
    rfl
  · intro k v hk
    rcases h6 k v hk with h | ⟨j, e, hv, hj, he⟩
    · simp [List.lookup] at h
    · exact ⟨j, e, by rw [hv, hlen], hj, he⟩
  · intro pre e post k hs hk hp
    rw [h7 pre e post k hs hk hp, hlen]


theorem newSpan_endCalls (parent : Option Nat) (name : String) (kind : SpanKind)
    (attrs : List KeyValue) (timestamp : Option Nat) :
    (newSpan parent name kind attrs timestamp).endCalls = 0 := by
  unfold newSpan
  rw [Span_SetAttributes_endCalls]

/-- The deferred calls of a batch request name each new span once. -/
theorem deferred_count (n0 n v : Nat) (h0 : n0 ≤ v) (h1 : v < n0 + 1 + n) :
    (n0 :: (List.range' (n0 + 1) n).reverse).count v = 1 := by
  have hp : (n0 :: (List.range' (n0 + 1) n).reverse).Perm (List.range' n0 (n + 1)) := by
    rw [List.range'_succ]
    exact List.Perm.cons _ (List.reverse_perm _)
  rw [hp.count_eq]
  apply List.count_eq_one_of_mem (List.nodup_range' _ _)
  rw [List.mem_range']
  exact ⟨v - n0, by omega, by omega⟩

/-- The spans after the whole call: those left by the reconciliation, each with one more
`End` call for each time it is named by a deferred call; the reconciliation itself does
not change the number of `End` calls. -/
theorem afterStart_spans (handler : InitializeHandler) (ctx : Context)
    (input : InitializeInput) (span : Nat) (st : BatchState) (v : Nat) :
    (afterStart handler ctx input span st).tracer.spans[v]? =
      ((stateOf (reconcileResult span st.createSpanByRequestID
          (recordOutcome st.tracer span (handler ctx input))
          (handler ctx input).out.Result)).spans[v]?).map fun s =>
        { s with endCalls := s.endCalls + (span :: st.deferred).count v } := by
  rw [(afterStart_eq handler ctx input span st).1, runDeferred_spans]

theorem reconciled_endCalls (span : Nat) (m : List (String × Nat)) (t : Tracer)
    (res : HandlerResult) (v : Nat) :
    ((stateOf (reconcileResult span m (recordOutcome t span res) res.out.Result)).spans[v]?).map
        (·.endCalls) = (t.spans[v]?).map (·.endCalls) := by
  have he := reconcileResult_endCalls span m (recordOutcome t span res) res.out.Result
  rw [recordOutcome_endCalls] at he
  have hv := congrArg (fun l => l[v]?) he
  simpa only [List.getElem?_map] using hv


/-- The spans of a batch request at the call of the handler: none was ended. -/
theorem opened_endCalls (t : Tracer) (ctx : Context) (params : SendMessageBatchInput)
    (q : String) (now : Nat) (entries : List SendMessageBatchRequestEntry) (v : Nat) (s : Span)
    (hv : t.spans.length ≤ v)
    (hs : (t.spans ++ batchSpan ctx params q ::
      entries.map (fun e => createSpan t.spans.length q now (e.Id.getD "")))[v]? = some s) :
    s.endCalls = 0 ∧ v < t.spans.length + 1 + entries.length := by
  rw [List.getElem?_append_right hv] at hs
  have hmem := List.getElem?_mem hs
  have hlt : v - t.spans.length < (batchSpan ctx params q ::
      entries.map (fun e => createSpan t.spans.length q now (e.Id.getD ""))).length := by
    rcases List.getElem?_eq_some.mp hs with ⟨h, _⟩
    exact h
  refine ⟨?_, ?_⟩
  · rcases List.mem_cons.mp hmem with h | h
    · rw [h]
      exact newSpan_endCalls _ _ _ _ _
    · obtain ⟨e, _, he⟩ := List.mem_map.mp h
      rw [← he]
      exact newSpan_endCalls _ _ _ _ _
  · simp at hlt
    omega

/-- After a batch request whose entries have identifiers, whatever the handler returned,
the tracer holds the spans that were there, the span of the request and one span per
entry, and each of the new spans was ended exactly once. -/
theorem batch_spans_ended_once (now : Nat) (t : Tracer) (ctx : Context)
    (q : String) (entries : List SendMessageBatchRequestEntry)
    (hIds : ∀ e ∈ entries, e.Id ≠ none) (handler : InitializeHandler) :
    (middleware now t ctx ⟨.SendMessageBatchInput { QueueUrl := some q, Entries := entries }⟩
      handler).tracer.spans.length = t.spans.length + 1 + entries.length ∧
    ∀ s ∈ (middleware now t ctx
        ⟨.SendMessageBatchInput { QueueUrl := some q, Entries := entries }⟩
        handler).tracer.spans.drop t.spans.length, s.endCalls = 1 := by
  obtain ⟨st1, hrun, hspans, _, hdef, _, _, _⟩ := middleware_batch now t ctx q entries hIds
  rw [hrun handler]
  have hlen : (afterStart handler (handlerContext now t ctx)
      ⟨.SendMessageBatchInput { QueueUrl := some q, Entries := entries }⟩ t.spans.length
      st1).tracer.spans.length = t.spans.length + 1 + entries.length := by
    rw [(afterStart_eq _ _ _ _ _).1, runDeferred_length]
    have h := congrArg List.length (reconcileResult_endCalls t.spans.length
      st1.createSpanByRequestID (recordOutcome st1.tracer t.spans.length
        (handler (handlerContext now t ctx)
          ⟨.SendMessageBatchInput { QueueUrl := some q, Entries := entries }⟩))
      (handler (handlerContext now t ctx)
          ⟨.SendMessageBatchInput { QueueUrl := some q, Entries := entries }⟩).out.Result)
    have h2 := congrArg List.length (recordOutcome_endCalls st1.tracer t.spans.length
        (handler (handlerContext now t ctx)
          ⟨.SendMessageBatchInput { QueueUrl := some q, Entries := entries }⟩))
    simp only [List.length_map] at h h2
    rw [h, h2, hspans]
    simp
    omega
  refine ⟨hlen, ?_⟩
  intro s hs
  obtain ⟨i, hi⟩ := List.mem_iff_getElem?.mp hs
  rw [List.getElem?_drop, afterStart_spans] at hi
  have hre := reconciled_endCalls t.spans.length st1.createSpanByRequestID st1.tracer
    (handler (handlerContext now t ctx)
      ⟨.SendMessageBatchInput { QueueUrl := some q, Entries := entries }⟩) (t.spans.length + i)
  cases h1 : (stateOf (reconcileResult t.spans.length st1.createSpanByRequestID
      (recordOutcome st1.tracer t.spans.length (handler (handlerContext now t ctx)
        ⟨.SendMessageBatchInput { QueueUrl := some q, Entries := entries }⟩))
      (handler (handlerContext now t ctx)
        ⟨.SendMessageBatchInput { QueueUrl := some q, Entries := entries }⟩).out.Result)).spans[
          t.spans.length + i]? with
  | none => rw [h1] at hi; simp at hi
  | some s1 =>
    rw [h1] at hi hre
    cases h0 : st1.tracer.spans[t.spans.length + i]? with
    | none => rw [h0] at hre; simp at hre
    | some s0 =>
      rw [h0] at hre
      simp only [Option.map_some', Option.some.injEq] at hre hi
      rw [hspans] at h0
      obtain ⟨hz, hlt⟩ := opened_endCalls t ctx _ q now entries _ s0 (Nat.le_add_right _ _) h0
      rw [← hi, hdef]
      simp only
      rw [deferred_count _ _ _ (Nat.le_add_right _ _) hlt, hre, hz]

/-- C6: on every batch request whose entries have identifiers and for every result or
error of the next handler, the span of the request and one `create` span per entry are
open when the handler is called, and each of these spans has been ended exactly once when
the middleware function is left (by return or by panic). -/
theorem batch_spans_opened_before_call_closed_once (now : Nat) (t : Tracer) (ctx : Context)
    (q : String) (entries : List SendMessageBatchRequestEntry)
    (hIds : ∀ e ∈ entries, e.Id ≠ none) (handler : InitializeHandler) :
    (∃ call,
      (middleware now t ctx ⟨.SendMessageBatchInput { QueueUrl := some q, Entries := entries }⟩
        handler).handlerCalls = [call] ∧
      call.tracer.spans = t.spans ++
        batchSpan ctx { QueueUrl := some q, Entries := entries } q ::
          entries.map (fun e => createSpan t.spans.length q now (e.Id.getD "")) ∧
      ∀ s ∈ call.tracer.spans.drop t.spans.length, s.endCalls = 0) ∧
    (middleware now t ctx ⟨.SendMessageBatchInput { QueueUrl := some q, Entries := entries }⟩
      handler).tracer.spans.length = t.spans.length + 1 + entries.length ∧
    ∀ s ∈ (middleware now t ctx
        ⟨.SendMessageBatchInput { QueueUrl := some q, Entries := entries }⟩
        handler).tracer.spans.drop t.spans.length, s.endCalls = 1 := by
  obtain ⟨st1, hrun, hspans, _, _, _, _, _⟩ := middleware_batch now t ctx q entries hIds
  refine ⟨⟨{ ctx := handlerContext now t ctx,
             input := ⟨.SendMessageBatchInput { QueueUrl := some q, Entries := entries }⟩,
             tracer := st1.tracer }, ?_, hspans, ?_⟩,
    batch_spans_ended_once now t ctx q entries hIds handler⟩
  · rw [hrun handler]
    exact (afterStart_eq _ _ _ _ _).2.1
  · intro s hs
    simp only [hspans, List.drop_left] at hs
    rcases List.mem_cons.mp hs with h | h
    · rw [h]
      exact newSpan_endCalls _ _ _ _ _
    · obtain ⟨e, _, he⟩ := List.mem_map.mp h
      rw [← he]
      exact newSpan_endCalls _ _ _ _ _

/-- C6, at the test request and response: five spans, at the call of the handler and
after it. -/
theorem batch_spans_opened_before_call_closed_once_witness :
    (∀ e ∈ testBatchInput.Entries, e.Id ≠ none) ∧
    (middleware 7 {} testBatchContext ⟨.SendMessageBatchInput testBatchInput⟩
      (respondWith (some (.SendMessageBatchOutput testBatchOutput)))).tracer.spans.length = 5 ∧
    ∀ s ∈ (middleware 7 {} testBatchContext ⟨.SendMessageBatchInput testBatchInput⟩
      (respondWith (some (.SendMessageBatchOutput testBatchOutput)))).tracer.spans.drop 0,
      s.endCalls = 1 :=
  ⟨by decide,
   (batch_spans_opened_before_call_closed_once 7 {} testBatchContext testQueueURL
     testBatchInput.Entries (by decide)
     (respondWith (some (.SendMessageBatchOutput testBatchOutput)))).2⟩

end Otelsqs

namespace Otelsqs
open Otel Sqs

/-- A result none of whose identifiers is bound to the span `v`, which is not the span
of the request, leaves `v` as it is, also when the reconciliation panics. -/
theorem reconcileResult_frame (span : Nat) (m : List (String × Nat)) (v : Nat) (hv : v ≠ span)
    (result : Option Result)
    (hids : ∀ id ∈ resultIds result, ∀ b, id = some b → m.lookup b ≠ some v) (t : Tracer) :
    (stateOf (reconcileResult span m t result)).spans[v]? = t.spans[v]? := by
  cases result with
  | none => rfl
  | some r =>
    cases r with
    | SendMessageOutput res =>
      cases hm : res.MessageId with
      | none => simp only [reconcileResult, hm, stateOf]
      | some mid => simp only [reconcileResult, hm, stateOf, Tracer_SetAttributes_spans, hv, if_false]
    | SendMessageBatchOutput res =>
      apply reconcileBatch_frame
      · intro e he b hb
        exact hids e.Id (by simp only [resultIds, List.mem_append, List.mem_map]; exact Or.inl ⟨e, he, rfl⟩) b hb
      · intro e he b hb
        exact hids e.Id (by simp only [resultIds, List.mem_append, List.mem_map]; exact Or.inr ⟨e, he, rfl⟩) b hb
    | other op => rfl

/-- Success entries whose identifiers are bound to no span leave the tracer as it is. -/
theorem reconcileSuccessful_unbound (m : List (String × Nat))
    (es : List SendMessageBatchResultEntry)
    (hes : ∀ e ∈ es, ∀ b, e.Id = some b → m.lookup b = none) (t : Tracer) :
    stateOf (reconcileSuccessful m t es) = t := by
  induction es with
  | nil => rfl
  | cons e rest ih =>
    have hrest : ∀ e ∈ rest, ∀ b, e.Id = some b → m.lookup b = none :=
      fun e1 h1 => hes e1 (List.mem_cons_of_mem _ h1)
    cases hid : e.Id with
    | none => simp only [reconcileSuccessful, hid, stateOf]
    | some b =>
      have hl := hes e (List.mem_cons_self _ _) b hid
      simp only [reconcileSuccessful, hid, hl]
      exact ih hrest

theorem reconcileFailed_unbound (m : List (String × Nat))
    (es : List BatchResultErrorEntry)
    (hes : ∀ e ∈ es, ∀ b, e.Id = some b → m.lookup b = none) (t : Tracer) :
    stateOf (reconcileFailed m t es) = t := by
  induction es with
  | nil => rfl
  | cons e rest ih =>
    have hrest : ∀ e ∈ rest, ∀ b, e.Id = some b → m.lookup b = none :=
      fun e1 h1 => hes e1 (List.mem_cons_of_mem _ h1)
    cases hid : e.Id with
    | none => simp only [reconcileFailed, hid, stateOf]
    | some b =>
      have hl := hes e (List.mem_cons_self _ _) b hid
      simp only [reconcileFailed, hid, hl]
      exact ih hrest

/-- A batch result whose identifiers are bound to no span leaves the tracer as it is. -/
theorem reconcileBatch_unbound (span : Nat) (m : List (String × Nat))
    (res : SendMessageBatchOutput)
    (hs : ∀ e ∈ res.Successful, ∀ b, e.Id = some b → m.lookup b = none)
    (hf : ∀ e ∈ res.Failed, ∀ b, e.Id = some b → m.lookup b = none) (t : Tracer) :
    stateOf (reconcileResult span m t (some (.SendMessageBatchOutput res))) = t := by
  have h1 := reconcileSuccessful_unbound m res.Successful hs t
  cases hr : reconcileSuccessful m t res.Successful with
  | error t1 =>
    rw [hr] at h1
    simp only [reconcileResult, hr]
    exact h1
  | ok t1 =>
    rw [hr] at h1
    simp only [reconcileResult, hr]
    rw [reconcileFailed_unbound m res.Failed hf t1]
    exact h1

/-- The span `v` after a batch result was reconciled without a panic. -/
theorem reconcileBatch_ok_spans (span : Nat) (m : List (String × Nat)) (v : Nat)
    (res : SendMessageBatchOutput)
    (hs : ∀ e ∈ res.Successful, e.Id ≠ none ∧ e.MessageId ≠ none)
    (hf : ∀ e ∈ res.Failed, e.Id ≠ none) (t : Tracer) :
    (stateOf (reconcileResult span m t (some (.SendMessageBatchOutput res)))).spans[v]? =
      (t.spans[v]?).map fun s =>
        res.Failed.foldl (failedEffect m v) (res.Successful.foldl (successEffect m v) s) := by
  obtain ⟨t1, h1⟩ := reconcileSuccessful_ok m res.Successful hs t
  obtain ⟨t2, h2⟩ := reconcileFailed_ok m res.Failed hf t1
  simp only [reconcileResult, h1, h2, stateOf]
  rw [reconcileFailed_ok_spans m v res.Failed t1 t2 h2,
    reconcileSuccessful_ok_spans m v res.Successful t t1 h1]
  cases t.spans[v]? <;> simp

/-- With a map that binds exactly `k` to `v`, a success entry does to `v` what it does
under the map that holds this one binding. -/
theorem successEffect_single (m : List (String × Nat)) (k : String) (v : Nat)
    (hm : ∀ b, m.lookup b = some v ↔ b = k) (s : Span) (e : SendMessageBatchResultEntry) :
    successEffect m v s e = successEffect [(k, v)] v s e := by
  unfold successEffect
  cases hid : e.Id with
  | none => rfl
  | some b =>
    cases hmid : e.MessageId with
    | none => rfl
    | some mid =>
      simp only
      by_cases hb : b = k
      · subst hb
        simp [(hm b).mpr rfl, lookup_cons_self]
      · have h1 : ¬ m.lookup b = some v := fun h => hb ((hm b).mp h)
        have h2 : List.lookup b [(k, v)] = none := by
          rw [lookup_cons_ne b k hb]
          rfl
        simp [h1, h2]

theorem failedEffect_single (m : List (String × Nat)) (k : String) (v : Nat)
    (hm : ∀ b, m.lookup b = some v ↔ b = k) (s : Span) (e : BatchResultErrorEntry) :
    failedEffect m v s e = failedEffect [(k, v)] v s e := by
  unfold failedEffect
  cases hid : e.Id with
  | none => rfl
  | some b =>
    simp only
    by_cases hb : b = k
    · subst hb
      simp [(hm b).mpr rfl, lookup_cons_self]
    · have h1 : ¬ m.lookup b = some v := fun h => hb ((hm b).mp h)
      have h2 : List.lookup b [(k, v)] = none := by
        rw [lookup_cons_ne b k hb]
        rfl
      simp [h1, h2]


/-- The `create` span of the entry at position `pre.length`, at the call of the handler. -/
theorem child_at (t : Tracer) (parentSpan : Span) (q : String) (now : Nat)
    (pre post : List SendMessageBatchRequestEntry) (entry : SendMessageBatchRequestEntry)
    (k : String) (hk : entry.Id = some k) :
    (t.spans ++ parentSpan :: (pre ++ entry :: post).map
      (fun e => createSpan t.spans.length q now (e.Id.getD "")))[t.spans.length + 1 + pre.length]? =
      some (createSpan t.spans.length q now k) := by
  rw [List.getElem?_append_right (by omega)]
  have h1 : t.spans.length + 1 + pre.length - t.spans.length = pre.length + 1 := by omega
  rw [h1, List.getElem?_cons_succ, List.map_append, List.getElem?_append_right (by simp)]
  simp [hk]

/-- In the map of a batch request, only the identifier of the entry at position
`pre.length` can be bound to the span of that entry. -/
theorem bound_to_child (base : Nat) (pre post : List SendMessageBatchRequestEntry)
    (entry : SendMessageBatchRequestEntry) (k b : String) (hk : entry.Id = some k)
    (h : ∃ j e, base + pre.length = base + j ∧ (pre ++ entry :: post)[j]? = some e ∧
      e.Id = some b) : b = k := by
  obtain ⟨j, e, hj, he, hb⟩ := h
  have hj2 : j = pre.length := by omega
  subst hj2
  rw [List.getElem?_append_right (Nat.le_refl _)] at he
  simp at he
  subst he
  rw [hk] at hb
  exact (Option.some.inj hb).symm

/-- The `create` span of an entry that no result names is left as it was started, and
ended once, whatever the handler returns. -/
theorem batch_child_untouched (now : Nat) (t : Tracer) (ctx : Context) (q : String)
    (pre post : List SendMessageBatchRequestEntry) (entry : SendMessageBatchRequestEntry)
    (k : String) (hIds : ∀ e ∈ pre ++ entry :: post, e.Id ≠ none) (hk : entry.Id = some k)
    (handler : InitializeHandler)
    (hres : some k ∉ resultIds (handler (handlerContext now t ctx)
      ⟨.SendMessageBatchInput { QueueUrl := some q, Entries := pre ++ entry :: post }⟩).out.Result) :
    (middleware now t ctx
      ⟨.SendMessageBatchInput { QueueUrl := some q, Entries := pre ++ entry :: post }⟩
      handler).tracer.spans[t.spans.length + 1 + pre.length]? =
      some (Span.End (createSpan t.spans.length q now k)) := by
  obtain ⟨st1, hrun, hspans, _, hdef, _, hbound, _⟩ :=
    middleware_batch now t ctx q (pre ++ entry :: post) hIds
  rw [hrun handler, afterStart_spans, reconcileResult_frame _ _ _ (by omega),
    recordOutcome_frame _ _ _ (by omega), hspans, child_at t _ q now pre post entry k hk, hdef,
    deferred_count _ _ _ (by omega) (by simp)]
  · rfl
  · intro id hid b hb hl
    have := bound_to_child (t.spans.length + 1) pre post entry k b hk (hbound b _ hl)
    subst this
    subst hb
    exact hres hid

/-- The `create` span of the last entry with the identifier `k` after a well-formed batch
result was reconciled: the failure entries, after the success entries, that carry `k`
have been applied to it, and it was ended once. -/
theorem batch_child_final (now : Nat) (t : Tracer) (ctx : Context) (q : String)
    (pre post : List SendMessageBatchRequestEntry) (entry : SendMessageBatchRequestEntry)
    (k : String) (hIds : ∀ e ∈ pre ++ entry :: post, e.Id ≠ none) (hk : entry.Id = some k)
    (hlast : ∀ e ∈ post, e.Id ≠ some k)
    (handler : InitializeHandler) (out : SendMessageBatchOutput)
    (hres : (handler (handlerContext now t ctx)
      ⟨.SendMessageBatchInput { QueueUrl := some q, Entries := pre ++ entry :: post }⟩).out.Result =
        some (.SendMessageBatchOutput out))
    (hwf : ResultWellFormed (some (.SendMessageBatchOutput out))) :
    (middleware now t ctx
      ⟨.SendMessageBatchInput { QueueUrl := some q, Entries := pre ++ entry :: post }⟩
      handler).tracer.spans[t.spans.length + 1 + pre.length]? =
      some (Span.End (out.Failed.foldl
        (failedEffect [(k, t.spans.length + 1 + pre.length)] (t.spans.length + 1 + pre.length))
        (out.Successful.foldl
          (successEffect [(k, t.spans.length + 1 + pre.length)] (t.spans.length + 1 + pre.length))
          (createSpan t.spans.length q now k)))) := by
  obtain ⟨st1, hrun, hspans, _, hdef, _, hbound, hlookup⟩ :=
    middleware_batch now t ctx q (pre ++ entry :: post) hIds
  have hm : ∀ b, st1.createSpanByRequestID.lookup b = some (t.spans.length + 1 + pre.length) ↔
      b = k := by
    intro b
    constructor
    · intro hl
      exact bound_to_child (t.spans.length + 1) pre post entry k b hk (hbound b _ hl)
    · intro hb
      rw [hb]
      exact hlookup pre entry post k rfl hk hlast
  have hs : successEffect st1.createSpanByRequestID (t.spans.length + 1 + pre.length) =
      successEffect [(k, t.spans.length + 1 + pre.length)] (t.spans.length + 1 + pre.length) := by
    funext s e
    exact successEffect_single _ k _ hm s e
  have hf : failedEffect st1.createSpanByRequestID (t.spans.length + 1 + pre.length) =
      failedEffect [(k, t.spans.length + 1 + pre.length)] (t.spans.length + 1 + pre.length) := by
    funext s e
    exact failedEffect_single _ k _ hm s e
  rw [hrun handler, afterStart_spans, hres, reconcileBatch_ok_spans _ _ _ _ hwf.1 hwf.2,
    recordOutcome_frame _ _ _ (by omega), hspans, child_at t _ q now pre post entry k hk, hdef,
    deferred_count _ _ _ (by omega) (by simp), hs, hf]
  rfl

end Otelsqs

namespace Otelsqs
open Otel Sqs

/-- The `create` span as it is started: its creation attributes, no status, no event,
not ended. -/
theorem createSpan_fields (parent : Nat) (q : String) (ts : Nat) (k : String) :
    (createSpan parent q ts k).attributes = createSpanAttrs q k ∧
    (createSpan parent q ts k).status = {} ∧
    (createSpan parent q ts k).events = [] ∧
    (createSpan parent q ts k).endCalls = 0 := by
  refine ⟨?_, rfl, rfl, rfl⟩
  simp [createSpan, newSpan, Span.SetAttributes, createSpanAttrs, setAttr,
    Semconv.MessagingSystemAWSSqs, Semconv.MessagingOperationTypeCreate,
    Semconv.MessagingDestinationName, Semconv.NetworkPeerAddress, attrString,
    KeySQSBatchRequestID]

/-- Setting the message id on a span that holds the creation attributes, with or without
a message id, leaves the creation attributes followed by the new message id. -/
theorem setAttr_messageID (q k m : String) (attrs : List KeyValue)
    (h : attrs = createSpanAttrs q k ∨
      ∃ x, attrs = createSpanAttrs q k ++ [Semconv.MessagingMessageID x]) :
    setAttr (Semconv.MessagingMessageID m) attrs =
      createSpanAttrs q k ++ [Semconv.MessagingMessageID m] := by
  rcases h with h | ⟨x, h⟩ <;> subst h <;>
    simp [createSpanAttrs, setAttr, Semconv.MessagingSystemAWSSqs,
      Semconv.MessagingOperationTypeCreate, Semconv.MessagingDestinationName,
      Semconv.NetworkPeerAddress, Semconv.MessagingMessageID, attrString, KeySQSBatchRequestID]


/-- A success entry with another identifier does nothing to the span bound to `k`. -/
theorem successEffect_other (k : String) (v : Nat) (s : Span) (e : SendMessageBatchResultEntry)
    (he : e.Id ≠ some k) : successEffect [(k, v)] v s e = s := by
  unfold successEffect
  cases hid : e.Id with
  | none => rfl
  | some b =>
    cases hmid : e.MessageId with
    | none => rfl
    | some mid =>
      have hb : b ≠ k := fun h => he (by rw [hid, h])
      have h2 : List.lookup b [(k, v)] = none := by
        rw [lookup_cons_ne b k hb]
        rfl
      simp only [h2]
      rfl

theorem failedEffect_other (k : String) (v : Nat) (s : Span) (e : BatchResultErrorEntry)
    (he : e.Id ≠ some k) : failedEffect [(k, v)] v s e = s := by
  unfold failedEffect
  cases hid : e.Id with
  | none => rfl
  | some b =>
    have hb : b ≠ k := fun h => he (by rw [hid, h])
    have h2 : List.lookup b [(k, v)] = none := by
      rw [lookup_cons_ne b k hb]
      rfl
    simp only [h2]
    rfl

theorem foldl_successEffect_other (k : String) (v : Nat)
    (es : List SendMessageBatchResultEntry) (hes : ∀ e ∈ es, e.Id ≠ some k) (s : Span) :
    es.foldl (successEffect [(k, v)] v) s = s := by
  induction es generalizing s with
  | nil => rfl
  | cons e rest ih =>
    rw [List.foldl_cons, successEffect_other k v s e (hes e (List.mem_cons_self _ _))]
    exact ih (fun e1 h1 => hes e1 (List.mem_cons_of_mem _ h1)) s

theorem foldl_failedEffect_other (k : String) (v : Nat)
    (es : List BatchResultErrorEntry) (hes : ∀ e ∈ es, e.Id ≠ some k) (s : Span) :
    es.foldl (failedEffect [(k, v)] v) s = s := by
  induction es generalizing s with
  | nil => rfl
  | cons e rest ih =>
    rw [List.foldl_cons, failedEffect_other k v s e (hes e (List.mem_cons_self _ _))]
    exact ih (fun e1 h1 => hes e1 (List.mem_cons_of_mem _ h1)) s

/-- A success entry with the identifier `k` and the message id `mid`, applied to the
open span bound to `k`. -/
theorem successEffect_self (k mid : String) (v : Nat) (s : Span)
    (e : SendMessageBatchResultEntry) (hid : e.Id = some k) (hmid : e.MessageId = some mid)
    (hopen : s.endCalls = 0) :
    successEffect [(k, v)] v s e =
      { s with attributes := setAttr (Semconv.MessagingMessageID mid) s.attributes,
               status := { Code := .Ok, Description := "" } } := by
  unfold successEffect
  rw [hid, hmid]
  simp only [lookup_cons_self, if_true]
  cases hc : s.status.Code <;>
    simp [Span.SetAttributes, Span.SetStatus, hopen, hc, Code.toNat]

/-- The success entries keep the span bound to `k` open and without events, with the
creation attributes and at most a message id after them. -/
theorem foldl_successEffect_inv (q k : String) (v : Nat)
    (es : List SendMessageBatchResultEntry) (s : Span)
    (hopen : s.endCalls = 0) (hev : s.events = [])
    (hattrs : s.attributes = createSpanAttrs q k ∨
      ∃ x, s.attributes = createSpanAttrs q k ++ [Semconv.MessagingMessageID x]) :
    (es.foldl (successEffect [(k, v)] v) s).endCalls = 0 ∧
    (es.foldl (successEffect [(k, v)] v) s).events = [] ∧
    ((es.foldl (successEffect [(k, v)] v) s).attributes = createSpanAttrs q k ∨
      ∃ x, (es.foldl (successEffect [(k, v)] v) s).attributes =
        createSpanAttrs q k ++ [Semconv.MessagingMessageID x]) := by
  induction es generalizing s with
  | nil => exact ⟨hopen, hev, hattrs⟩
  | cons e rest ih =>
    rw [List.foldl_cons]
    by_cases hid : e.Id = some k
    · cases hmid : e.MessageId with
      | none =>
        have : successEffect [(k, v)] v s e = s := by
          unfold successEffect
          rw [hid, hmid]
        rw [this]
        exact ih s hopen hev hattrs
      | some mid =>
        rw [successEffect_self k mid v s e hid hmid hopen]
        apply ih
        · exact hopen
        · exact hev
        · right
          exact ⟨mid, setAttr_messageID q k mid s.attributes hattrs⟩
    · rw [successEffect_other k v s e hid]
      exact ih s hopen hev hattrs

/-- The failure entries leave the attributes of a span alone, and its status too once it
is Ok. -/
theorem foldl_failedEffect_ok (m : List (String × Nat)) (v : Nat)
    (es : List BatchResultErrorEntry) (s : Span) (hopen : s.endCalls = 0)
    (hok : s.status.Code = .Ok) :
    (es.foldl (failedEffect m v) s).attributes = s.attributes ∧
    (es.foldl (failedEffect m v) s).status = s.status ∧
    (es.foldl (failedEffect m v) s).endCalls = 0 := by
  induction es generalizing s with
  | nil => exact ⟨rfl, rfl, hopen⟩
  | cons e rest ih =>
    rw [List.foldl_cons]
    have hstep : (failedEffect m v s e).attributes = s.attributes ∧
        (failedEffect m v s e).status = s.status ∧ (failedEffect m v s e).endCalls = 0 := by
      unfold failedEffect
      cases e.Id with
      | none => exact ⟨rfl, rfl, hopen⟩
      | some b =>
        simp only
        split
        · simp [Span.RecordError, Span.SetStatus, hopen, hok, Code.toNat]
        · exact ⟨rfl, rfl, hopen⟩
    obtain ⟨h1, h2, h3⟩ := ih (failedEffect m v s e) hstep.2.2 (by rw [hstep.2.1]; exact hok)
    exact ⟨h1.trans hstep.1, h2.trans hstep.2.1, h3⟩


/-- A failure entry with the identifier `k`, applied to the open span bound to `k` whose
status is not Ok. -/
theorem failedEffect_self (k : String) (v : Nat) (s : Span) (e : BatchResultErrorEntry)
    (hid : e.Id = some k) (hopen : s.endCalls = 0) (hst : s.status.Code ≠ .Ok) :
    failedEffect [(k, v)] v s e =
      { s with
        events := s.events ++
          [{ err := SendMessageBatchError.toGoError (some { Entry := e }),
             attrs := [attrString KeySQSBatchRequestID k,
                       attrString KeyAWSErrorCode (e.Code.getD ""),
                       attrBool KeyAWSErrorSendFault e.SenderFault] }],
        status := { Code := .Error,
                    Description := SendMessageBatchError.Error (some { Entry := e }) } } := by
  unfold failedEffect
  rw [hid]
  simp only [lookup_cons_self, if_true]
  have hcode : SendMessageBatchError.Code (some { Entry := e }) = e.Code.getD "" := by
    cases hc : e.Code <;> simp [SendMessageBatchError.Code, hc]
  have hbid : SendMessageBatchError.BatchRequestID (some { Entry := e }) = k := by
    unfold SendMessageBatchError.BatchRequestID
    simp only [hid]
  have hsf : SendMessageBatchError.SenderFault (some { Entry := e }) = e.SenderFault := rfl
  rw [hcode, hbid, hsf]
  cases hc : s.status.Code with
  | Ok => exact absurd hc hst
  | Unset => simp [Span.RecordError, Span.SetStatus, hopen, hc, Code.toNat]
  | Error => simp [Span.RecordError, Span.SetStatus, hopen, hc, Code.toNat]

/-- C2 (amended): on a batch request whose entries have identifiers, for a well-formed
batch result and a success entry whose identifier is that of a submitted entry and is
carried by no later success entry, the `create` span bound to that identifier (the span
of the last submitted entry that has it) ends with status Ok and carries the creation
attributes followed by `messaging.message.id` with the message id of that entry. -/
theorem success_entry_marks_child_span (now : Nat) (t : Tracer) (ctx : Context) (q : String)
    (pre post : List SendMessageBatchRequestEntry) (entry : SendMessageBatchRequestEntry)
    (k : String) (hIds : ∀ e ∈ pre ++ entry :: post, e.Id ≠ none) (hk : entry.Id = some k)
    (hlast : ∀ e ∈ post, e.Id ≠ some k)
    (handler : InitializeHandler) (out : SendMessageBatchOutput)
    (hres : (handler (handlerContext now t ctx)
      ⟨.SendMessageBatchInput { QueueUrl := some q, Entries := pre ++ entry :: post }⟩).out.Result =
        some (.SendMessageBatchOutput out))
    (hwf : ResultWellFormed (some (.SendMessageBatchOutput out)))
    (sp spost : List SendMessageBatchResultEntry) (se : SendMessageBatchResultEntry)
    (mid : String) (hsplit : out.Successful = sp ++ se :: spost) (hse : se.Id = some k)
    (hmid : se.MessageId = some mid) (hnolater : ∀ e ∈ spost, e.Id ≠ some k) :
    ∃ s, (middleware now t ctx
        ⟨.SendMessageBatchInput { QueueUrl := some q, Entries := pre ++ entry :: post }⟩
        handler).tracer.spans[t.spans.length + 1 + pre.length]? = some s ∧
      s.status = { Code := .Ok, Description := "" } ∧
      s.attributes = createSpanAttrs q k ++ [Semconv.MessagingMessageID mid] ∧
      s.endCalls = 1 := by
  refine ⟨_, batch_child_final now t ctx q pre post entry k hIds hk hlast handler out hres hwf,
    ?_⟩
  obtain ⟨hattrs, _, hev, hopen⟩ := createSpan_fields t.spans.length q now k
  obtain ⟨h1, _, h3⟩ := foldl_successEffect_inv q k (t.spans.length + 1 + pre.length) sp
    (createSpan t.spans.length q now k) hopen hev (Or.inl hattrs)
  have hsucc : out.Successful.foldl
      (successEffect [(k, t.spans.length + 1 + pre.length)] (t.spans.length + 1 + pre.length))
      (createSpan t.spans.length q now k) =
      { sp.foldl (successEffect [(k, t.spans.length + 1 + pre.length)]
          (t.spans.length + 1 + pre.length)) (createSpan t.spans.length q now k) with
        attributes := createSpanAttrs q k ++ [Semconv.MessagingMessageID mid],
        status := { Code := .Ok, Description := "" } } := by
    rw [hsplit, List.foldl_append, List.foldl_cons,
      successEffect_self k mid _ _ se hse hmid h1, foldl_successEffect_other k _ spost hnolater,
      setAttr_messageID q k mid _ h3]
  obtain ⟨g1, g2, g3⟩ := foldl_failedEffect_ok
    [(k, t.spans.length + 1 + pre.length)] (t.spans.length + 1 + pre.length) out.Failed
    (out.Successful.foldl
      (successEffect [(k, t.spans.length + 1 + pre.length)] (t.spans.length + 1 + pre.length))
      (createSpan t.spans.length q now k))
    (by rw [hsucc]; exact h1) (by rw [hsucc])
  refine ⟨?_, ?_, ?_⟩
  · simp only [Span.End, g2]
    rw [hsucc]
  · simp only [Span.End, g1]
    rw [hsucc]
  · simp only [Span.End, g3]

/-- C3 (amended): on a batch request whose entries have identifiers, for a well-formed
batch result and a failure entry whose identifier is that of a submitted entry and is
carried by no other entry of the result, the `create` span bound to that identifier gets
exactly one recorded error, with the attributes `aws.sqs.batch_request_id`,
`aws.error.code` and `aws.error.sender_fault` of the entry, and ends with status Error
and the description `SendMessageBatchError.Error()` of the entry. -/
theorem failure_entry_marks_child_span (now : Nat) (t : Tracer) (ctx : Context) (q : String)
    (pre post : List SendMessageBatchRequestEntry) (entry : SendMessageBatchRequestEntry)
    (k : String) (hIds : ∀ e ∈ pre ++ entry :: post, e.Id ≠ none) (hk : entry.Id = some k)
    (hlast : ∀ e ∈ post, e.Id ≠ some k)
    (handler : InitializeHandler) (out : SendMessageBatchOutput)
    (hres : (handler (handlerContext now t ctx)
      ⟨.SendMessageBatchInput { QueueUrl := some q, Entries := pre ++ entry :: post }⟩).out.Result =
        some (.SendMessageBatchOutput out))
    (hwf : ResultWellFormed (some (.SendMessageBatchOutput out)))
    (fp fpost : List BatchResultErrorEntry) (fe : BatchResultErrorEntry)
    (hsplit : out.Failed = fp ++ fe :: fpost) (hfe : fe.Id = some k)
    (hsucc : ∀ e ∈ out.Successful, e.Id ≠ some k)
    (hbefore : ∀ e ∈ fp, e.Id ≠ some k) (hafter : ∀ e ∈ fpost, e.Id ≠ some k) :
    ∃ s, (middleware now t ctx
        ⟨.SendMessageBatchInput { QueueUrl := some q, Entries := pre ++ entry :: post }⟩
        handler).tracer.spans[t.spans.length + 1 + pre.length]? = some s ∧
      s.events =
        [{ err := SendMessageBatchError.toGoError (some { Entry := fe }),
           attrs := [attrString KeySQSBatchRequestID k,
                     attrString KeyAWSErrorCode (fe.Code.getD ""),
                     attrBool KeyAWSErrorSendFault fe.SenderFault] }] ∧
      s.status = { Code := .Error,
                   Description := SendMessageBatchError.Error (some { Entry := fe }) } ∧
      s.attributes = createSpanAttrs q k ∧
      s.endCalls = 1 := by
  refine ⟨_, batch_child_final now t ctx q pre post entry k hIds hk hlast handler out hres hwf,
    ?_⟩
  obtain ⟨hattrs, hstat, hev, hopen⟩ := createSpan_fields t.spans.length q now k
  rw [foldl_successEffect_other k _ out.Successful hsucc, hsplit, List.foldl_append,
    List.foldl_cons, foldl_failedEffect_other k _ fp hbefore,
    failedEffect_self k _ _ fe hfe hopen (by rw [hstat]; decide),
    foldl_failedEffect_other k _ fpost hafter]
  refine ⟨?_, rfl, hattrs, ?_⟩
  · simp only [Span.End, hev, List.nil_append]
  · simp only [Span.End, hopen]

end Otelsqs

namespace Otelsqs
open Otel Sqs

/-- C2, at the test request and response: the span of `batch-1`. -/
theorem success_entry_marks_child_span_witness :
    ∃ s, (middleware 7 {} testBatchContext ⟨.SendMessageBatchInput testBatchInput⟩
        (respondWith (some (.SendMessageBatchOutput testBatchOutput)))).tracer.spans[1]? =
        some s ∧
      s.status = { Code := .Ok, Description := "" } ∧
      s.attributes =
        createSpanAttrs testQueueURL "batch-1" ++ [Semconv.MessagingMessageID "msg-1"] ∧
      s.endCalls = 1 :=
  success_entry_marks_child_span 7 {} testBatchContext testQueueURL []
    (testBatchInput.Entries.drop 1) { Id := some "batch-1", MessageBody := some "\x7b\"id\":\"msg-1\"\x7d" }
    "batch-1" (by decide) rfl (by decide)
    (respondWith (some (.SendMessageBatchOutput testBatchOutput))) testBatchOutput rfl
    (by decide) [] [{ Id := some "batch-2", MessageId := some "msg-2" }]
    { Id := some "batch-1", MessageId := some "msg-1" } "msg-1" rfl rfl rfl (by decide)

/-- C2, as stated, fails: the response names `batch-1`, the identifier of the first
submitted entry, in two success entries; there is no transport error, and the span of
`batch-1` ends with the message id of the second entry, `msg-9`, and without that of
the first, `msg-1`. -/
theorem success_entry_overwritten :
    (middleware 7 {} testBatchContext ⟨.SendMessageBatchInput testBatchInput⟩
      (respondWith (some (.SendMessageBatchOutput repeatedSuccessOutput)))).outcome =
      .returned { Result := some (.SendMessageBatchOutput repeatedSuccessOutput) } {} none ∧
    (testBatchInput.Entries[0]?).bind (·.Id) = some "batch-1" ∧
    repeatedSuccessOutput.Successful[0]? =
      some { Id := some "batch-1", MessageId := some "msg-1" } ∧
    ((middleware 7 {} testBatchContext ⟨.SendMessageBatchInput testBatchInput⟩
      (respondWith (some (.SendMessageBatchOutput repeatedSuccessOutput)))).tracer.spans[1]?).map
        (·.attributes) =
      some (createSpanAttrs testQueueURL "batch-1" ++ [Semconv.MessagingMessageID "msg-9"]) ∧
    Semconv.MessagingMessageID "msg-1" ∉
      createSpanAttrs testQueueURL "batch-1" ++ [Semconv.MessagingMessageID "msg-9"] := by
  decide

end Otelsqs
namespace Otelsqs
open Otel Sqs

/-- C3, at the test request and response: the span of `batch-3`. -/
theorem failure_entry_marks_child_span_witness :
    ∃ s, (middleware 7 {} testBatchContext ⟨.SendMessageBatchInput testBatchInput⟩
        (respondWith (some (.SendMessageBatchOutput testBatchOutput)))).tracer.spans[3]? =
        some s ∧
      s.events =
        [{ err := { typeStr := "*otelsqs.SendMessageBatchError", msg := "SomeError: oops" },
           attrs := [attrString "aws.sqs.batch_request_id" "batch-3",
                     attrString "aws.error.code" "SomeError",
                     attrBool "aws.error.sender_fault" false] }] ∧
      s.status = { Code := .Error, Description := "SomeError: oops" } ∧
      s.attributes = createSpanAttrs testQueueURL "batch-3" ∧
      s.endCalls = 1 :=
  failure_entry_marks_child_span 7 {} testBatchContext testQueueURL
    (testBatchInput.Entries.take 2) (testBatchInput.Entries.drop 3)
    { Id := some "batch-3", MessageBody := some "\x7b\"id\":\"msg-3\"\x7d" }
    "batch-3" (by decide) rfl (by decide)
    (respondWith (some (.SendMessageBatchOutput testBatchOutput))) testBatchOutput rfl
    (by decide) [] (testBatchOutput.Failed.drop 1)
    { Code := some "SomeError", Id := some "batch-3", SenderFault := false,
      Message := some "oops" } rfl rfl (by decide) (by decide) (by decide)

/-- C3, as stated, fails: the response names `batch-3`, the identifier of the third
submitted entry, in a success entry and in two failure entries; there is no transport
error, and the span of `batch-3` ends with two recorded errors and with status Ok. -/
theorem failure_entry_repeated :
    (middleware 7 {} testBatchContext ⟨.SendMessageBatchInput testBatchInput⟩
      (respondWith (some (.SendMessageBatchOutput repeatedFailureOutput)))).outcome =
      .returned { Result := some (.SendMessageBatchOutput repeatedFailureOutput) } {} none ∧
    (testBatchInput.Entries[2]?).bind (·.Id) = some "batch-3" ∧
    (repeatedFailureOutput.Failed[0]?).bind (·.Id) = some "batch-3" ∧
    ((middleware 7 {} testBatchContext ⟨.SendMessageBatchInput testBatchInput⟩
      (respondWith (some (.SendMessageBatchOutput repeatedFailureOutput)))).tracer.spans[3]?).map
        (fun s => (s.events.length, s.status)) =
      some (2, { Code := .Ok, Description := "" }) := by
  decide

/-- C9: the reconciliation panics on a success entry without an identifier, on a success
entry for a submitted identifier without a message id, and on a failure entry without
an identifier; the result of the handler is then not returned. -/
theorem reconcile_panics_on_absent_identifier :
    (middleware 7 {} testBatchContext ⟨.SendMessageBatchInput testBatchInput⟩
      (respondWith (some (.SendMessageBatchOutput missingIdOutput)))).outcome = .panicked ∧
    (middleware 7 {} testBatchContext ⟨.SendMessageBatchInput testBatchInput⟩
      (respondWith (some (.SendMessageBatchOutput missingMessageIdOutput)))).outcome =
      .panicked ∧
    (middleware 7 {} testBatchContext ⟨.SendMessageBatchInput testBatchInput⟩
      (respondWith (some (.SendMessageBatchOutput missingFailedIdOutput)))).outcome =
      .panicked := by
  decide

/-- C1: on the batch request of the test the middleware hands the four entries to the
handler as it got them, and a carrier bound to any of them has no `traceparent` header,
so no entry yields a trace id. -/
theorem no_trace_context_injected :
    (middleware 7 {} testBatchContext ⟨.SendMessageBatchInput testBatchInput⟩
      (respondWith (some (.SendMessageBatchOutput testBatchOutput)))).handlerCalls.map
        (·.input) = [⟨.SendMessageBatchInput testBatchInput⟩] ∧
    (middleware 7 {} testBatchContext ⟨.SendMessageBatchInput testBatchInput⟩
      (respondWith (some (.SendMessageBatchOutput testBatchOutput)))).handlerCalls.map
        (fun call => (entriesWithTraceparent call.input).length) = [0] ∧
    testBatchInput.Entries.length = 4 := by
  decide

end Otelsqs
namespace Otelsqs
open Otel Sqs

/-- C7: the reconciliation of a well-formed result (none, another output, or a batch
output whose entries have identifiers, so that the reconciliation does not panic) changes
a `create` span only if the identifier of its entry is named by a success or failure
entry.  The span of a submitted entry that no result names is ended as it was started,
with exactly its creation attributes, an unset status and no event; and a batch result
none of whose identifiers is that of a submitted entry leaves the tracer as a call
without any result leaves it. -/
theorem reconcile_changes_named_spans_only (now : Nat) (t : Tracer) (ctx : Context)
    (q : String) (entries : List SendMessageBatchRequestEntry)
    (hIds : ∀ e ∈ entries, e.Id ≠ none) (handler : InitializeHandler)
    (_hwf : ResultWellFormed (handler (handlerContext now t ctx)
      ⟨.SendMessageBatchInput { QueueUrl := some q, Entries := entries }⟩).out.Result) :
    (∀ pre entry post k, entries = pre ++ entry :: post → entry.Id = some k →
      some k ∉ resultIds (handler (handlerContext now t ctx)
        ⟨.SendMessageBatchInput { QueueUrl := some q, Entries := entries }⟩).out.Result →
      ∃ s, (middleware now t ctx
          ⟨.SendMessageBatchInput { QueueUrl := some q, Entries := entries }⟩
          handler).tracer.spans[t.spans.length + 1 + pre.length]? = some s ∧
        s = Span.End (createSpan t.spans.length q now k) ∧
        s.attributes = createSpanAttrs q k ∧
        s.status = { Code := .Unset, Description := "" } ∧
        s.events = []) ∧
    (∀ out, (handler (handlerContext now t ctx)
        ⟨.SendMessageBatchInput { QueueUrl := some q, Entries := entries }⟩).out.Result =
          some (.SendMessageBatchOutput out) →
      (∀ id ∈ resultIds (some (.SendMessageBatchOutput out)), ∀ e ∈ entries, e.Id ≠ id) →
      (middleware now t ctx ⟨.SendMessageBatchInput { QueueUrl := some q, Entries := entries }⟩
        handler).tracer =
      (middleware now t ctx ⟨.SendMessageBatchInput { QueueUrl := some q, Entries := entries }⟩
        (fun c i => { handler c i with out := { Result := none } })).tracer) := by
  refine ⟨?_, ?_⟩
  · intro pre entry post k hsplit hk hres
    subst hsplit
    refine ⟨_, batch_child_untouched now t ctx q pre post entry k hIds hk handler hres, rfl, ?_⟩
    obtain ⟨hattrs, hstat, hev, _⟩ := createSpan_fields t.spans.length q now k
    exact ⟨hattrs, hstat, hev⟩
  · intro out hres hno
    obtain ⟨st1, hrun, _, _, _, hnone, _, _⟩ := middleware_batch now t ctx q entries hIds
    have hunbound : ∀ id ∈ resultIds (some (.SendMessageBatchOutput out)), ∀ b, id = some b →
        st1.createSpanByRequestID.lookup b = none := by
      intro id hid b hb
      apply hnone
      intro e he
      rw [← hb]
      exact hno id hid e he
    rw [hrun handler, hrun, (afterStart_eq _ _ _ _ _).1, (afterStart_eq _ _ _ _ _).1, hres]
    rw [reconcileBatch_unbound]
    · rfl
    · intro e he b hb
      exact hunbound e.Id
        (by simp only [resultIds, List.mem_append, List.mem_map]; exact Or.inl ⟨e, he, rfl⟩) b hb
    · intro e he b hb
      exact hunbound e.Id
        (by simp only [resultIds, List.mem_append, List.mem_map]; exact Or.inr ⟨e, he, rfl⟩) b hb

end Otelsqs
namespace Otelsqs
open Otel Sqs

theorem newSpan_fresh (parent : Option Nat) (name : String) (kind : SpanKind)
    (attrs : List KeyValue) (timestamp : Option Nat) :
    (newSpan parent name kind attrs timestamp).status = {} ∧
    (newSpan parent name kind attrs timestamp).events = [] ∧
    (newSpan parent name kind attrs timestamp).endCalls = 0 :=
  ⟨rfl, rfl, rfl⟩

theorem Span_SetAttributes_fields (s : Span) (kvs : List KeyValue) :
    (s.SetAttributes kvs).status = s.status ∧ (s.SetAttributes kvs).events = s.events ∧
    (s.SetAttributes kvs).endCalls = s.endCalls := by
  unfold Span.SetAttributes
  split <;> exact ⟨rfl, rfl, rfl⟩

/-- The reconciliation leaves the status, the events and the number of `End` calls of the
span of the request as they were, when no identifier is bound to that span. -/
theorem reconcileResult_parent (span : Nat) (m : List (String × Nat)) (t : Tracer)
    (result : Option Result) (hm : ∀ b, m.lookup b ≠ some span) (s0 : Span)
    (h0 : t.spans[span]? = some s0) :
    ∃ s1, (stateOf (reconcileResult span m t result)).spans[span]? = some s1 ∧
      s1.status = s0.status ∧ s1.events = s0.events ∧ s1.endCalls = s0.endCalls := by
  cases result with
  | none => exact ⟨s0, h0, rfl, rfl, rfl⟩
  | some r =>
    cases r with
    | SendMessageOutput res =>
      cases hmid : res.MessageId with
      | none =>
        simp only [reconcileResult, hmid, stateOf]
        exact ⟨s0, h0, rfl, rfl, rfl⟩
      | some mid =>
        simp only [reconcileResult, hmid, stateOf, Tracer_SetAttributes_spans, if_true, h0,
          Option.map_some']
        exact ⟨_, rfl, Span_SetAttributes_fields s0 _⟩
    | SendMessageBatchOutput res =>
      rw [reconcileBatch_frame span m span res (fun _ _ b _ => hm b) (fun _ _ b _ => hm b)]
      exact ⟨s0, h0, rfl, rfl, rfl⟩
    | other op => exact ⟨s0, h0, rfl, rfl, rfl⟩

/-- A transport error is recorded on the fresh span of the request and sets its status. -/
theorem recordOutcome_error (t : Tracer) (span : Nat) (res : HandlerResult) (err : GoError)
    (herr : res.err = some err) (s0 : Span) (h0 : t.spans[span]? = some s0)
    (hstat : s0.status = {}) (hev : s0.events = []) (hopen : s0.endCalls = 0) :
    ∃ s1, (recordOutcome t span res).spans[span]? = some s1 ∧
      s1.status = { Code := .Error, Description := err.msg } ∧
      s1.events = [{ err := err, attrs := [] }] ∧ s1.endCalls = 0 := by
  have hbase : ((s0.RecordError err []).SetStatus .Error err.msg).status =
        { Code := .Error, Description := err.msg } ∧
      ((s0.RecordError err []).SetStatus .Error err.msg).events = [{ err := err, attrs := [] }] ∧
      ((s0.RecordError err []).SetStatus .Error err.msg).endCalls = 0 := by
    simp [Span.RecordError, Span.SetStatus, hopen, hstat, hev, Code.toNat]
  unfold recordOutcome
  rw [herr]
  cases GetRequestIDMetadata res.metadata with
  | none =>
    simp only [Tracer_SetStatus_spans, Tracer_RecordError_spans, if_true, h0, Option.map_some']
    exact ⟨_, rfl, hbase⟩
  | some requestID =>
    simp only [Tracer_SetAttributes_spans, Tracer_SetStatus_spans, Tracer_RecordError_spans,
      if_true, h0, Option.map_some']
    obtain ⟨g1, g2, g3⟩ := Span_SetAttributes_fields
      ((s0.RecordError err []).SetStatus .Error err.msg) [Semconv.AWSRequestID requestID]
    exact ⟨_, rfl, g1.trans hbase.1, g2.trans hbase.2.1, g3.trans hbase.2.2⟩

/-- C5 (amended): on a batch request whose entries have identifiers and whose handler
returns an error, the span of the request records the error and ends with status Error
and the text of the error, and the span of the request and every `create` span are ended
exactly once; when the result that comes with the error is well-formed (none, or one
whose entries have identifiers, so that the reconciliation does not panic), the error is
the only event recorded on the span of the request; when the error comes without a
result, every `create` span is ended as it was started (no message id, no recorded
error, no status). -/
theorem transport_error_on_batch (now : Nat) (t : Tracer) (ctx : Context) (q : String)
    (entries : List SendMessageBatchRequestEntry) (hIds : ∀ e ∈ entries, e.Id ≠ none)
    (handler : InitializeHandler) (err : GoError)
    (herr : (handler (handlerContext now t ctx)
      ⟨.SendMessageBatchInput { QueueUrl := some q, Entries := entries }⟩).err = some err) :
    (∃ s, (middleware now t ctx
        ⟨.SendMessageBatchInput { QueueUrl := some q, Entries := entries }⟩
        handler).tracer.spans[t.spans.length]? = some s ∧
      { err := err, attrs := [] } ∈ s.events ∧
      (ResultWellFormed (handler (handlerContext now t ctx)
        ⟨.SendMessageBatchInput { QueueUrl := some q, Entries := entries }⟩).out.Result →
        s.events = [{ err := err, attrs := [] }]) ∧
      s.status = { Code := .Error, Description := err.msg } ∧
      s.endCalls = 1) ∧
    (∀ s ∈ (middleware now t ctx
        ⟨.SendMessageBatchInput { QueueUrl := some q, Entries := entries }⟩
        handler).tracer.spans.drop t.spans.length, s.endCalls = 1) ∧
    ((handler (handlerContext now t ctx)
      ⟨.SendMessageBatchInput { QueueUrl := some q, Entries := entries }⟩).out.Result = none →
      ∀ pre entry post k, entries = pre ++ entry :: post → entry.Id = some k →
        (middleware now t ctx
          ⟨.SendMessageBatchInput { QueueUrl := some q, Entries := entries }⟩
          handler).tracer.spans[t.spans.length + 1 + pre.length]? =
          some (Span.End (createSpan t.spans.length q now k))) := by
  refine ⟨?_, (batch_spans_ended_once now t ctx q entries hIds handler).2, ?_⟩
  · obtain ⟨st1, hrun, hspans, _, hdef, _, hbound, _⟩ := middleware_batch now t ctx q entries hIds
    have hparent : st1.tracer.spans[t.spans.length]? =
        some (batchSpan ctx { QueueUrl := some q, Entries := entries } q) := by
      rw [hspans, List.getElem?_append_right (Nat.le_refl _)]
      simp
    obtain ⟨f1, f2, f3⟩ := newSpan_fresh ctx.span ("publish " ++ getQueueName q) .SpanKindClient
      (sendMessageBatchAttrs ctx.serviceID ctx.operation
        { QueueUrl := some q, Entries := entries }) none
    obtain ⟨s1, h1, h1s, h1e, h1c⟩ := recordOutcome_error st1.tracer t.spans.length _ err herr
      _ hparent f1 f2 f3
    have hm : ∀ b, st1.createSpanByRequestID.lookup b ≠ some t.spans.length := by
      intro b hb
      obtain ⟨j, e, hj, _, _⟩ := hbound b _ hb
      omega
    obtain ⟨s2, h2, h2s, h2e, h2c⟩ := reconcileResult_parent t.spans.length
      st1.createSpanByRequestID _ (handler (handlerContext now t ctx)
        ⟨.SendMessageBatchInput { QueueUrl := some q, Entries := entries }⟩).out.Result hm s1 h1
    refine ⟨{ s2 with endCalls := s2.endCalls + 1 }, ?_, ?_, fun _ => h2e.trans h1e,
      h2s.trans h1s, ?_⟩
    · rw [hrun handler, afterStart_spans, h2, hdef,
        deferred_count _ _ _ (Nat.le_refl _) (by omega)]
      rfl
    · show ErrorEvent.mk err [] ∈ s2.events
      rw [h2e.trans h1e]
      exact List.mem_singleton.mpr rfl
    · show s2.endCalls + 1 = 1
      rw [h2c, h1c]
  · intro hnone pre entry post k hsplit hk
    subst hsplit
    apply batch_child_untouched now t ctx q pre post entry k hIds hk handler
    rw [hnone]
    simp [resultIds]

end Otelsqs
namespace Otelsqs
open Otel Sqs

/-- C5, at the test request with a handler that returns an error and no result. -/
theorem transport_error_on_batch_witness :
    (∃ s, (middleware 7 {} testBatchContext ⟨.SendMessageBatchInput testBatchInput⟩
        (failWith none transportError)).tracer.spans[0]? = some s ∧
      s.events = [{ err := transportError, attrs := [] }] ∧
      s.status = { Code := .Error, Description := transportError.msg } ∧
      s.endCalls = 1) ∧
    (middleware 7 {} testBatchContext ⟨.SendMessageBatchInput testBatchInput⟩
        (failWith none transportError)).tracer.spans[2]? =
      some (Span.End (createSpan 0 testQueueURL 7 "batch-2")) :=
  ⟨(transport_error_on_batch 7 {} testBatchContext testQueueURL testBatchInput.Entries
      (by decide) (failWith none transportError) transportError rfl).1.elim
      fun s h => ⟨s, h.1, h.2.2.1 (by decide), h.2.2.2.1, h.2.2.2.2⟩,
   (transport_error_on_batch 7 {} testBatchContext testQueueURL testBatchInput.Entries
      (by decide) (failWith none transportError) transportError rfl).2.2 rfl
      (testBatchInput.Entries.take 1)
      { Id := some "batch-2", MessageBody := some "\x7b\"id\":\"msg-2\"\x7d" }
      (testBatchInput.Entries.drop 2) "batch-2" rfl rfl⟩

/-- C5, as stated, fails: the handler returns a transport error together with the batch
result of the test; the error is returned and the span of `batch-1` still gets the
message id and the status Ok of its success entry. -/
theorem transport_error_with_result :
    (middleware 7 {} testBatchContext ⟨.SendMessageBatchInput testBatchInput⟩
      (failWith (some (.SendMessageBatchOutput testBatchOutput)) transportError)).outcome =
      .returned { Result := some (.SendMessageBatchOutput testBatchOutput) } {}
        (some transportError) ∧
    ((middleware 7 {} testBatchContext ⟨.SendMessageBatchInput testBatchInput⟩
      (failWith (some (.SendMessageBatchOutput testBatchOutput))
        transportError)).tracer.spans[1]?).map (fun s => (s.attributes, s.status)) =
      some (createSpanAttrs testQueueURL "batch-1" ++ [Semconv.MessagingMessageID "msg-1"],
        { Code := .Ok, Description := "" }) := by
  decide

/-- A well-formed request reaches the code after the `switch`: the call of the handler
with the context that carries the new span of the request, and the input as given. -/
theorem middleware_reaches_handler (now : Nat) (t : Tracer) (ctx : Context)
    (input : InitializeInput) (hreq : RequestWellFormed input) :
    ∃ st : BatchState, ∀ handler : InitializeHandler,
      middleware now t ctx input handler =
        afterStart handler (handlerContext now t ctx) input t.spans.length st := by
  obtain ⟨params⟩ := input
  cases params with
  | SendMessageInput params =>
    obtain ⟨queueUrl, body, attrs⟩ := params
    cases queueUrl with
    | none => exact absurd rfl hreq
    | some q =>
      exact ⟨_, fun handler => rfl⟩
  | SendMessageBatchInput params =>
    obtain ⟨queueUrl, entries⟩ := params
    cases queueUrl with
    | none => exact absurd rfl hreq.1
    | some q =>
      obtain ⟨st1, hrun, _⟩ := middleware_batch now t ctx q entries hreq.2
      exact ⟨st1, hrun⟩
  | other op =>
    exact ⟨_, fun handler => rfl⟩

/-- Whatever the request, the middleware either panics before it calls the handler, or
calls it once with the input as given and then returns what the call returned or panics. -/
theorem middleware_outcomes (now : Nat) (t : Tracer) (ctx : Context)
    (input : InitializeInput) (handler : InitializeHandler) :
    ((middleware now t ctx input handler).handlerCalls = [] ∧
      (middleware now t ctx input handler).outcome = .panicked) ∨
    ((∃ tracerAtCall, (middleware now t ctx input handler).handlerCalls =
        [{ ctx := handlerContext now t ctx, input := input, tracer := tracerAtCall }]) ∧
      ((middleware now t ctx input handler).outcome = .panicked ∨
        (middleware now t ctx input handler).outcome =
          .returned (handler (handlerContext now t ctx) input).out
            (handler (handlerContext now t ctx) input).metadata
            (handler (handlerContext now t ctx) input).err)) := by
  have hafter : ∀ st : BatchState,
      middleware now t ctx input handler =
        afterStart handler (handlerContext now t ctx) input t.spans.length st →
      ((∃ tracerAtCall, (middleware now t ctx input handler).handlerCalls =
        [{ ctx := handlerContext now t ctx, input := input, tracer := tracerAtCall }]) ∧
      ((middleware now t ctx input handler).outcome = .panicked ∨
        (middleware now t ctx input handler).outcome =
          .returned (handler (handlerContext now t ctx) input).out
            (handler (handlerContext now t ctx) input).metadata
            (handler (handlerContext now t ctx) input).err)) := by
    intro st hrun
    rw [hrun]
    obtain ⟨_, hcalls, hout⟩ := afterStart_eq handler (handlerContext now t ctx) input
      t.spans.length st
    refine ⟨⟨st.tracer, hcalls⟩, ?_⟩
    rw [hout]
    cases reconcileResult t.spans.length st.createSpanByRequestID
        (recordOutcome st.tracer t.spans.length (handler (handlerContext now t ctx) input))
        (handler (handlerContext now t ctx) input).out.Result with
    | ok t3 => exact Or.inr rfl
    | error t3 => exact Or.inl rfl
  obtain ⟨params⟩ := input
  cases params with
  | SendMessageInput params =>
    obtain ⟨queueUrl, body, attrs⟩ := params
    cases queueUrl with
    | none => exact Or.inl ⟨rfl, rfl⟩
    | some q => exact Or.inr (hafter _ rfl)
  | SendMessageBatchInput params =>
    obtain ⟨queueUrl, entries⟩ := params
    cases queueUrl with
    | none => exact Or.inl ⟨rfl, rfl⟩
    | some q =>
      cases hs : startCreateSpans (handlerContext now t ctx) (getQueueName q) q now entries
          { tracer := (t.Start ctx.span ("publish " ++ getQueueName q) .SpanKindClient
              (sendMessageBatchAttrs ctx.serviceID ctx.operation
                { QueueUrl := some q, Entries := entries }) none).1 } with
      | error st =>
        left
        simp only [handlerContext, Tracer.Start] at hs
        simp only [middleware, initializeBefore, initializeAfter, Tracer.Start, hs, and_self]
      | ok st =>
        right
        apply hafter st
        simp only [handlerContext, Tracer.Start] at hs
        simp only [middleware, initializeBefore, initializeAfter, Tracer.Start, hs]
        rfl
  | other op => exact Or.inr (hafter _ rfl)

/-- What the middleware does with the handler and its result: whatever the request, it
never calls the next handler twice, never with another input than the one it was given,
and never returns anything but the output, metadata and error of that call; on a request
with a queue URL and identifiers on its entries it calls the handler exactly once, and it
returns what the call returned whenever the result is well-formed (otherwise it returns
the same or panics). -/
theorem middleware_returns_handler_result (now : Nat) (t : Tracer) (ctx : Context)
    (input : InitializeInput) (handler : InitializeHandler) :
    (((middleware now t ctx input handler).handlerCalls = [] ∧
        (middleware now t ctx input handler).outcome = .panicked) ∨
      ((∃ tracerAtCall, (middleware now t ctx input handler).handlerCalls =
          [{ ctx := handlerContext now t ctx, input := input, tracer := tracerAtCall }]) ∧
        ((middleware now t ctx input handler).outcome = .panicked ∨
          (middleware now t ctx input handler).outcome =
            .returned (handler (handlerContext now t ctx) input).out
              (handler (handlerContext now t ctx) input).metadata
              (handler (handlerContext now t ctx) input).err))) ∧
    (RequestWellFormed input →
      ∃ tracerAtCall, (middleware now t ctx input handler).handlerCalls =
        [{ ctx := handlerContext now t ctx, input := input, tracer := tracerAtCall }]) ∧
    (RequestWellFormed input →
      ResultWellFormed (handler (handlerContext now t ctx) input).out.Result →
      (middleware now t ctx input handler).outcome =
        .returned (handler (handlerContext now t ctx) input).out
          (handler (handlerContext now t ctx) input).metadata
          (handler (handlerContext now t ctx) input).err) := by
  refine ⟨middleware_outcomes now t ctx input handler, ?_, ?_⟩
  · intro hreq
    obtain ⟨st, hrun⟩ := middleware_reaches_handler now t ctx input hreq
    rw [hrun handler]
    exact ⟨st.tracer, (afterStart_eq handler (handlerContext now t ctx) input
      t.spans.length st).2.1⟩
  · intro hreq hwf
    obtain ⟨st, hrun⟩ := middleware_reaches_handler now t ctx input hreq
    rw [hrun handler]
    obtain ⟨t3, h3⟩ := reconcileResult_ok t.spans.length st.createSpanByRequestID
      (recordOutcome st.tracer t.spans.length (handler (handlerContext now t ctx) input))
      (handler (handlerContext now t ctx) input).out.Result hwf
    rw [(afterStart_eq handler (handlerContext now t ctx) input t.spans.length st).2.2, h3]

/-- The handler's result is returned at the test request and response. -/
theorem middleware_returns_handler_result_witness :
    RequestWellFormed ⟨.SendMessageBatchInput testBatchInput⟩ ∧
    (middleware 7 {} testBatchContext ⟨.SendMessageBatchInput testBatchInput⟩
      (respondWith (some (.SendMessageBatchOutput testBatchOutput)))).outcome =
      .returned { Result := some (.SendMessageBatchOutput testBatchOutput) } {} none :=
  ⟨by decide,
   (middleware_returns_handler_result 7 {} testBatchContext
     ⟨.SendMessageBatchInput testBatchInput⟩
     (respondWith (some (.SendMessageBatchOutput testBatchOutput)))).2.2 (by decide)
     (by decide)⟩

end Otelsqs
namespace Otelsqs
open Otel Sqs

/-- C7, at the test request: with a well-formed result that names only identifiers that
were not submitted, the span of `batch-2` is ended as it was started and the tracer is left as
by a call without a result. -/
theorem reconcile_changes_named_spans_only_witness :
    (∃ s, (middleware 7 {} testBatchContext ⟨.SendMessageBatchInput testBatchInput⟩
        (respondWith (some (.SendMessageBatchOutput unknownIdOutput)))).tracer.spans[2]? =
        some s ∧
      s = Span.End (createSpan 0 testQueueURL 7 "batch-2") ∧
      s.attributes = createSpanAttrs testQueueURL "batch-2" ∧
      s.status = { Code := .Unset, Description := "" } ∧
      s.events = []) ∧
    (middleware 7 {} testBatchContext ⟨.SendMessageBatchInput testBatchInput⟩
        (respondWith (some (.SendMessageBatchOutput unknownIdOutput)))).tracer =
      (middleware 7 {} testBatchContext ⟨.SendMessageBatchInput testBatchInput⟩
        (respondWith none)).tracer :=
  ⟨(reconcile_changes_named_spans_only 7 {} testBatchContext testQueueURL
      testBatchInput.Entries (by decide)
      (respondWith (some (.SendMessageBatchOutput unknownIdOutput))) (by decide)).1
      (testBatchInput.Entries.take 1)
      { Id := some "batch-2", MessageBody := some "\x7b\"id\":\"msg-2\"\x7d" }
      (testBatchInput.Entries.drop 2) "batch-2" rfl rfl (by decide),
   (reconcile_changes_named_spans_only 7 {} testBatchContext testQueueURL
      testBatchInput.Entries (by decide)
      (respondWith (some (.SendMessageBatchOutput unknownIdOutput))) (by decide)).2
      unknownIdOutput rfl (by decide)⟩

end Otelsqs

namespace Otelsqs
open Otel Sqs

/-- A key has an entry in the map of a carrier exactly when it is a key of one of the
bindings. -/
theorem entry_ne_none_iff (attributes : List (String × MessageSystemAttributeValue))
    (k : String) : attributes.lookup k ≠ none ↔ k ∈ attributes.map Prod.fst := by
  rw [Ne, List.lookup_eq_none_iff]
  simp only [List.mem_map, not_forall]
  constructor
  · rintro ⟨p, hp, h⟩
    exact ⟨p, hp, by simp at h; exact h.symm⟩
  · rintro ⟨p, hp, h⟩
    exact ⟨p, hp, by simp [h]⟩

/-- C11: for every carrier, with an absent, an empty or a populated map, `Set(k, v)`
followed by `Get(k)` returns `v`. -/
theorem carrier_set_then_get (c : SQSSystemAttributesCarrier) (k v : String) :
    (c.Set k v).Get k = v := by
  simp [SQSSystemAttributesCarrier.Set, SQSSystemAttributesCarrier.Get]

/-- C12: `Get(key)` is a total function of the carrier (it returns a string and leaves
the carrier as it is); it returns the string value stored under `key`, and it returns the
empty string exactly when the map is absent, the key is missing, or the stored entry has
no string value or an empty one. -/
theorem carrier_get_spec (c : SQSSystemAttributesCarrier) (key : String) :
    (∀ val sv, c.entry key = some val → val.StringValue = some sv → c.Get key = sv) ∧
    (c.Get key = "" ↔
      c.Attributes = none ∨ c.entry key = none ∨
      ∃ val, c.entry key = some val ∧
        (val.StringValue = none ∨ val.StringValue = some "")) := by
  obtain ⟨attributes⟩ := c
  cases attributes with
  | none =>
    simp [SQSSystemAttributesCarrier.Get, SQSSystemAttributesCarrier.entry]
  | some m =>
    cases hl : m.lookup key with
    | none =>
      simp [SQSSystemAttributesCarrier.Get, SQSSystemAttributesCarrier.entry, hl]
    | some val =>
      cases hs : val.StringValue with
      | none =>
        simp only [SQSSystemAttributesCarrier.Get, SQSSystemAttributesCarrier.entry, hl, hs]
        refine ⟨?_, ?_⟩
        · intro val1 sv h1 h2
          rw [← Option.some.inj h1, hs] at h2
          exact absurd h2 (by simp)
        · simp [hs]
      | some sv =>
        simp only [SQSSystemAttributesCarrier.Get, SQSSystemAttributesCarrier.entry, hl, hs]
        refine ⟨?_, ?_⟩
        · intro val1 sv1 h1 h2
          rw [← Option.some.inj h1, hs] at h2
          exact Option.some.inj h2
        · simp [hs]

/-- C12, on the carrier of the test after `Set`. -/
theorem carrier_get_spec_witness :
    ((SQSSystemAttributesCarrier.mk (some [])).Set "existent" "val").Get "existent" = "val" :=
  (carrier_get_spec ((SQSSystemAttributesCarrier.mk (some [])).Set "existent" "val")
    "existent").1 { DataType := some "String", StringValue := some "val" } "val" rfl rfl

/-- C13: after `Set(key, value)` the map holds the entry with data type `String` and
string value `value` under `key`, and the entry of every other key is as before; an
absent map is allocated and then holds exactly that one binding; an entry that was
stored under `key` is replaced (the key is in the map once and the map has as many keys
as before), and a new key makes the map one key larger. -/
theorem carrier_set_frame (c : SQSSystemAttributesCarrier) (key value : String) :
    (c.Set key value).entry key =
      some { DataType := some "String", StringValue := some value } ∧
    (∀ k, k ≠ key → (c.Set key value).entry k = c.entry k) ∧
    (c.Attributes = none →
      (c.Set key value).Attributes =
        some [(key, { DataType := some "String", StringValue := some value })]) ∧
    (c.Set key value).Keys.count key = 1 ∧
    (c.entry key ≠ none → (c.Set key value).len = c.len) ∧
    (c.entry key = none → (c.Set key value).len = c.len + 1) := by
  obtain ⟨attributes⟩ := c
  refine ⟨?_, ?_, ?_, ?_, ?_, ?_⟩
  · simp [SQSSystemAttributesCarrier.Set, SQSSystemAttributesCarrier.entry]
  · intro k hk
    have hb : (k == key) = false := by simp [hk]
    cases attributes <;>
      simp [SQSSystemAttributesCarrier.Set, SQSSystemAttributesCarrier.entry, List.lookup, hb]
  · intro h
    simp only at h
    subst h
    rfl
  · apply List.count_eq_one_of_mem (List.nodup_dedup _)
    simp [SQSSystemAttributesCarrier.Set, List.mem_dedup]
  · intro h
    cases attributes with
    | none => exact absurd rfl h
    | some m =>
      have hmem : key ∈ m.map Prod.fst := (entry_ne_none_iff m key).mp h
      simp only [SQSSystemAttributesCarrier.Set, SQSSystemAttributesCarrier.len, List.map_cons,
        List.toFinset_cons]
      rw [Finset.card_insert_of_mem (List.mem_toFinset.mpr hmem)]
  · intro h
    cases attributes with
    | none => rfl
    | some m =>
      have hmem : key ∉ m.map Prod.fst := fun hm => (entry_ne_none_iff m key).mpr hm h
      simp only [SQSSystemAttributesCarrier.Set, SQSSystemAttributesCarrier.len, List.map_cons,
        List.toFinset_cons]
      rw [Finset.card_insert_of_not_mem (fun hm => hmem (List.mem_toFinset.mp hm))]

/-- C13, on a carrier with an absent map and on the carrier of the test. -/
theorem carrier_set_frame_witness :
    ((SQSSystemAttributesCarrier.mk none).Set "existent" "val").Attributes =
      some [("existent", { DataType := some "String", StringValue := some "val" })] ∧
    (((SQSSystemAttributesCarrier.mk (some [])).Set "existent" "old").Set "existent" "val").len =
      1 :=
  ⟨(carrier_set_frame (SQSSystemAttributesCarrier.mk none) "existent" "val").2.2.1 rfl,
   (carrier_set_frame ((SQSSystemAttributesCarrier.mk (some [])).Set "existent" "old")
      "existent" "val").2.2.2.2.1 (by decide)⟩

/-- C14: `Keys()` returns each key of the map once and nothing else, so its length is
the size of the map; it is empty for the absent and for the empty map, and `[k]` after a
single `Set(k, v)` on a carrier with an empty or absent map. -/
theorem carrier_keys_spec (c : SQSSystemAttributesCarrier) :
    c.Keys.Nodup ∧
    (∀ k, k ∈ c.Keys ↔ c.entry k ≠ none) ∧
    c.Keys.length = c.len ∧
    (SQSSystemAttributesCarrier.mk none).Keys = [] ∧
    (SQSSystemAttributesCarrier.mk (some [])).Keys = [] ∧
    (∀ k v, ((SQSSystemAttributesCarrier.mk (some [])).Set k v).Keys = [k]) ∧
    (∀ k v, ((SQSSystemAttributesCarrier.mk none).Set k v).Keys = [k]) := by
  obtain ⟨attributes⟩ := c
  refine ⟨?_, ?_, ?_, rfl, rfl, ?_, ?_⟩
  · cases attributes with
    | none => exact List.nodup_nil
    | some m => exact List.nodup_dedup _
  · intro k
    cases attributes with
    | none => simp [SQSSystemAttributesCarrier.Keys, SQSSystemAttributesCarrier.entry]
    | some m =>
      simp only [SQSSystemAttributesCarrier.Keys, SQSSystemAttributesCarrier.entry,
        List.mem_dedup]
      exact (entry_ne_none_iff m k).symm
  · cases attributes with
    | none => rfl
    | some m =>
      simp only [SQSSystemAttributesCarrier.Keys, SQSSystemAttributesCarrier.len]
      exact (List.card_toFinset _).symm
  · intro k v
    simp [SQSSystemAttributesCarrier.Set, SQSSystemAttributesCarrier.Keys]
  · intro k v
    simp [SQSSystemAttributesCarrier.Set, SQSSystemAttributesCarrier.Keys]

end Otelsqs

namespace Otel

theorem updateAt_map_eq {β : Type} (g : Span → β) (f : Span → Span) (hf : ∀ s, g (f s) = g s)
    (i : Nat) (l : List Span) : (updateAt f i l).map g = l.map g := by
  induction l generalizing i with
  | nil => cases i <;> rfl
  | cons a rest ih =>
    cases i with
    | zero => simp [updateAt, hf]
    | succ i => simp [updateAt, ih]

theorem header_unchanging : Unchanging Span.header := by
  refine ⟨?_, ?_, ?_⟩
  · intro s kvs
    unfold Span.SetAttributes
    split <;> rfl
  · intro s c d
    unfold Span.SetStatus
    split
    · rfl
    · split <;> rfl
  · intro s e a
    unfold Span.RecordError
    split <;> rfl

end Otel

namespace Otelsqs
open Otel Sqs

theorem recordSendMessageBatchError_map {β : Type} (g : Span → β) (hg : Unchanging g)
    (t : Tracer) (id : Nat) (err : Option SendMessageBatchError) :
    (recordSendMessageBatchError t id err).spans.map g = t.spans.map g ∧
    (recordSendMessageBatchError t id err).exported = t.exported := by
  unfold recordSendMessageBatchError Tracer.SetStatus Tracer.RecordError
  refine ⟨?_, rfl⟩
  simp only
  rw [updateAt_map_eq g _ (fun s => hg.2.1 s _ _), updateAt_map_eq g _ (fun s => hg.2.2 s _ _)]

/-- Reconciling the success entries changes neither an unchanging view of the spans nor
the list of ended spans, also when it panics. -/
theorem reconcileSuccessful_map {β : Type} (g : Span → β) (hg : Unchanging g)
    (m : List (String × Nat)) (es : List SendMessageBatchResultEntry) (t : Tracer) :
    (stateOf (reconcileSuccessful m t es)).spans.map g = t.spans.map g ∧
    (stateOf (reconcileSuccessful m t es)).exported = t.exported := by
  induction es generalizing t with
  | nil => exact ⟨rfl, rfl⟩
  | cons e rest ih =>
    cases hid : e.Id with
    | none =>
      simp only [reconcileSuccessful, hid, stateOf]
      exact ⟨trivial, trivial⟩
    | some b =>
      cases hl : m.lookup b with
      | none =>
        simp only [reconcileSuccessful, hid, hl]
        exact ih t
      | some c =>
        cases hm : e.MessageId with
        | none =>
          simp only [reconcileSuccessful, hid, hl, hm, stateOf]
          exact ⟨trivial, trivial⟩
        | some mid =>
          simp only [reconcileSuccessful, hid, hl, hm]
          obtain ⟨h1, h2⟩ := ih ((t.SetAttributes c [Semconv.MessagingMessageID mid]).SetStatus
            c .Ok "")
          rw [h1, h2]
          refine ⟨?_, rfl⟩
          simp only [Tracer.SetStatus, Tracer.SetAttributes]
          rw [updateAt_map_eq g _ (fun s => hg.2.1 s _ _),
            updateAt_map_eq g _ (fun s => hg.1 s _)]

theorem reconcileFailed_map {β : Type} (g : Span → β) (hg : Unchanging g)
    (m : List (String × Nat)) (es : List BatchResultErrorEntry) (t : Tracer) :
    (stateOf (reconcileFailed m t es)).spans.map g = t.spans.map g ∧
    (stateOf (reconcileFailed m t es)).exported = t.exported := by
  induction es generalizing t with
  | nil => exact ⟨rfl, rfl⟩
  | cons e rest ih =>
    cases hid : e.Id with
    | none =>
      simp only [reconcileFailed, hid, stateOf]
      exact ⟨trivial, trivial⟩
    | some b =>
      cases hl : m.lookup b with
      | none =>
        simp only [reconcileFailed, hid, hl]
        exact ih t
      | some c =>
        simp only [reconcileFailed, hid, hl]
        obtain ⟨h1, h2⟩ := ih (recordSendMessageBatchError t c (some { Entry := e }))
        obtain ⟨h3, h4⟩ := recordSendMessageBatchError_map g hg t c (some { Entry := e })
        exact ⟨h1.trans h3, h2.trans h4⟩

theorem reconcileResult_map {β : Type} (g : Span → β) (hg : Unchanging g) (span : Nat)
    (m : List (String × Nat)) (t : Tracer) (result : Option Result) :
    (stateOf (reconcileResult span m t result)).spans.map g = t.spans.map g ∧
    (stateOf (reconcileResult span m t result)).exported = t.exported := by
  cases result with
  | none => exact ⟨rfl, rfl⟩
  | some r =>
    cases r with
    | SendMessageOutput res =>
      cases hm : res.MessageId with
      | none =>
        simp only [reconcileResult, hm, stateOf]
        exact ⟨trivial, trivial⟩
      | some mid =>
        simp only [reconcileResult, hm, stateOf, Tracer.SetAttributes]
        exact ⟨updateAt_map_eq g _ (fun s => hg.1 s _) _ _, trivial⟩
    | SendMessageBatchOutput res =>
      obtain ⟨h1, h2⟩ := reconcileSuccessful_map g hg m res.Successful t
      cases hs : reconcileSuccessful m t res.Successful with
      | error t1 =>
        rw [hs] at h1 h2
        simp only [reconcileResult, hs]
        exact ⟨h1, h2⟩
      | ok t1 =>
        rw [hs] at h1 h2
        simp only [reconcileResult, hs]
        obtain ⟨h3, h4⟩ := reconcileFailed_map g hg m res.Failed t1
        exact ⟨h3.trans h1, h4.trans h2⟩
    | other op => exact ⟨rfl, rfl⟩

theorem recordOutcome_map {β : Type} (g : Span → β) (hg : Unchanging g) (t : Tracer)
    (span : Nat) (res : HandlerResult) :
    (recordOutcome t span res).spans.map g = t.spans.map g ∧
    (recordOutcome t span res).exported = t.exported := by
  unfold recordOutcome
  cases GetRequestIDMetadata res.metadata <;> cases res.err <;>
    simp only [Tracer.SetAttributes, Tracer.SetStatus, Tracer.RecordError,
      updateAt_map_eq g _ (fun s => hg.1 s _), updateAt_map_eq g _ (fun s => hg.2.1 s _ _),
      updateAt_map_eq g _ (fun s => hg.2.2 s _ _), and_self]

/-- The deferred `End` calls leave the name, kind, parent and start time of every span. -/
theorem runDeferred_header (ids : List Nat) (t : Tracer) :
    (runDeferred ids t).spans.map Span.header = t.spans.map Span.header := by
  induction ids generalizing t with
  | nil => rfl
  | cons a rest ih =>
    have h : runDeferred (a :: rest) t = runDeferred rest (t.End a) := rfl
    rw [h, ih]
    exact updateAt_map_eq Span.header Span.End (fun s => rfl) a t.spans

/-- The deferred `End` calls of spans that are all open and all different hand the spans
to the exporter in the order of the calls. -/
theorem runDeferred_exported (ids : List Nat) (t : Tracer) (hnodup : ids.Nodup)
    (hopen : ∀ id ∈ ids, ∃ s, t.spans[id]? = some s ∧ s.endCalls = 0) :
    (runDeferred ids t).exported = t.exported ++ ids := by
  induction ids generalizing t with
  | nil => simp [runDeferred]
  | cons a rest ih =>
    have h : runDeferred (a :: rest) t = runDeferred rest (t.End a) := rfl
    obtain ⟨s, hs, hs0⟩ := hopen a (List.mem_cons_self _ _)
    have hexp : (t.End a).exported = t.exported ++ [a] := by
      simp only [Tracer.End, hs, hs0, if_true]
    rw [h, ih (t.End a) (List.nodup_cons.mp hnodup).2, hexp]
    · simp
    · intro id hid
      obtain ⟨s1, h1, h10⟩ := hopen id (List.mem_cons_of_mem _ hid)
      have hne : id ≠ a := fun he => (List.nodup_cons.mp hnodup).1 (he ▸ hid)
      exact ⟨s1, by rw [Tracer_End_spans, if_neg hne]; exact h1, h10⟩

end Otelsqs

namespace Otelsqs
open Otel Sqs

/-- A key that the span does not hold yet goes to the end of its attributes. -/
theorem setAttr_fresh (kv : KeyValue) (l : List KeyValue) (h : ∀ a ∈ l, a.Key ≠ kv.Key) :
    setAttr kv l = l ++ [kv] := by
  induction l with
  | nil => rfl
  | cons a rest ih =>
    have ha : a.Key ≠ kv.Key := h a (List.mem_cons_self _ _)
    simp only [setAttr, ha, if_false, List.cons_append]
    rw [ih (fun b hb => h b (List.mem_cons_of_mem _ hb))]

/-- What the handler's error and request id do to the span of the request. -/
theorem recordOutcome_self (t : Tracer) (span : Nat) (res : HandlerResult) :
    (recordOutcome t span res).spans[span]? = (t.spans[span]?).map (outcomeEffect res) := by
  cases h : t.spans[span]? <;> cases hr : GetRequestIDMetadata res.metadata <;>
    cases he : res.err <;>
    simp [recordOutcome, outcomeEffect, hr, he, h, Tracer_SetAttributes_spans,
      Tracer_SetStatus_spans, Tracer_RecordError_spans]

/-- What the reconciliation does to the span of the request, when no identifier is bound
to that span; also when it panics. -/
theorem reconcileResult_self (span : Nat) (m : List (String × Nat)) (t : Tracer)
    (result : Option Result) (hm : ∀ b, m.lookup b ≠ some span) :
    (stateOf (reconcileResult span m t result)).spans[span]? =
      (t.spans[span]?).map (resultEffect result) := by
  cases h : t.spans[span]? with
  | none =>
    cases result with
    | none => simp [reconcileResult, stateOf, h]
    | some r =>
      cases r with
      | SendMessageOutput res =>
        cases hmid : res.MessageId <;>
          simp [reconcileResult, stateOf, hmid, Tracer_SetAttributes_spans, h]
      | SendMessageBatchOutput res =>
        rw [reconcileBatch_frame span m span res (fun _ _ b _ => hm b) (fun _ _ b _ => hm b)]
        simp [h]
      | other op => simp [reconcileResult, stateOf, h]
  | some s0 =>
    cases result with
    | none => simp [reconcileResult, stateOf, resultEffect, h]
    | some r =>
      cases r with
      | SendMessageOutput res =>
        cases hmid : res.MessageId <;>
          simp [reconcileResult, stateOf, resultEffect, hmid, Tracer_SetAttributes_spans, h]
      | SendMessageBatchOutput res =>
        rw [reconcileBatch_frame span m span res (fun _ _ b _ => hm b) (fun _ _ b _ => hm b)]
        simp [resultEffect, h]
      | other op => simp [reconcileResult, stateOf, resultEffect, h]

/-- The span of the request when the middleware is left, for a span that was fresh when
the handler was called and held neither a request id nor a message id: its name, kind,
parent and start time are as at the start; the request id of the metadata and the message
id of a `SendMessageOutput` follow the attributes it had; an error of the handler is its
one recorded error and sets the status Error with the text of the error; it was ended
once. -/
theorem request_span_fields (res : HandlerResult) (p : Span)
    (hopen : p.endCalls = 0) (hstat : p.status = {}) (hev : p.events = [])
    (hk1 : ∀ a ∈ p.attributes, a.Key ≠ "aws.request_id")
    (hk2 : ∀ a ∈ p.attributes, a.Key ≠ "messaging.message.id") :
    (Span.End (resultEffect res.out.Result (outcomeEffect res p))).header = p.header ∧
    (Span.End (resultEffect res.out.Result (outcomeEffect res p))).endCalls = 1 ∧
    (Span.End (resultEffect res.out.Result (outcomeEffect res p))).attributes =
      p.attributes ++ requestIDAttrs res.metadata ++ messageIDAttrs res.out.Result ∧
    (Span.End (resultEffect res.out.Result (outcomeEffect res p))).events =
      (match res.err with
       | some err => [{ err := err, attrs := [] }]
       | none => []) ∧
    (Span.End (resultEffect res.out.Result (outcomeEffect res p))).status =
      (match res.err with
       | some err => { Code := .Error, Description := err.msg }
       | none => {}) := by
  have h1 : (outcomeEffect res p).header = p.header ∧ (outcomeEffect res p).endCalls = 0 ∧
      (outcomeEffect res p).attributes = p.attributes ++ requestIDAttrs res.metadata ∧
      (outcomeEffect res p).events =
        (match res.err with
         | some err => [{ err := err, attrs := [] }]
         | none => []) ∧
      (outcomeEffect res p).status =
        (match res.err with
         | some err => { Code := .Error, Description := err.msg }
         | none => {}) := by
    cases hr : GetRequestIDMetadata res.metadata with
    | none =>
      cases he : res.err with
      | none => simp [outcomeEffect, requestIDAttrs, hr, he, hopen, hstat, hev]
      | some err =>
        simp [outcomeEffect, requestIDAttrs, hr, he, Span.RecordError, Span.SetStatus,
          Span.header, hopen, hstat, hev, Code.toNat]
    | some r =>
      have hf := setAttr_fresh (Semconv.AWSRequestID r) p.attributes hk1
      cases he : res.err with
      | none =>
        simp [outcomeEffect, requestIDAttrs, hr, he, Span.SetAttributes, Span.header, hopen,
          hstat, hev, hf]
      | some err =>
        simp [outcomeEffect, requestIDAttrs, hr, he, Span.RecordError, Span.SetStatus,
          Span.SetAttributes, Span.header, hopen, hstat, hev, Code.toNat, hf]
  obtain ⟨g1, g2, g3, g4, g5⟩ := h1
  have hk3 : ∀ a ∈ (outcomeEffect res p).attributes, a.Key ≠ "messaging.message.id" := by
    rw [g3]
    intro a ha
    rcases List.mem_append.mp ha with h | h
    · exact hk2 a h
    · cases hr : GetRequestIDMetadata res.metadata with
      | none => simp [requestIDAttrs, hr] at h
      | some r =>
        simp only [requestIDAttrs, hr, List.mem_singleton] at h
        rw [h]
        simp [Semconv.AWSRequestID, attrString]
  have h2 : (resultEffect res.out.Result (outcomeEffect res p)).header =
        (outcomeEffect res p).header ∧
      (resultEffect res.out.Result (outcomeEffect res p)).endCalls = 0 ∧
      (resultEffect res.out.Result (outcomeEffect res p)).attributes =
        (outcomeEffect res p).attributes ++ messageIDAttrs res.out.Result ∧
      (resultEffect res.out.Result (outcomeEffect res p)).events = (outcomeEffect res p).events ∧
      (resultEffect res.out.Result (outcomeEffect res p)).status =
        (outcomeEffect res p).status := by
    cases hres : res.out.Result with
    | none => simp [resultEffect, messageIDAttrs, g2]
    | some r =>
      cases r with
      | SendMessageOutput out =>
        cases hmid : out.MessageId with
        | none => simp [resultEffect, messageIDAttrs, hmid, g2]
        | some mid =>
          have hf := setAttr_fresh (Semconv.MessagingMessageID mid) _ hk3
          simp [resultEffect, messageIDAttrs, hmid, Span.SetAttributes, Span.header, g2, hf]
      | SendMessageBatchOutput out => simp [resultEffect, messageIDAttrs, g2]
      | other op => simp [resultEffect, messageIDAttrs, g2]
  obtain ⟨f1, f2, f3, f4, f5⟩ := h2
  refine ⟨?_, ?_, ?_, ?_, ?_⟩
  · exact (show (Span.End _).header = _ from rfl).trans (f1.trans g1)
  · simp only [Span.End, f2]
  · simp only [Span.End, f3, g3]
  · simp only [Span.End, f4, g4]
  · simp only [Span.End, f5, g5]

end Otelsqs

namespace Otelsqs
open Otel Sqs

/-- The span of the request when the middleware is left. -/
theorem afterStart_request_span (handler : InitializeHandler) (ctx : Context)
    (input : InitializeInput) (span : Nat) (st : BatchState) (p : Span)
    (hp : st.tracer.spans[span]? = some p)
    (hm : ∀ b, st.createSpanByRequestID.lookup b ≠ some span)
    (hd : (span :: st.deferred).count span = 1) :
    (afterStart handler ctx input span st).tracer.spans[span]? =
      some (Span.End (resultEffect (handler ctx input).out.Result
        (outcomeEffect (handler ctx input) p))) := by
  rw [afterStart_spans, reconcileResult_self _ _ _ _ hm, recordOutcome_self, hp, hd]
  rfl

/-- The names, kinds, parents and start times of the spans when the middleware is left
are those at the call of the handler. -/
theorem afterStart_header (handler : InitializeHandler) (ctx : Context)
    (input : InitializeInput) (span : Nat) (st : BatchState) :
    (afterStart handler ctx input span st).tracer.spans.map Span.header =
      st.tracer.spans.map Span.header := by
  rw [(afterStart_eq handler ctx input span st).1, runDeferred_header,
    (reconcileResult_map Span.header header_unchanging _ _ _ _).1,
    (recordOutcome_map Span.header header_unchanging _ _ _).1]

/-- The spans are handed to the exporter in the order of the deferred calls: the span of
the request first. -/
theorem afterStart_exported (handler : InitializeHandler) (ctx : Context)
    (input : InitializeInput) (span : Nat) (st : BatchState)
    (hnodup : (span :: st.deferred).Nodup)
    (hopen : ∀ id ∈ span :: st.deferred, ∃ s, st.tracer.spans[id]? = some s ∧ s.endCalls = 0) :
    (afterStart handler ctx input span st).tracer.exported =
      st.tracer.exported ++ span :: st.deferred := by
  rw [(afterStart_eq handler ctx input span st).1, runDeferred_exported _ _ hnodup,
    (reconcileResult_map Span.header header_unchanging _ _ _ _).2,
    (recordOutcome_map Span.header header_unchanging _ _ _).2]
  intro id hid
  obtain ⟨s0, hs0, hz⟩ := hopen id hid
  have hre := reconciled_endCalls span st.createSpanByRequestID st.tracer (handler ctx input) id
  rw [hs0] at hre
  cases h1 : (stateOf (reconcileResult span st.createSpanByRequestID
      (recordOutcome st.tracer span (handler ctx input))
      (handler ctx input).out.Result)).spans[id]? with
  | none => rw [h1] at hre; simp at hre
  | some s1 =>
    rw [h1] at hre
    simp only [Option.map_some', Option.some.injEq] at hre
    exact ⟨s1, rfl, hre.trans hz⟩

/-- A `SendMessage` request with a queue URL starts one span and reaches the call of the
handler. -/
theorem middleware_sendMessage (now : Nat) (t : Tracer) (ctx : Context)
    (params : SendMessageInput) (q : String) (hq : params.QueueUrl = some q)
    (handler : InitializeHandler) :
    middleware now t ctx ⟨.SendMessageInput params⟩ handler =
      afterStart handler (handlerContext now t ctx) ⟨.SendMessageInput params⟩ t.spans.length
        { tracer := { spans := t.spans ++ [sendMessageSpan ctx params q],
                      exported := t.exported } } := by
  obtain ⟨queueUrl, body, attrs⟩ := params
  simp only at hq
  subst hq
  rfl

/-- The attributes of the span of a batch request as it is started. -/
theorem batchSpan_attributes (ctx : Context) (q : String)
    (entries : List SendMessageBatchRequestEntry) :
    (batchSpan ctx { QueueUrl := some q, Entries := entries } q).attributes =
      [attrString "rpc.system" "aws-api",
       attrString "rpc.method" ctx.operation,
       attrString "rpc.service" ctx.serviceID,
       attrString "messaging.operation.name" "SendMessageBatch",
       attrInt "messaging.batch.message_count" entries.length,
       attrString "messaging.system" "aws_sqs",
       attrString "messaging.operation.type" "publish",
       attrString "messaging.destination.name" q,
       attrString "network.peer.address" q] := by
  simp [batchSpan, newSpan, Span.SetAttributes, sendMessageBatchAttrs, addAttrsFromQueueURL,
    setAttr, attrRPCSystemAWSAPI, attrOpSendMessageBatch, Semconv.RPCSystemKey,
    Semconv.RPCMethod, Semconv.RPCService, Semconv.MessagingOperationName,
    Semconv.MessagingBatchMessageCount, Semconv.MessagingSystemAWSSqs,
    Semconv.MessagingOperationTypePublish, Semconv.MessagingDestinationName,
    Semconv.NetworkPeerAddress, attrString, attrInt]

/-- The attributes of the span of a `SendMessage` request as it is started. -/
theorem sendMessageSpan_attributes (ctx : Context) (params : SendMessageInput) (q : String)
    (hq : params.QueueUrl = some q) :
    (sendMessageSpan ctx params q).attributes =
      [attrString "rpc.system" "aws-api",
       attrString "rpc.method" ctx.operation,
       attrString "rpc.service" ctx.serviceID,
       attrString "messaging.operation.name" "SendMessage",
       attrString "messaging.system" "aws_sqs",
       attrString "messaging.operation.type" "publish",
       attrString "messaging.destination.name" q,
       attrString "network.peer.address" q] ++
      (match params.MessageBody with
       | some body => [attrInt "messaging.message.body.size" body.utf8ByteSize]
       | none => []) := by
  obtain ⟨queueUrl, body, attrs⟩ := params
  simp only at hq
  subst hq
  cases body <;>
    simp [sendMessageSpan, newSpan, Span.SetAttributes, sendMessageAttrs, addAttrsFromQueueURL,
      addAttrsFromMessageBody, setAttr, attrRPCSystemAWSAPI, attrOpSendMessage,
      Semconv.RPCSystemKey, Semconv.RPCMethod, Semconv.RPCService,
      Semconv.MessagingOperationName, Semconv.MessagingMessageBodySize,
      Semconv.MessagingSystemAWSSqs, Semconv.MessagingOperationTypePublish,
      Semconv.MessagingDestinationName, Semconv.NetworkPeerAddress, attrString, attrInt]

end Otelsqs

namespace Otelsqs
open Otel Sqs

/-- The span of the request stands right after the spans that were there. -/
theorem request_span_at (l : List Span) (p : Span) (rest : List Span) :
    (l ++ p :: rest)[l.length]? = some p := by
  rw [List.getElem?_append_right (Nat.le_refl _)]
  simp

/-- The deferred calls of a batch request name no span twice. -/
theorem deferred_nodup (n0 n : Nat) : (n0 :: (List.range' (n0 + 1) n).reverse).Nodup := by
  have hp : (n0 :: (List.range' (n0 + 1) n).reverse).Perm (List.range' n0 (n + 1)) := by
    rw [List.range'_succ]
    exact List.Perm.cons _ (List.reverse_perm _)
  exact hp.nodup_iff.mpr (List.nodup_range' _ _)

/-- The order in which the spans of a batch request are ended: the span of the request,
then the `create` spans from the last entry to the first. -/
theorem batch_export_order (now : Nat) (t : Tracer) (ctx : Context) (q : String)
    (entries : List SendMessageBatchRequestEntry) (hIds : ∀ e ∈ entries, e.Id ≠ none)
    (handler : InitializeHandler) :
    (middleware now t ctx ⟨.SendMessageBatchInput { QueueUrl := some q, Entries := entries }⟩
      handler).tracer.exported =
      t.exported ++ t.spans.length ::
        (List.range' (t.spans.length + 1) entries.length).reverse := by
  obtain ⟨st1, hrun, hspans, hexp, hdef, _, _, _⟩ := middleware_batch now t ctx q entries hIds
  rw [hrun handler, afterStart_exported, hexp, hdef]
  · rw [hdef]
    exact deferred_nodup _ _
  · intro id hid
    rw [hdef] at hid
    have hb : t.spans.length ≤ id ∧ id < t.spans.length + 1 + entries.length := by
      rcases List.mem_cons.mp hid with h | h
      · omega
      · rw [List.mem_reverse, List.mem_range'] at h
        obtain ⟨i, hi, rfl⟩ := h
        omega
    have hlen : id < st1.tracer.spans.length := by
      rw [hspans]
      simp
      omega
    refine ⟨st1.tracer.spans[id], List.getElem?_eq_getElem hlen, ?_⟩
    have hs : (t.spans ++ batchSpan ctx { QueueUrl := some q, Entries := entries } q ::
        entries.map (fun e => createSpan t.spans.length q now (e.Id.getD "")))[id]? =
        some st1.tracer.spans[id] := by
      rw [← hspans]
      exact List.getElem?_eq_getElem hlen
    exact (opened_endCalls t ctx _ q now entries id _ hb.1 hs).1

/-- C17 (as stated, refuted): on the test request and response the span of the request,
`publish my-queue` at position 0, is the first span to be ended, before each of the four
`create` spans at positions 1 to 4. -/
theorem parent_span_closed_first :
    (middleware 7 {} testBatchContext ⟨.SendMessageBatchInput testBatchInput⟩
      (respondWith (some (.SendMessageBatchOutput testBatchOutput)))).tracer.exported =
      [0, 4, 3, 2, 1] ∧
    ((middleware 7 {} testBatchContext ⟨.SendMessageBatchInput testBatchInput⟩
      (respondWith (some (.SendMessageBatchOutput testBatchOutput)))).tracer.spans.map
        fun s => (s.name, s.parent)) =
      [("publish my-queue", none), ("create my-queue", some 0), ("create my-queue", some 0),
       ("create my-queue", some 0), ("create my-queue", some 0)] := by
  decide

/-- C17 (amended): on every batch request whose entries have identifiers and for every
result or error of the next handler, the spans are ended in the reverse order of their
deferred `End` calls: first the span of the request, then the `create` spans from the one
of the last entry to the one of the first entry. -/
theorem batch_spans_closed_parent_first (now : Nat) (t : Tracer) (ctx : Context) (q : String)
    (entries : List SendMessageBatchRequestEntry) (hIds : ∀ e ∈ entries, e.Id ≠ none)
    (handler : InitializeHandler) :
    (middleware now t ctx ⟨.SendMessageBatchInput { QueueUrl := some q, Entries := entries }⟩
      handler).tracer.exported =
      t.exported ++ t.spans.length ::
        (List.range' (t.spans.length + 1) entries.length).reverse ∧
    (middleware now t ctx ⟨.SendMessageBatchInput { QueueUrl := some q, Entries := entries }⟩
      handler).tracer.spans[t.spans.length]?.map Span.header =
      some (batchSpan ctx { QueueUrl := some q, Entries := entries } q).header :=
  ⟨batch_export_order now t ctx q entries hIds handler, by
    obtain ⟨st1, hrun, hspans, _, _, _, _, _⟩ := middleware_batch now t ctx q entries hIds
    have h := congrArg (fun l => l[t.spans.length]?)
      (afterStart_header handler (handlerContext now t ctx)
        ⟨.SendMessageBatchInput { QueueUrl := some q, Entries := entries }⟩ t.spans.length st1)
    simp only [List.getElem?_map] at h
    rw [hrun handler, h, hspans, request_span_at]
    rfl⟩

/-- C17 (amended), at the test request with a transport error. -/
theorem batch_spans_closed_parent_first_witness :
    (∀ e ∈ testBatchInput.Entries, e.Id ≠ none) ∧
    (middleware 7 {} testBatchContext ⟨.SendMessageBatchInput testBatchInput⟩
      (failWith none transportError)).tracer.exported = [0, 4, 3, 2, 1] :=
  ⟨by decide,
   (batch_spans_closed_parent_first 7 {} testBatchContext testQueueURL
     testBatchInput.Entries (by decide) (failWith none transportError)).1⟩

end Otelsqs

namespace Otelsqs
open Otel Sqs

/-- A `SendMessage` request with a queue URL: the handler is called once with the span of
the request as the one new span; when the middleware is left there is still one new span,
ended by the one deferred call, and it is the span of the request with what the outcome
and the result put on it. -/
theorem sendMessage_run (now : Nat) (t : Tracer) (ctx : Context)
    (params : SendMessageInput) (q : String) (hq : params.QueueUrl = some q)
    (handler : InitializeHandler) :
    (middleware now t ctx ⟨.SendMessageInput params⟩ handler).handlerCalls =
      [{ ctx := handlerContext now t ctx, input := ⟨.SendMessageInput params⟩,
         tracer := { spans := t.spans ++ [sendMessageSpan ctx params q],
                     exported := t.exported } }] ∧
    (middleware now t ctx ⟨.SendMessageInput params⟩ handler).tracer.spans.length =
      t.spans.length + 1 ∧
    (middleware now t ctx ⟨.SendMessageInput params⟩ handler).tracer.exported =
      t.exported ++ [t.spans.length] ∧
    (middleware now t ctx ⟨.SendMessageInput params⟩ handler).tracer.spans[t.spans.length]? =
      some (Span.End (resultEffect
        (handler (handlerContext now t ctx) ⟨.SendMessageInput params⟩).out.Result
        (outcomeEffect (handler (handlerContext now t ctx) ⟨.SendMessageInput params⟩)
          (sendMessageSpan ctx params q)))) := by
  rw [middleware_sendMessage now t ctx params q hq handler]
  refine ⟨(afterStart_eq _ _ _ _ _).2.1, ?_, ?_, ?_⟩
  · have h := congrArg List.length (afterStart_header handler (handlerContext now t ctx)
      ⟨.SendMessageInput params⟩ t.spans.length
      { tracer := { spans := t.spans ++ [sendMessageSpan ctx params q],
                    exported := t.exported } })
    simpa using h
  · rw [afterStart_exported]
    · simp
    · intro id hid
      simp only [List.mem_singleton] at hid
      subst hid
      exact ⟨sendMessageSpan ctx params q, request_span_at _ _ _, newSpan_endCalls _ _ _ _ _⟩
  · apply afterStart_request_span
    · exact request_span_at _ _ _
    · intro b
      simp [List.lookup]
    · simp

/-- A batch request whose entries have identifiers: when the middleware is left, the span
of the request is the one that was started with what the outcome and the result put on
it, ended once. -/
theorem batch_final_span (now : Nat) (t : Tracer) (ctx : Context) (q : String)
    (entries : List SendMessageBatchRequestEntry) (hIds : ∀ e ∈ entries, e.Id ≠ none)
    (handler : InitializeHandler) :
    (middleware now t ctx ⟨.SendMessageBatchInput { QueueUrl := some q, Entries := entries }⟩
      handler).tracer.spans[t.spans.length]? =
      some (Span.End (resultEffect
        (handler (handlerContext now t ctx)
          ⟨.SendMessageBatchInput { QueueUrl := some q, Entries := entries }⟩).out.Result
        (outcomeEffect (handler (handlerContext now t ctx)
            ⟨.SendMessageBatchInput { QueueUrl := some q, Entries := entries }⟩)
          (batchSpan ctx { QueueUrl := some q, Entries := entries } q)))) := by
  obtain ⟨st1, hrun, hspans, _, hdef, _, hbound, _⟩ := middleware_batch now t ctx q entries hIds
  rw [hrun handler]
  apply afterStart_request_span
  · rw [hspans]
    exact request_span_at _ _ _
  · intro b hb
    obtain ⟨j, e, hv, _, _⟩ := hbound b _ hb
    omega
  · rw [hdef]
    exact deferred_count _ entries.length _ (Nat.le_refl _) (by omega)

/-- The span of a batch request as it is started has no status, no event, and no request
id or message id among its attributes. -/
theorem batchSpan_fresh (ctx : Context) (q : String)
    (entries : List SendMessageBatchRequestEntry) :
    (batchSpan ctx { QueueUrl := some q, Entries := entries } q).endCalls = 0 ∧
    (batchSpan ctx { QueueUrl := some q, Entries := entries } q).status = {} ∧
    (batchSpan ctx { QueueUrl := some q, Entries := entries } q).events = [] ∧
    (∀ a ∈ (batchSpan ctx { QueueUrl := some q, Entries := entries } q).attributes,
      a.Key ≠ "aws.request_id") ∧
    (∀ a ∈ (batchSpan ctx { QueueUrl := some q, Entries := entries } q).attributes,
      a.Key ≠ "messaging.message.id") := by
  refine ⟨newSpan_endCalls _ _ _ _ _, rfl, rfl, ?_, ?_⟩ <;>
  · rw [batchSpan_attributes]
    simp [attrString, attrInt]

/-- The span of a `SendMessage` request as it is started has no status, no event, and no
request id, message id or message count among its attributes. -/
theorem sendMessageSpan_fresh (ctx : Context) (params : SendMessageInput) (q : String)
    (hq : params.QueueUrl = some q) :
    (sendMessageSpan ctx params q).endCalls = 0 ∧
    (sendMessageSpan ctx params q).status = {} ∧
    (sendMessageSpan ctx params q).events = [] ∧
    (∀ a ∈ (sendMessageSpan ctx params q).attributes, a.Key ≠ "aws.request_id") ∧
    (∀ a ∈ (sendMessageSpan ctx params q).attributes, a.Key ≠ "messaging.message.id") ∧
    (∀ a ∈ (sendMessageSpan ctx params q).attributes,
      a.Key ≠ "messaging.batch.message_count") := by
  refine ⟨newSpan_endCalls _ _ _ _ _, rfl, rfl, ?_, ?_, ?_⟩ <;>
  · rw [sendMessageSpan_attributes ctx params q hq]
    cases params.MessageBody <;> simp [attrString, attrInt]

end Otelsqs

namespace Otelsqs
open Otel Sqs

/-- The spans at the one call of the handler in a batch request whose entries have
identifiers. -/
theorem batch_call_spans (now : Nat) (t : Tracer) (ctx : Context) (q : String)
    (entries : List SendMessageBatchRequestEntry) (hIds : ∀ e ∈ entries, e.Id ≠ none)
    (handler : InitializeHandler) :
    (middleware now t ctx ⟨.SendMessageBatchInput { QueueUrl := some q, Entries := entries }⟩
      handler).handlerCalls.map (fun call => call.tracer.spans) =
      [t.spans ++ batchSpan ctx { QueueUrl := some q, Entries := entries } q ::
        entries.map (fun e => createSpan t.spans.length q now (e.Id.getD ""))] := by
  obtain ⟨st1, hrun, hspans, _, _, _, _, _⟩ := middleware_batch now t ctx q entries hIds
  rw [hrun handler, (afterStart_eq _ _ _ _ _).2.1]
  simp [hspans]

/-- C15: the span of a batch request with queue URL `q` and entries with identifiers is
named `publish` followed by the queue name, has kind client and, when the handler is
called, exactly the attributes rpc.system, rpc.method, rpc.service,
messaging.operation.name = SendMessageBatch, messaging.batch.message_count = the number
of entries, messaging.system = aws_sqs, messaging.operation.type = publish,
messaging.destination.name = q and network.peer.address = q; when the middleware is left
it has the same name and kind and these attributes followed by the request id and message
id that the handler returned, if any.  The span of a `SendMessage` request with queue URL
`q` follows the same name rule, has kind producer, and has no attribute
messaging.batch.message_count, at the call of the handler and when the middleware is
left. -/
theorem request_span_name_kind_attributes (now : Nat) (t : Tracer) (ctx : Context)
    (q : String) (entries : List SendMessageBatchRequestEntry)
    (hIds : ∀ e ∈ entries, e.Id ≠ none) (params : SendMessageInput)
    (hq : params.QueueUrl = some q) (handler : InitializeHandler) :
    ((middleware now t ctx ⟨.SendMessageBatchInput { QueueUrl := some q, Entries := entries }⟩
      handler).handlerCalls.map fun call =>
        call.tracer.spans[t.spans.length]?.map fun s => (s.name, s.kind, s.attributes)) =
      [some ("publish " ++ getQueueName q, .SpanKindClient,
        [attrString "rpc.system" "aws-api",
         attrString "rpc.method" ctx.operation,
         attrString "rpc.service" ctx.serviceID,
         attrString "messaging.operation.name" "SendMessageBatch",
         attrInt "messaging.batch.message_count" entries.length,
         attrString "messaging.system" "aws_sqs",
         attrString "messaging.operation.type" "publish",
         attrString "messaging.destination.name" q,
         attrString "network.peer.address" q])] ∧
    ((middleware now t ctx ⟨.SendMessageBatchInput { QueueUrl := some q, Entries := entries }⟩
      handler).tracer.spans[t.spans.length]?.map fun s => (s.name, s.kind, s.attributes)) =
      some ("publish " ++ getQueueName q, .SpanKindClient,
        [attrString "rpc.system" "aws-api",
         attrString "rpc.method" ctx.operation,
         attrString "rpc.service" ctx.serviceID,
         attrString "messaging.operation.name" "SendMessageBatch",
         attrInt "messaging.batch.message_count" entries.length,
         attrString "messaging.system" "aws_sqs",
         attrString "messaging.operation.type" "publish",
         attrString "messaging.destination.name" q,
         attrString "network.peer.address" q] ++
        requestIDAttrs (handler (handlerContext now t ctx)
          ⟨.SendMessageBatchInput { QueueUrl := some q, Entries := entries }⟩).metadata ++
        messageIDAttrs (handler (handlerContext now t ctx)
          ⟨.SendMessageBatchInput { QueueUrl := some q, Entries := entries }⟩).out.Result) ∧
    ((middleware now t ctx ⟨.SendMessageInput params⟩ handler).handlerCalls.map fun call =>
        call.tracer.spans[t.spans.length]?.map fun s =>
          (s.name, s.kind,
            decide (∀ a ∈ s.attributes, a.Key ≠ "messaging.batch.message_count"))) =
      [some ("publish " ++ getQueueName q, .SpanKindProducer, true)] ∧
    ((middleware now t ctx ⟨.SendMessageInput params⟩ handler).tracer.spans[t.spans.length]?.map
        fun s =>
          (s.name, s.kind,
            decide (∀ a ∈ s.attributes, a.Key ≠ "messaging.batch.message_count"))) =
      some ("publish " ++ getQueueName q, .SpanKindProducer, true) := by
  refine ⟨?_, ?_, ?_, ?_⟩
  · have h := batch_call_spans now t ctx q entries hIds handler
    have h2 := congrArg (List.map fun (l : List Span) =>
      l[t.spans.length]?.map fun s => (s.name, s.kind, s.attributes)) h
    simp only [List.map_map] at h2
    rw [← batchSpan_attributes ctx q entries]
    refine Eq.trans ?_ (h2.trans ?_)
    · rfl
    · simp only [List.map_cons, List.map_nil, request_span_at, Option.map_some']
      rfl
  · obtain ⟨hh, _, ha, _, _⟩ := request_span_fields
      (handler (handlerContext now t ctx)
        ⟨.SendMessageBatchInput { QueueUrl := some q, Entries := entries }⟩)
      (batchSpan ctx { QueueUrl := some q, Entries := entries } q)
      (batchSpan_fresh ctx q entries).1 (batchSpan_fresh ctx q entries).2.1
      (batchSpan_fresh ctx q entries).2.2.1 (batchSpan_fresh ctx q entries).2.2.2.1
      (batchSpan_fresh ctx q entries).2.2.2.2
    rw [batch_final_span now t ctx q entries hIds handler, Option.map_some', ha,
      batchSpan_attributes]
    simp only [Span.header, Prod.mk.injEq] at hh
    rw [hh.1, hh.2.1]
    rfl
  · rw [(sendMessage_run now t ctx params q hq handler).1]
    simp only [List.map_cons, List.map_nil, request_span_at, Option.map_some']
    have hf := (sendMessageSpan_fresh ctx params q hq).2.2.2.2.2
    simp only [decide_eq_true hf]
    rfl
  · obtain ⟨hh, _, ha, _, _⟩ := request_span_fields
      (handler (handlerContext now t ctx) ⟨.SendMessageInput params⟩)
      (sendMessageSpan ctx params q)
      (sendMessageSpan_fresh ctx params q hq).1 (sendMessageSpan_fresh ctx params q hq).2.1
      (sendMessageSpan_fresh ctx params q hq).2.2.1
      (sendMessageSpan_fresh ctx params q hq).2.2.2.1
      (sendMessageSpan_fresh ctx params q hq).2.2.2.2.1
    rw [(sendMessage_run now t ctx params q hq handler).2.2.2, Option.map_some']
    simp only [Span.header, Prod.mk.injEq] at hh
    rw [hh.1, hh.2.1]
    have hf : ∀ a ∈ (Span.End (resultEffect
        (handler (handlerContext now t ctx) ⟨.SendMessageInput params⟩).out.Result
        (outcomeEffect (handler (handlerContext now t ctx) ⟨.SendMessageInput params⟩)
          (sendMessageSpan ctx params q)))).attributes,
        a.Key ≠ "messaging.batch.message_count" := by
      rw [ha]
      intro a hmem
      rcases List.mem_append.mp hmem with h1 | h1
      · rcases List.mem_append.mp h1 with h2 | h2
        · exact (sendMessageSpan_fresh ctx params q hq).2.2.2.2.2 a h2
        · unfold requestIDAttrs at h2
          cases hr : GetRequestIDMetadata
              (handler (handlerContext now t ctx) ⟨.SendMessageInput params⟩).metadata with
          | none => simp [hr] at h2
          | some r =>
            simp [hr] at h2
            subst h2
            simp [Semconv.AWSRequestID, attrString]
      · cases hres : (handler (handlerContext now t ctx)
            ⟨.SendMessageInput params⟩).out.Result with
        | none => simp [hres, messageIDAttrs] at h1
        | some result =>
          cases result with
          | SendMessageOutput out =>
            cases hm : out.MessageId with
            | none => simp [hres, messageIDAttrs, hm] at h1
            | some m =>
              simp [hres, messageIDAttrs, hm] at h1
              subst h1
              simp [Semconv.MessagingMessageID, attrString]
          | SendMessageBatchOutput out => simp [hres, messageIDAttrs] at h1
          | other op => simp [hres, messageIDAttrs] at h1
    simp only [decide_eq_true hf]
    rfl

/-- C15, at the requests of the tests: the span of the batch request of four entries is
`publish my-queue` of kind client with message count 4, that of the `SendMessage` request
is `publish my-queue` of kind producer. -/
theorem request_span_name_kind_attributes_witness :
    (∀ e ∈ testBatchInput.Entries, e.Id ≠ none) ∧ testSendInput.QueueUrl = some testQueueURL ∧
    ((middleware 7 {} testBatchContext ⟨.SendMessageBatchInput testBatchInput⟩
      (respondWith (some (.SendMessageBatchOutput testBatchOutput)))).tracer.spans[0]?.map
        fun s => (s.name, s.kind, s.attributes)) =
      some ("publish my-queue", .SpanKindClient,
        [attrString "rpc.system" "aws-api",
         attrString "rpc.method" "SendMessageBatch",
         attrString "rpc.service" "SQS",
         attrString "messaging.operation.name" "SendMessageBatch",
         attrInt "messaging.batch.message_count" 4,
         attrString "messaging.system" "aws_sqs",
         attrString "messaging.operation.type" "publish",
         attrString "messaging.destination.name" testQueueURL,
         attrString "network.peer.address" testQueueURL]) :=
  ⟨by decide, rfl,
   (request_span_name_kind_attributes 7 {} testBatchContext testQueueURL
     testBatchInput.Entries (by decide) testSendInput rfl
     (respondWith (some (.SendMessageBatchOutput testBatchOutput)))).2.1.trans (by decide)⟩

end Otelsqs

namespace Otelsqs
open Otel Sqs

/-- The one call of the handler in a batch request whose entries have identifiers. -/
theorem batch_call (now : Nat) (t : Tracer) (ctx : Context) (q : String)
    (entries : List SendMessageBatchRequestEntry) (hIds : ∀ e ∈ entries, e.Id ≠ none)
    (handler : InitializeHandler) :
    ∃ tracer : Tracer,
      (middleware now t ctx ⟨.SendMessageBatchInput { QueueUrl := some q, Entries := entries }⟩
        handler).handlerCalls =
        [{ ctx := handlerContext now t ctx,
           input := ⟨.SendMessageBatchInput { QueueUrl := some q, Entries := entries }⟩,
           tracer := tracer }] ∧
      tracer.spans = t.spans ++ batchSpan ctx { QueueUrl := some q, Entries := entries } q ::
        entries.map (fun e => createSpan t.spans.length q now (e.Id.getD "")) ∧
      (middleware now t ctx ⟨.SendMessageBatchInput { QueueUrl := some q, Entries := entries }⟩
        handler).tracer.spans.map Span.header = tracer.spans.map Span.header := by
  obtain ⟨st1, hrun, hspans, _, _, _, _, _⟩ := middleware_batch now t ctx q entries hIds
  refine ⟨st1.tracer, ?_, hspans, ?_⟩
  · rw [hrun handler, (afterStart_eq _ _ _ _ _).2.1]
  · rw [hrun handler, afterStart_header]

/-- The start time of the spans after the span of the request, from their headers. -/
theorem drop_startTime (l : List Span) (p : Span) (children : List Span) (spans : List Span)
    (ts : Option Nat) (hc : ∀ s ∈ children, s.startTime = ts)
    (h : spans.map Span.header = (l ++ p :: children).map Span.header) :
    ∀ s ∈ spans.drop (l.length + 1), s.startTime = ts := by
  intro s hs
  have h1 : s.header ∈ (spans.drop (l.length + 1)).map Span.header := List.mem_map_of_mem _ hs
  rw [List.map_drop, h, List.map_append, List.map_cons] at h1
  have h2 : List.drop (l.length + 1) (List.map Span.header l ++
      Span.header p :: List.map Span.header children) = List.map Span.header children := by
    have h3 : List.map Span.header l ++ Span.header p :: List.map Span.header children =
        (List.map Span.header l ++ [Span.header p]) ++ List.map Span.header children := by simp
    rw [h3]
    exact List.drop_left' (by simp)
  rw [h2] at h1
  obtain ⟨c, hc1, hc2⟩ := List.mem_map.mp h1
  have h4 : c.startTime = s.startTime := by
    have := congrArg (fun x => x.2.2.2) hc2
    exact this
  rw [← h4]
  exact hc c hc1

end Otelsqs

namespace Otelsqs
open Otel Sqs

/-- C16: in a batch request with queue URL `q` whose entries have identifiers, the handler
is called with the timestamp `now` of `initializeBefore` in its context and, for the entry
with identifier `k` at position `pre.length`, with a span named `create` followed by the
queue name, of kind producer, child of the span of the request, started at `now`, with
exactly the attributes messaging.system = aws_sqs, messaging.operation.type = create,
messaging.destination.name = q, network.peer.address = q and aws.sqs.batch_request_id = k;
the span keeps name, kind, parent and start time until the middleware is left, and all
`create` spans of the request have the start time `now`, at the call and at the end. -/
theorem create_span_fields_and_start_time (now : Nat) (t : Tracer) (ctx : Context)
    (q : String) (pre post : List SendMessageBatchRequestEntry)
    (entry : SendMessageBatchRequestEntry) (k : String)
    (hIds : ∀ e ∈ pre ++ entry :: post, e.Id ≠ none) (hk : entry.Id = some k)
    (handler : InitializeHandler) :
    ((middleware now t ctx
      ⟨.SendMessageBatchInput { QueueUrl := some q, Entries := pre ++ entry :: post }⟩
      handler).handlerCalls.map fun call =>
        (call.ctx.spanTimestamp,
          call.tracer.spans[t.spans.length + 1 + pre.length]?.map fun s =>
            (s.name, s.kind, s.parent, s.startTime, s.attributes))) =
      [(some now,
        some ("create " ++ getQueueName q, .SpanKindProducer, some t.spans.length, some now,
          [attrString "messaging.system" "aws_sqs",
           attrString "messaging.operation.type" "create",
           attrString "messaging.destination.name" q,
           attrString "network.peer.address" q,
           attrString "aws.sqs.batch_request_id" k]))] ∧
    (middleware now t ctx
      ⟨.SendMessageBatchInput { QueueUrl := some q, Entries := pre ++ entry :: post }⟩
      handler).tracer.spans[t.spans.length + 1 + pre.length]?.map Span.header =
      some ("create " ++ getQueueName q, .SpanKindProducer, some t.spans.length, some now) ∧
    (∀ call ∈ (middleware now t ctx
      ⟨.SendMessageBatchInput { QueueUrl := some q, Entries := pre ++ entry :: post }⟩
      handler).handlerCalls,
      ∀ s ∈ call.tracer.spans.drop (t.spans.length + 1), s.startTime = some now) ∧
    ∀ s ∈ (middleware now t ctx
      ⟨.SendMessageBatchInput { QueueUrl := some q, Entries := pre ++ entry :: post }⟩
      handler).tracer.spans.drop (t.spans.length + 1), s.startTime = some now := by
  obtain ⟨tracer, hcall, hspans, hheader⟩ :=
    batch_call now t ctx q (pre ++ entry :: post) hIds handler
  have hchildren : ∀ s ∈ (pre ++ entry :: post).map
      (fun e => createSpan t.spans.length q now (e.Id.getD "")), s.startTime = some now := by
    intro s hs
    obtain ⟨e, _, he⟩ := List.mem_map.mp hs
    rw [← he]
    rfl
  refine ⟨?_, ?_, ?_, ?_⟩
  · rw [hcall]
    simp only [List.map_cons, List.map_nil, hspans,
      child_at t _ q now pre post entry k hk, Option.map_some',
      (createSpan_fields t.spans.length q now k).1]
    rfl
  · have h := congrArg (fun l => l[t.spans.length + 1 + pre.length]?) hheader
    simp only [List.getElem?_map] at h
    rw [h, hspans, child_at t _ q now pre post entry k hk]
    rfl
  · intro call hmem s hs
    rw [hcall, List.mem_singleton] at hmem
    subst hmem
    exact drop_startTime t.spans _ _ _ _ hchildren (by rw [hspans]) s hs
  · intro s hs
    exact drop_startTime t.spans _ _ _ _ hchildren (by rw [hheader, hspans]) s hs

/-- C16, at the test request: the span of `batch-3`, the third entry. -/
theorem create_span_fields_and_start_time_witness :
    (∀ e ∈ testBatchInput.Entries, e.Id ≠ none) ∧
    (middleware 7 {} testBatchContext ⟨.SendMessageBatchInput testBatchInput⟩
      (respondWith (some (.SendMessageBatchOutput testBatchOutput)))).tracer.spans[3]?.map
        Span.header = some ("create my-queue", .SpanKindProducer, some 0, some 7) :=
  ⟨by decide,
   (create_span_fields_and_start_time 7 {} testBatchContext testQueueURL
     [{ Id := some "batch-1", MessageBody := some "\x7b\"id\":\"msg-1\"\x7d" },
      { Id := some "batch-2", MessageBody := some "\x7b\"id\":\"msg-2\"\x7d" }]
     [{ Id := some "batch-4", MessageBody := some "\x7b\"id\":\"msg-4\"\x7d" }]
     { Id := some "batch-3", MessageBody := some "\x7b\"id\":\"msg-3\"\x7d" } "batch-3"
     (by decide) rfl
     (respondWith (some (.SendMessageBatchOutput testBatchOutput)))).2.1.trans (by decide)⟩

end Otelsqs

namespace Otelsqs
open Otel Sqs

/-- C18: a `SendMessage` request with a queue URL starts exactly one span, the span of the
request (no `create` span): the handler is called once with this span as the only new
span, not ended, and when the middleware is left there is still one new span.  When the
middleware is left this span has been ended once, by the one deferred call, and carries
the attributes it was started with, among them messaging.message.body.size = the byte
length of the body when there is a body, followed by the request id of the metadata, if
any, and messaging.message.id = the message id of the `SendMessageOutput`, if the result
has one; it has the error of the handler as its one recorded error and the status Error
with the text of the error when the handler returned an error, and no event and no status
otherwise. -/
theorem sendMessage_single_span (now : Nat) (t : Tracer) (ctx : Context)
    (params : SendMessageInput) (q : String) (hq : params.QueueUrl = some q)
    (handler : InitializeHandler) :
    (middleware now t ctx ⟨.SendMessageInput params⟩ handler).handlerCalls =
      [{ ctx := handlerContext now t ctx, input := ⟨.SendMessageInput params⟩,
         tracer := { spans := t.spans ++ [sendMessageSpan ctx params q],
                     exported := t.exported } }] ∧
    (sendMessageSpan ctx params q).endCalls = 0 ∧
    (middleware now t ctx ⟨.SendMessageInput params⟩ handler).tracer.spans.length =
      t.spans.length + 1 ∧
    (middleware now t ctx ⟨.SendMessageInput params⟩ handler).tracer.exported =
      t.exported ++ [t.spans.length] ∧
    ((middleware now t ctx ⟨.SendMessageInput params⟩ handler).tracer.spans[t.spans.length]?.map
        fun s => (s.endCalls, s.attributes, s.events, s.status)) =
      some (1,
        [attrString "rpc.system" "aws-api",
         attrString "rpc.method" ctx.operation,
         attrString "rpc.service" ctx.serviceID,
         attrString "messaging.operation.name" "SendMessage",
         attrString "messaging.system" "aws_sqs",
         attrString "messaging.operation.type" "publish",
         attrString "messaging.destination.name" q,
         attrString "network.peer.address" q] ++
        (match params.MessageBody with
         | some body => [attrInt "messaging.message.body.size" body.utf8ByteSize]
         | none => []) ++
        requestIDAttrs (handler (handlerContext now t ctx) ⟨.SendMessageInput params⟩).metadata ++
        (match (handler (handlerContext now t ctx) ⟨.SendMessageInput params⟩).out.Result with
         | some (.SendMessageOutput res) =>
           match res.MessageId with
           | some msgID => [attrString "messaging.message.id" msgID]
           | none => []
         | _ => []),
        (match (handler (handlerContext now t ctx) ⟨.SendMessageInput params⟩).err with
         | some err => [{ err := err, attrs := [] }]
         | none => []),
        (match (handler (handlerContext now t ctx) ⟨.SendMessageInput params⟩).err with
         | some err => { Code := .Error, Description := err.msg }
         | none => {})) := by
  obtain ⟨h1, h2, h3, h4⟩ := sendMessage_run now t ctx params q hq handler
  obtain ⟨hf1, hf2, hf3, hf4, hf5, _⟩ := sendMessageSpan_fresh ctx params q hq
  obtain ⟨_, he, ha, hev, hst⟩ := request_span_fields
    (handler (handlerContext now t ctx) ⟨.SendMessageInput params⟩)
    (sendMessageSpan ctx params q) hf1 hf2 hf3 hf4 hf5
  refine ⟨h1, hf1, h2, h3, ?_⟩
  rw [h4, Option.map_some', he, ha, hev, hst, sendMessageSpan_attributes ctx params q hq]
  have hm : messageIDAttrs
      (handler (handlerContext now t ctx) ⟨.SendMessageInput params⟩).out.Result =
      (match (handler (handlerContext now t ctx) ⟨.SendMessageInput params⟩).out.Result with
       | some (.SendMessageOutput res) =>
         match res.MessageId with
         | some msgID => [attrString "messaging.message.id" msgID]
         | none => []
       | _ => []) := by
    unfold messageIDAttrs
    rfl
  rw [hm]

/-- C18, at the request and response of the test case `ok` of
`TestMiddleware_SendMessage`. -/
theorem sendMessage_single_span_witness :
    testSendInput.QueueUrl = some testQueueURL ∧
    ((middleware 7 {} testSendContext ⟨.SendMessageInput testSendInput⟩
      (respondWith (some (.SendMessageOutput testSendOutput)))).tracer.spans.map
        fun s => (s.name, s.endCalls, s.attributes, s.events, s.status)) =
      [("publish my-queue", 1,
        [attrString "rpc.system" "aws-api",
         attrString "rpc.method" "SendMessage",
         attrString "rpc.service" "SQS",
         attrString "messaging.operation.name" "SendMessage",
         attrString "messaging.system" "aws_sqs",
         attrString "messaging.operation.type" "publish",
         attrString "messaging.destination.name" testQueueURL,
         attrString "network.peer.address" testQueueURL,
         attrInt "messaging.message.body.size" 20,
         attrString "messaging.message.id" "msg-1"], [], {})] ∧
    (middleware 7 {} testSendContext ⟨.SendMessageInput testSendInput⟩
      (respondWith (some (.SendMessageOutput testSendOutput)))).tracer.exported = [0] :=
  ⟨rfl, by decide,
   (sendMessage_single_span 7 {} testSendContext testSendInput testQueueURL rfl
     (respondWith (some (.SendMessageOutput testSendOutput)))).2.2.2.1⟩

end Otelsqs

namespace Awslambda
open Otel

/-- The name, kind and attributes of the span do not depend on the links. -/
theorem StartTraceFromSQSMessage_span (extract : String → Option SpanContext) (ctx : GoContext)
    (queueName : String) (msg : SQSMessage) :
    (StartTraceFromSQSMessage extract ctx queueName msg).span =
      newSpan none (queueName ++ " process") .SpanKindConsumer
        (commonAttrs ++ [attrString messagingSourceNameKey queueName,
          attrString messagingMessageIDKey msg.MessageId]) none := by
  cases h : msg.Attributes.lookup attrAWSTraceHeader <;>
    simp [StartTraceFromSQSMessage, h, Start, SpanConfig.apply, ValidateSpanKind]

/-- The links of the span: none without the attribute `AWSTraceHeader`, and with it the
valid ones among the one link made from the context that `Extract` returns. -/
theorem StartTraceFromSQSMessage_links (extract : String → Option SpanContext) (ctx : GoContext)
    (queueName : String) (msg : SQSMessage) :
    (StartTraceFromSQSMessage extract ctx queueName msg).links =
      (match msg.Attributes.lookup attrAWSTraceHeader with
       | some traceID =>
         [LinkFromContext (Propagator.Extract extract ctx [(headerXrayID, traceID)])].filter
           fun link => link.spanContext.IsValid
       | none => []) := by
  cases h : msg.Attributes.lookup attrAWSTraceHeader <;>
    simp [StartTraceFromSQSMessage, h, Start, SpanConfig.apply, MapCarrier.Set]

/-- C19 (as stated, refuted): a message whose attribute `AWSTraceHeader` is there and
empty.  `Extract` returns the context of the caller; when that context has no span, the
span gets no link although the key is there, and when it has one, the one link of the
span is to the span of the caller, not to a remote span context. -/
theorem trace_header_without_remote_link :
    testMessageEmptyHeader.Attributes.lookup "AWSTraceHeader" = some "" ∧
    (StartTraceFromSQSMessage testExtract {} "test-queue" testMessageEmptyHeader).links = [] ∧
    (StartTraceFromSQSMessage testExtract { spanContext := { TraceID := 1, SpanID := 2 } }
      "test-queue" testMessageEmptyHeader).links =
      [{ spanContext := { TraceID := 1, SpanID := 2, Remote := false } }] := by
  decide

/-- C19 (amended): `StartTraceFromSQSMessage` starts a span named `queueName` followed by
` process`, of kind consumer, with the attributes, in order, messaging.system = AmazonSQS,
messaging.operation = process, faas.trigger = pubsub, messaging.source.kind = queue,
messaging.source.name = queueName and messaging.message.id = the id of the message.  The
span has no link when the attributes of the message do not have the key `AWSTraceHeader`;
when they have it and its value is not empty and parses as an X-Ray trace header to a
valid span context, the span has exactly one link, to that span context marked remote. -/
theorem StartTraceFromSQSMessage_spec (extract : String → Option SpanContext)
    (ctx : GoContext) (queueName : String) (msg : SQSMessage) :
    (StartTraceFromSQSMessage extract ctx queueName msg).span.name = queueName ++ " process" ∧
    (StartTraceFromSQSMessage extract ctx queueName msg).span.kind = .SpanKindConsumer ∧
    (StartTraceFromSQSMessage extract ctx queueName msg).span.attributes =
      [attrString "messaging.system" "AmazonSQS",
       attrString "messaging.operation" "process",
       attrString "faas.trigger" "pubsub",
       attrString "messaging.source.kind" "queue",
       attrString "messaging.source.name" queueName,
       attrString "messaging.message.id" msg.MessageId] ∧
    (msg.Attributes.lookup "AWSTraceHeader" = none →
      (StartTraceFromSQSMessage extract ctx queueName msg).links = []) ∧
    ∀ header sc, msg.Attributes.lookup "AWSTraceHeader" = some header → header ≠ "" →
      extract header = some sc → sc.IsValid = true →
      (StartTraceFromSQSMessage extract ctx queueName msg).links =
        [{ spanContext := { sc with Remote := true } }] := by
  refine ⟨?_, ?_, ?_, ?_, ?_⟩
  · rw [StartTraceFromSQSMessage_span]
    rfl
  · rw [StartTraceFromSQSMessage_span]
    rfl
  · rw [StartTraceFromSQSMessage_span]
    simp [newSpan, Span.SetAttributes, setAttr, commonAttrs, MessagingSystemKey,
      MessagingOperationProcess, FaaSTriggerPubsub, messagingSourceNameKey,
      messagingMessageIDKey, attrString]
  · intro h
    have h1 : msg.Attributes.lookup attrAWSTraceHeader = none := h
    rw [StartTraceFromSQSMessage_links, h1]
  · intro header sc h hne hx hv
    have h1 : msg.Attributes.lookup attrAWSTraceHeader = some header := h
    rw [StartTraceFromSQSMessage_links, h1]
    have hv2 : sc.TraceID ≠ 0 ∧ sc.SpanID ≠ 0 := by simpa [SpanContext.IsValid] using hv
    simp [Propagator.Extract, MapCarrier.Get, List.lookup, hne, hx, LinkFromContext,
      SpanContextFromContext, ContextWithRemoteSpanContext, SpanContext.WithRemote,
      SpanContext.IsValid, hv2.1, hv2.2]

/-- C19 (amended), at the message of the test case `with links`: one link, to the span
context that trace_test.go expects. -/
theorem StartTraceFromSQSMessage_spec_witness :
    testMessageWithHeader.Attributes.lookup "AWSTraceHeader" = some testTraceHeader ∧
    testTraceHeader ≠ "" ∧
    (StartTraceFromSQSMessage testExtract {} "test-queue" testMessageWithHeader).links =
      [{ spanContext :=
          { TraceID := 0x5759e988bd862e3fe1be46a994272793, SpanID := 0x53995c3f42cd8ad8,
            Sampled := true, Remote := true } }] :=
  ⟨by decide, by decide,
   (StartTraceFromSQSMessage_spec testExtract {} "test-queue" testMessageWithHeader).2.2.2.2
     testTraceHeader
     { TraceID := 0x5759e988bd862e3fe1be46a994272793, SpanID := 0x53995c3f42cd8ad8,
       Sampled := true }
     (by decide) (by decide) (by decide) (by decide)⟩

end Awslambda

namespace Otelsqs
open Smithy

/-- What `swap` and, after it, `Add` do with a middleware `m` and the identifier `id` of
another one: nothing but an error when the step has `m` already; `m` in the place of `id`
when the step has `id` and not `m`; `m` added when the step has neither. -/
theorem swap_then_add (step : InitializeStep) (id : String) (m : InitializeMiddleware)
    (pos : RelativePosition) (hid : id ≠ "") (hm : m.ID ≠ "") (hne : id ≠ m.ID) :
    (m.ID ∈ step.order →
      swap step id m = (false, step) ∧
      step.Add m pos = .error ("already exists, " ++ m.ID)) ∧
    (m.ID ∉ step.order → id ∈ step.order →
      swap step id m =
        (true, { order := step.order.replace id m.ID,
                 items := (m.ID, m) :: step.items.filter fun item => item.1 != id })) ∧
    (m.ID ∉ step.order → id ∉ step.order →
      swap step id m = (false, step) ∧
      step.Add m pos =
        .ok (match pos with
             | .Before => { order := m.ID :: step.order, items := (m.ID, m) :: step.items }
             | .After => { order := step.order ++ [m.ID], items := (m.ID, m) :: step.items })) := by
  refine ⟨?_, ?_, ?_⟩
  · intro h
    constructor
    · by_cases h2 : id ∈ step.order <;>
        simp [swap, InitializeStep.Swap, hid, hm, hne, h, h2]
    · simp [InitializeStep.Add, hm, h]
  · intro h h2
    simp [swap, InitializeStep.Swap, hid, hm, h, h2]
  · intro h h2
    constructor
    · simp [swap, InitializeStep.Swap, hid, hm, h2]
    · cases pos <;> simp [InitializeStep.Add, hm, h]

/-- Putting `b` in the place of `a` in a list that has `a` and not `b` gives a list that
has `b` once. -/
theorem count_replace (l : List String) (a b : String) (ha : a ∈ l) (hb : b ∉ l) :
    (l.replace a b).count b = 1 := by
  induction l with
  | nil => simp at ha
  | cons x rest ih =>
    have hbx : b ≠ x := fun h => hb (by simp [h])
    have hbr : b ∉ rest := fun h => hb (List.mem_cons_of_mem _ h)
    by_cases hax : a = x
    · subst hax
      simp [List.replace_cons, List.count_cons, List.count_eq_zero_of_not_mem hbr]
    · have har : a ∈ rest := by
        rcases List.mem_cons.mp ha with h | h
        · exact absurd h hax
        · exact h
      have hxb : ¬ (x = b) := fun h => hbx h.symm
      have hbeq : (a == x) = false := by simp [hax]
      rw [List.replace_cons]
      simp only [hbeq]
      simp [List.count_cons, ih har hbr, hxb]

end Otelsqs

namespace Otelsqs
open Smithy

/-- What the registration of a middleware `m` that first tries to take the place of `id`
does, in the shape shared by `root.initializeBefore` and `root.initializeAfter`. -/
theorem register_cases (id : String) (m : InitializeMiddleware)
    (pos : RelativePosition) (hid : id ≠ "") (hm : m.ID ≠ "") (hne : id ≠ m.ID)
    (register : Stack → Option String × Stack)
    (hreg : ∀ stack, register stack =
      match swap stack.Initialize id m with
      | (true, step) => (none, { stack with Initialize := step })
      | (false, step) =>
        match step.Add m pos with
        | .ok added => (none, { stack with Initialize := added })
        | .error err => (some err, { stack with Initialize := step }))
    (stack : Stack) :
    (m.ID ∈ stack.Initialize.order →
      register stack = (some ("already exists, " ++ m.ID), stack)) ∧
    (m.ID ∉ stack.Initialize.order → id ∈ stack.Initialize.order →
      register stack =
        (none, { Initialize :=
          { order := stack.Initialize.order.replace id m.ID,
            items := (m.ID, m) :: stack.Initialize.items.filter fun item => item.1 != id } })) ∧
    (m.ID ∉ stack.Initialize.order → id ∉ stack.Initialize.order →
      register stack =
        (none, { Initialize :=
          { order := if pos = .Before then m.ID :: stack.Initialize.order
                     else stack.Initialize.order ++ [m.ID],
            items := (m.ID, m) :: stack.Initialize.items } })) := by
  obtain ⟨h1, h2, h3⟩ := swap_then_add stack.Initialize id m pos hid hm hne
  refine ⟨?_, ?_, ?_⟩
  · intro h
    rw [hreg, (h1 h).1]
    simp only [(h1 h).2]
  · intro h hin
    rw [hreg, h2 h hin]
  · intro h hin
    rw [hreg, (h3 h hin).1]
    simp only [(h3 h hin).2]
    cases pos <;> simp

/-- A registration that returned no error left one step of the name of `m`, and a second
registration returns the error of `Add` and leaves the stack as it is. -/
theorem register_again (id : String) (m : InitializeMiddleware)
    (pos : RelativePosition) (hid : id ≠ "") (hm : m.ID ≠ "") (hne : id ≠ m.ID)
    (register : Stack → Option String × Stack)
    (hreg : ∀ stack, register stack =
      match swap stack.Initialize id m with
      | (true, step) => (none, { stack with Initialize := step })
      | (false, step) =>
        match step.Add m pos with
        | .ok added => (none, { stack with Initialize := added })
        | .error err => (some err, { stack with Initialize := step }))
    (stack applied : Stack) (happ : register stack = (none, applied)) :
    applied.Initialize.order.count m.ID = 1 ∧
    register applied = (some ("already exists, " ++ m.ID), applied) := by
  have key := register_cases id m pos hid hm hne register hreg
  have hnot : m.ID ∉ stack.Initialize.order := by
    intro h
    rw [(key stack).1 h] at happ
    simp at happ
  have hcount : applied.Initialize.order.count m.ID = 1 := by
    by_cases hin : id ∈ stack.Initialize.order
    · rw [(key stack).2.1 hnot hin] at happ
      rw [← (Prod.mk.inj happ).2]
      exact count_replace _ _ _ hin hnot
    · rw [(key stack).2.2 hnot hin] at happ
      rw [← (Prod.mk.inj happ).2]
      cases pos <;> simp [List.count_cons, List.count_eq_zero_of_not_mem hnot]
  refine ⟨hcount, (key applied).1 ?_⟩
  exact List.count_pos_iff.mp (by omega)

end Otelsqs

namespace Otelsqs
open Smithy

/-- C20 (as stated, refuted): on the empty stack, `root.initializeBefore` returns no error
and leaves its one step; applied again to that stack it returns the error of `Add`,
another step of that name being refused, and the step that is there is not replaced.  The
same holds of `root.initializeAfter`. -/
theorem registration_twice_returns_error :
    root.initializeBefore {} =
      (none, { Initialize :=
        { order := [scope ++ ".InitializeBefore"],
          items := [(scope ++ ".InitializeBefore", initializeBeforeMiddleware)] } }) ∧
    root.initializeBefore (root.initializeBefore {}).2 =
      (some ("already exists, " ++ scope ++ ".InitializeBefore"), (root.initializeBefore {}).2) ∧
    root.initializeAfter {} =
      (none, { Initialize :=
        { order := [scope ++ ".InitializeAfter"],
          items := [(scope ++ ".InitializeAfter", initializeAfterMiddleware)] } }) ∧
    root.initializeAfter (root.initializeAfter {}).2 =
      (some ("already exists, " ++ scope ++ ".InitializeAfter"), (root.initializeAfter {}).2) := by
  decide

/-- C20 (amended): `root.initializeBefore` looks for the step that otelaws registers,
`OTelInitializeMiddlewareBefore`, not for its own.  On a stack without the step of the
instrumentor it returns no error: its step takes the place of the step of otelaws when
that one is there, and is added in front when it is not.  On a stack that has the step of
the instrumentor it returns the error of `Add` and leaves the stack as it is.  So after an
application that returned no error the stack has exactly one step of that name, and a
second application returns an error and changes nothing.  The same holds of
`root.initializeAfter` with `OTelInitializeMiddlewareAfter`, its step being added at the
end. -/
theorem registration_replaces_otelaws_step_or_adds (stack : Stack) :
    ((initializeBeforeMiddleware.ID ∈ stack.Initialize.order →
      root.initializeBefore stack =
        (some ("already exists, " ++ initializeBeforeMiddleware.ID), stack)) ∧
    (initializeBeforeMiddleware.ID ∉ stack.Initialize.order →
      idOtelAWSInitializeBefore ∈ stack.Initialize.order →
      root.initializeBefore stack =
        (none, { Initialize :=
          { order := stack.Initialize.order.replace idOtelAWSInitializeBefore
              initializeBeforeMiddleware.ID,
            items := (initializeBeforeMiddleware.ID, initializeBeforeMiddleware) ::
              stack.Initialize.items.filter fun item => item.1 != idOtelAWSInitializeBefore } })) ∧
    (initializeBeforeMiddleware.ID ∉ stack.Initialize.order →
      idOtelAWSInitializeBefore ∉ stack.Initialize.order →
      root.initializeBefore stack =
        (none, { Initialize :=
          { order := initializeBeforeMiddleware.ID :: stack.Initialize.order,
            items := (initializeBeforeMiddleware.ID, initializeBeforeMiddleware) ::
              stack.Initialize.items } })) ∧
    ∀ applied, root.initializeBefore stack = (none, applied) →
      applied.Initialize.order.count initializeBeforeMiddleware.ID = 1 ∧
      root.initializeBefore applied =
        (some ("already exists, " ++ initializeBeforeMiddleware.ID), applied)) ∧
    ((initializeAfterMiddleware.ID ∈ stack.Initialize.order →
      root.initializeAfter stack =
        (some ("already exists, " ++ initializeAfterMiddleware.ID), stack)) ∧
    (initializeAfterMiddleware.ID ∉ stack.Initialize.order →
      idOtelAWSInitializeAfter ∈ stack.Initialize.order →
      root.initializeAfter stack =
        (none, { Initialize :=
          { order := stack.Initialize.order.replace idOtelAWSInitializeAfter
              initializeAfterMiddleware.ID,
            items := (initializeAfterMiddleware.ID, initializeAfterMiddleware) ::
              stack.Initialize.items.filter fun item => item.1 != idOtelAWSInitializeAfter } })) ∧
    (initializeAfterMiddleware.ID ∉ stack.Initialize.order →
      idOtelAWSInitializeAfter ∉ stack.Initialize.order →
      root.initializeAfter stack =
        (none, { Initialize :=
          { order := stack.Initialize.order ++ [initializeAfterMiddleware.ID],
            items := (initializeAfterMiddleware.ID, initializeAfterMiddleware) ::
              stack.Initialize.items } })) ∧
    ∀ applied, root.initializeAfter stack = (none, applied) →
      applied.Initialize.order.count initializeAfterMiddleware.ID = 1 ∧
      root.initializeAfter applied =
        (some ("already exists, " ++ initializeAfterMiddleware.ID), applied)) := by
  have hb := register_cases idOtelAWSInitializeBefore initializeBeforeMiddleware .Before
    (by decide) (by decide) (by decide) root.initializeBefore (fun _ => rfl) stack
  have ha := register_cases idOtelAWSInitializeAfter initializeAfterMiddleware .After
    (by decide) (by decide) (by decide) root.initializeAfter (fun _ => rfl) stack
  refine ⟨⟨hb.1, hb.2.1, ?_, ?_⟩, ⟨ha.1, ha.2.1, ?_, ?_⟩⟩
  · intro h1 h2
    rw [hb.2.2 h1 h2]
    simp
  · intro applied happ
    exact register_again idOtelAWSInitializeBefore initializeBeforeMiddleware .Before
      (by decide) (by decide) (by decide) root.initializeBefore (fun _ => rfl) stack applied happ
  · intro h1 h2
    rw [ha.2.2 h1 h2]
    simp
  · intro applied happ
    exact register_again idOtelAWSInitializeAfter initializeAfterMiddleware .After
      (by decide) (by decide) (by decide) root.initializeAfter (fun _ => rfl) stack applied happ

/-- C20 (amended), at a stack on which otelaws registered its steps: the step of the
instrumentor takes the place of `OTelInitializeMiddlewareBefore`, and a second
application returns an error and leaves the three steps. -/
theorem registration_replaces_otelaws_step_or_adds_witness :
    root.initializeBefore otelawsStack =
      (none, (root.initializeBefore otelawsStack).2) ∧
    (root.initializeBefore otelawsStack).2.Initialize.order =
      [scope ++ ".InitializeBefore", "RegisterServiceMetadata",
       "OTelInitializeMiddlewareAfter"] ∧
    (root.initializeBefore otelawsStack).2.Initialize.order.count
      initializeBeforeMiddleware.ID = 1 ∧
    root.initializeBefore (root.initializeBefore otelawsStack).2 =
      (some ("already exists, " ++ initializeBeforeMiddleware.ID),
        (root.initializeBefore otelawsStack).2) :=
  ⟨by decide, by decide,
   (registration_replaces_otelaws_step_or_adds otelawsStack).1.2.2.2
     (root.initializeBefore otelawsStack).2 (by decide)⟩

end Otelsqs

namespace Otelsqs
open Otel Sqs

/-- The entries around two entries, split at the later one. -/
theorem entries_split (pre mid post : List SendMessageBatchRequestEntry)
    (early last : SendMessageBatchRequestEntry) :
    pre ++ early :: (mid ++ last :: post) = (pre ++ early :: mid) ++ last :: post ∧
    (pre ++ early :: mid).length = pre.length + 1 + mid.length := by
  constructor
  · simp
  · simp
    omega

/-- The `create` span of an entry whose identifier `k` a later entry has too: the map
binds `k` to the span of the last entry with `k`, so no result reaches this span; it ends
as it was started, whatever the handler returns. -/
theorem batch_child_shadowed (now : Nat) (t : Tracer) (ctx : Context) (q : String)
    (pre mid post : List SendMessageBatchRequestEntry)
    (early last : SendMessageBatchRequestEntry) (k : String)
    (hIds : ∀ e ∈ pre ++ early :: (mid ++ last :: post), e.Id ≠ none)
    (hearly : early.Id = some k) (hlast : last.Id = some k)
    (hpost : ∀ e ∈ post, e.Id ≠ some k) (handler : InitializeHandler) :
    (middleware now t ctx
      ⟨.SendMessageBatchInput
        { QueueUrl := some q, Entries := pre ++ early :: (mid ++ last :: post) }⟩
      handler).tracer.spans[t.spans.length + 1 + pre.length]? =
      some (Span.End (createSpan t.spans.length q now k)) := by
  obtain ⟨st1, hrun, hspans, _, hdef, _, hbound, hlookup⟩ :=
    middleware_batch now t ctx q (pre ++ early :: (mid ++ last :: post)) hIds
  obtain ⟨he, hlen⟩ := entries_split pre mid post early last
  rw [hrun handler, afterStart_spans, reconcileResult_frame _ _ _ (by omega),
    recordOutcome_frame _ _ _ (by omega), hspans,
    child_at t _ q now pre (mid ++ last :: post) early k hearly, hdef,
    deferred_count _ _ _ (by omega) (by simp)]
  · rfl
  · intro id _ b _ hl
    have hb := bound_to_child (t.spans.length + 1) pre (mid ++ last :: post) early k b hearly
      (hbound b _ hl)
    subst hb
    rw [hlookup (pre ++ early :: mid) last post b he hlast hpost, hlen] at hl
    have := Option.some.inj hl
    omega

/-- The `create` span of the last entry with the identifier `k`, when an earlier entry
has `k` too: the result entries that carry `k` have been applied to it. -/
theorem batch_child_last (now : Nat) (t : Tracer) (ctx : Context) (q : String)
    (pre mid post : List SendMessageBatchRequestEntry)
    (early last : SendMessageBatchRequestEntry) (k : String)
    (hIds : ∀ e ∈ pre ++ early :: (mid ++ last :: post), e.Id ≠ none)
    (hlast : last.Id = some k) (hpost : ∀ e ∈ post, e.Id ≠ some k)
    (handler : InitializeHandler) (out : SendMessageBatchOutput)
    (hres : (handler (handlerContext now t ctx)
      ⟨.SendMessageBatchInput
        { QueueUrl := some q, Entries := pre ++ early :: (mid ++ last :: post) }⟩).out.Result =
        some (.SendMessageBatchOutput out))
    (hwf : ResultWellFormed (some (.SendMessageBatchOutput out))) :
    (middleware now t ctx
      ⟨.SendMessageBatchInput
        { QueueUrl := some q, Entries := pre ++ early :: (mid ++ last :: post) }⟩
      handler).tracer.spans[t.spans.length + 1 + (pre.length + 1 + mid.length)]? =
      some (Span.End (out.Failed.foldl
        (failedEffect [(k, t.spans.length + 1 + (pre.length + 1 + mid.length))]
          (t.spans.length + 1 + (pre.length + 1 + mid.length)))
        (out.Successful.foldl
          (successEffect [(k, t.spans.length + 1 + (pre.length + 1 + mid.length))]
            (t.spans.length + 1 + (pre.length + 1 + mid.length)))
          (createSpan t.spans.length q now k)))) := by
  obtain ⟨he, hlen⟩ := entries_split pre mid post early last
  rw [he] at hIds hres ⊢
  rw [← hlen]
  exact batch_child_final now t ctx q (pre ++ early :: mid) post last k hIds hlast hpost
    handler out hres hwf

end Otelsqs
namespace Otelsqs
open Otel Sqs

/-- The span bound to `k` after the result entries were applied, when a success entry
with the message id `mid` is the last success entry that carries `k`: status Ok, the
creation attributes followed by the message id, ended once. -/
theorem child_marked_by_success (q k : String) (parent now v : Nat)
    (out : SendMessageBatchOutput)
    (sp spost : List SendMessageBatchResultEntry) (se : SendMessageBatchResultEntry)
    (mid : String) (hsplit : out.Successful = sp ++ se :: spost) (hse : se.Id = some k)
    (hmid : se.MessageId = some mid) (hnolater : ∀ e ∈ spost, e.Id ≠ some k) :
    (Span.End (out.Failed.foldl (failedEffect [(k, v)] v)
      (out.Successful.foldl (successEffect [(k, v)] v) (createSpan parent q now k)))).status =
      { Code := .Ok, Description := "" } ∧
    (Span.End (out.Failed.foldl (failedEffect [(k, v)] v)
      (out.Successful.foldl (successEffect [(k, v)] v) (createSpan parent q now k)))).attributes =
      createSpanAttrs q k ++ [Semconv.MessagingMessageID mid] ∧
    (Span.End (out.Failed.foldl (failedEffect [(k, v)] v)
      (out.Successful.foldl (successEffect [(k, v)] v)
        (createSpan parent q now k)))).endCalls = 1 := by
  obtain ⟨hattrs, _, hev, hopen⟩ := createSpan_fields parent q now k
  obtain ⟨h1, _, h3⟩ := foldl_successEffect_inv q k v sp (createSpan parent q now k) hopen hev
    (Or.inl hattrs)
  have hsucc : out.Successful.foldl (successEffect [(k, v)] v) (createSpan parent q now k) =
      { sp.foldl (successEffect [(k, v)] v) (createSpan parent q now k) with
        attributes := createSpanAttrs q k ++ [Semconv.MessagingMessageID mid],
        status := { Code := .Ok, Description := "" } } := by
    rw [hsplit, List.foldl_append, List.foldl_cons,
      successEffect_self k mid _ _ se hse hmid h1, foldl_successEffect_other k _ spost hnolater,
      setAttr_messageID q k mid _ h3]
  obtain ⟨g1, g2, g3⟩ := foldl_failedEffect_ok [(k, v)] v out.Failed
    (out.Successful.foldl (successEffect [(k, v)] v) (createSpan parent q now k))
    (by rw [hsucc]; exact h1) (by rw [hsucc])
  refine ⟨?_, ?_, ?_⟩
  · simp only [Span.End, g2]
    rw [hsucc]
  · simp only [Span.End, g1]
    rw [hsucc]
  · simp only [Span.End, g3]

/-- The span bound to `k` after the result entries were applied, when one failure entry
is the only entry of the result that carries `k`: the error of that entry is its one
recorded error, the status is Error with the text of the error, the attributes are the
creation attributes, and it was ended once. -/
theorem child_marked_by_failure (q k : String) (parent now v : Nat)
    (out : SendMessageBatchOutput)
    (fp fpost : List BatchResultErrorEntry) (fe : BatchResultErrorEntry)
    (hsplit : out.Failed = fp ++ fe :: fpost) (hfe : fe.Id = some k)
    (hsucc : ∀ e ∈ out.Successful, e.Id ≠ some k)
    (hbefore : ∀ e ∈ fp, e.Id ≠ some k) (hafter : ∀ e ∈ fpost, e.Id ≠ some k) :
    (Span.End (out.Failed.foldl (failedEffect [(k, v)] v)
      (out.Successful.foldl (successEffect [(k, v)] v) (createSpan parent q now k)))).events =
      [{ err := SendMessageBatchError.toGoError (some { Entry := fe }),
         attrs := [attrString KeySQSBatchRequestID k,
                   attrString KeyAWSErrorCode (fe.Code.getD ""),
                   attrBool KeyAWSErrorSendFault fe.SenderFault] }] ∧
    (Span.End (out.Failed.foldl (failedEffect [(k, v)] v)
      (out.Successful.foldl (successEffect [(k, v)] v) (createSpan parent q now k)))).status =
      { Code := .Error, Description := SendMessageBatchError.Error (some { Entry := fe }) } ∧
    (Span.End (out.Failed.foldl (failedEffect [(k, v)] v)
      (out.Successful.foldl (successEffect [(k, v)] v) (createSpan parent q now k)))).attributes =
      createSpanAttrs q k ∧
    (Span.End (out.Failed.foldl (failedEffect [(k, v)] v)
      (out.Successful.foldl (successEffect [(k, v)] v)
        (createSpan parent q now k)))).endCalls = 1 := by
  obtain ⟨hattrs, hstat, hev, hopen⟩ := createSpan_fields parent q now k
  rw [foldl_successEffect_other k _ out.Successful hsucc, hsplit, List.foldl_append,
    List.foldl_cons, foldl_failedEffect_other k _ fp hbefore,
    failedEffect_self k _ _ fe hfe hopen (by rw [hstat]; decide),
    foldl_failedEffect_other k _ fpost hafter]
  refine ⟨?_, rfl, hattrs, ?_⟩
  · simp only [Span.End, hev, List.nil_append]
  · simp only [Span.End, hopen]

/-- The two `create` spans of two entries with one identifier, at the call of the
handler. -/
theorem shared_children_at_call (now : Nat) (t : Tracer) (ctx : Context) (q : String)
    (pre mid post : List SendMessageBatchRequestEntry)
    (early last : SendMessageBatchRequestEntry) (k : String)
    (hIds : ∀ e ∈ pre ++ early :: (mid ++ last :: post), e.Id ≠ none)
    (hearly : early.Id = some k) (hlast : last.Id = some k) (handler : InitializeHandler) :
    ((middleware now t ctx
      ⟨.SendMessageBatchInput
        { QueueUrl := some q, Entries := pre ++ early :: (mid ++ last :: post) }⟩
      handler).handlerCalls.map fun call =>
        (call.tracer.spans[t.spans.length + 1 + pre.length]?,
         call.tracer.spans[t.spans.length + 1 + (pre.length + 1 + mid.length)]?)) =
      [(some (createSpan t.spans.length q now k), some (createSpan t.spans.length q now k))] := by
  obtain ⟨tracer, hcall, hspans, _⟩ :=
    batch_call now t ctx q (pre ++ early :: (mid ++ last :: post)) hIds handler
  obtain ⟨he, hlen⟩ := entries_split pre mid post early last
  have h1 := child_at t (batchSpan ctx
    { QueueUrl := some q, Entries := pre ++ early :: (mid ++ last :: post) } q) q now pre
    (mid ++ last :: post) early k hearly
  have h2 := child_at t (batchSpan ctx
    { QueueUrl := some q, Entries := pre ++ early :: (mid ++ last :: post) } q) q now
    (pre ++ early :: mid) post last k hlast
  rw [← he, hlen] at h2
  rw [hcall]
  simp only [List.map_cons, List.map_nil, hspans, h1, h2]

end Otelsqs

namespace Otelsqs
open Otel Sqs

/-- C21: in a batch request whose entries have identifiers, let `early` and `last` be two
entries with the identifier `k`, `last` being the last entry that has it.  Both `create`
spans are open when the handler is called.  Whatever the handler returns, the span of
`early` ends with its creation attributes only and no status, ended once; it has no event
when the result is well-formed (none, another output, or a batch output whose entries
have identifiers, so that the reconciliation does not panic).  For a well-formed batch
result, the result entries that carry `k` are applied to the span of
`last`: a success entry with `k` that no later success entry repeats leaves it with
status Ok and its message id after the creation attributes, and a failure entry that is
the only entry of the result with `k` leaves it with that one recorded error and status
Error; the span of `last` is ended once too. -/
theorem shared_identifier_last_entry_wins (now : Nat) (t : Tracer) (ctx : Context)
    (q : String) (pre mid post : List SendMessageBatchRequestEntry)
    (early last : SendMessageBatchRequestEntry) (k : String)
    (hIds : ∀ e ∈ pre ++ early :: (mid ++ last :: post), e.Id ≠ none)
    (hearly : early.Id = some k) (hlast : last.Id = some k)
    (hpost : ∀ e ∈ post, e.Id ≠ some k) (handler : InitializeHandler) :
    ((middleware now t ctx
      ⟨.SendMessageBatchInput
        { QueueUrl := some q, Entries := pre ++ early :: (mid ++ last :: post) }⟩
      handler).handlerCalls.map fun call =>
        (call.tracer.spans[t.spans.length + 1 + pre.length]?,
         call.tracer.spans[t.spans.length + 1 + (pre.length + 1 + mid.length)]?)) =
      [(some (createSpan t.spans.length q now k), some (createSpan t.spans.length q now k))] ∧
    (createSpan t.spans.length q now k).endCalls = 0 ∧
    ((middleware now t ctx
      ⟨.SendMessageBatchInput
        { QueueUrl := some q, Entries := pre ++ early :: (mid ++ last :: post) }⟩
      handler).tracer.spans[t.spans.length + 1 + pre.length]?.map fun s =>
        (s.attributes, s.status, s.endCalls)) =
      some (createSpanAttrs q k, ({} : Status), 1) ∧
    (ResultWellFormed (handler (handlerContext now t ctx)
        ⟨.SendMessageBatchInput
          { QueueUrl := some q, Entries := pre ++ early :: (mid ++ last :: post) }⟩).out.Result →
      ((middleware now t ctx
        ⟨.SendMessageBatchInput
          { QueueUrl := some q, Entries := pre ++ early :: (mid ++ last :: post) }⟩
        handler).tracer.spans[t.spans.length + 1 + pre.length]?.map fun s => s.events) =
        some []) ∧
    ∀ out : SendMessageBatchOutput,
      (handler (handlerContext now t ctx)
        ⟨.SendMessageBatchInput
          { QueueUrl := some q, Entries := pre ++ early :: (mid ++ last :: post) }⟩).out.Result =
        some (.SendMessageBatchOutput out) →
      ResultWellFormed (some (.SendMessageBatchOutput out)) →
      (middleware now t ctx
        ⟨.SendMessageBatchInput
          { QueueUrl := some q, Entries := pre ++ early :: (mid ++ last :: post) }⟩
        handler).tracer.spans[t.spans.length + 1 + (pre.length + 1 + mid.length)]? =
        some (Span.End (out.Failed.foldl
          (failedEffect [(k, t.spans.length + 1 + (pre.length + 1 + mid.length))]
            (t.spans.length + 1 + (pre.length + 1 + mid.length)))
          (out.Successful.foldl
            (successEffect [(k, t.spans.length + 1 + (pre.length + 1 + mid.length))]
              (t.spans.length + 1 + (pre.length + 1 + mid.length)))
            (createSpan t.spans.length q now k)))) ∧
      (∀ sp se spost messageId, out.Successful = sp ++ se :: spost → se.Id = some k →
        se.MessageId = some messageId → (∀ e ∈ spost, e.Id ≠ some k) →
        ((middleware now t ctx
          ⟨.SendMessageBatchInput
            { QueueUrl := some q, Entries := pre ++ early :: (mid ++ last :: post) }⟩
          handler).tracer.spans[t.spans.length + 1 + (pre.length + 1 + mid.length)]?.map
            fun s => (s.status, s.attributes, s.endCalls)) =
          some ({ Code := .Ok, Description := "" },
            createSpanAttrs q k ++ [Semconv.MessagingMessageID messageId], 1)) ∧
      (∀ fp fe fpost, out.Failed = fp ++ fe :: fpost → fe.Id = some k →
        (∀ e ∈ out.Successful, e.Id ≠ some k) → (∀ e ∈ fp, e.Id ≠ some k) →
        (∀ e ∈ fpost, e.Id ≠ some k) →
        ((middleware now t ctx
          ⟨.SendMessageBatchInput
            { QueueUrl := some q, Entries := pre ++ early :: (mid ++ last :: post) }⟩
          handler).tracer.spans[t.spans.length + 1 + (pre.length + 1 + mid.length)]?.map
            fun s => (s.events, s.status, s.attributes, s.endCalls)) =
          some ([{ err := SendMessageBatchError.toGoError (some { Entry := fe }),
                   attrs := [attrString KeySQSBatchRequestID k,
                             attrString KeyAWSErrorCode (fe.Code.getD ""),
                             attrBool KeyAWSErrorSendFault fe.SenderFault] }],
            { Code := .Error, Description := SendMessageBatchError.Error (some { Entry := fe }) },
            createSpanAttrs q k, 1)) := by
  obtain ⟨hattrs, hstat, hev, hopen⟩ := createSpan_fields t.spans.length q now k
  refine ⟨shared_children_at_call now t ctx q pre mid post early last k hIds hearly hlast
    handler, hopen, ?_, ?_, ?_⟩
  · rw [batch_child_shadowed now t ctx q pre mid post early last k hIds hearly hlast hpost
      handler, Option.map_some']
    simp only [Span.End, hattrs, hstat, hopen]
  · intro _
    rw [batch_child_shadowed now t ctx q pre mid post early last k hIds hearly hlast hpost
      handler, Option.map_some']
    simp only [Span.End, hev]
  · intro out hres hwf
    have hfinal := batch_child_last now t ctx q pre mid post early last k hIds hlast hpost
      handler out hres hwf
    refine ⟨hfinal, ?_, ?_⟩
    · intro sp se spost messageId hsplit hse hmid hnolater
      obtain ⟨h1, h2, h3⟩ := child_marked_by_success q k t.spans.length now
        (t.spans.length + 1 + (pre.length + 1 + mid.length)) out sp spost se messageId
        hsplit hse hmid hnolater
      rw [hfinal, Option.map_some', h1, h2, h3]
    · intro fp fe fpost hsplit hfe hsucc hbefore hafter
      obtain ⟨h1, h2, h3, h4⟩ := child_marked_by_failure q k t.spans.length now
        (t.spans.length + 1 + (pre.length + 1 + mid.length)) out fp fpost fe
        hsplit hfe hsucc hbefore hafter
      rw [hfinal, Option.map_some', h1, h2, h3, h4]

/-- C21, at a request whose first and third entries have the identifier `batch-1` and a
well-formed result with a success entry for `batch-1`: the span of the first entry, at
position 1, ends as it was started, without an event, and the span of the third entry, at
position 3, ends with status Ok and the message id. -/
theorem shared_identifier_last_entry_wins_witness :
    (∀ e ∈ sharedIdInput.Entries, e.Id ≠ none) ∧
    ((middleware 7 {} testBatchContext ⟨.SendMessageBatchInput sharedIdInput⟩
      (respondWith (some (.SendMessageBatchOutput sharedIdOutput)))).tracer.spans[1]?.map
        fun s => (s.attributes, s.status, s.endCalls)) =
      some (createSpanAttrs testQueueURL "batch-1", ({} : Status), 1) ∧
    ((middleware 7 {} testBatchContext ⟨.SendMessageBatchInput sharedIdInput⟩
      (respondWith (some (.SendMessageBatchOutput sharedIdOutput)))).tracer.spans[1]?.map
        fun s => s.events) = some [] ∧
    ((middleware 7 {} testBatchContext ⟨.SendMessageBatchInput sharedIdInput⟩
      (respondWith (some (.SendMessageBatchOutput sharedIdOutput)))).tracer.spans[3]?.map
        fun s => (s.status, s.attributes, s.endCalls)) =
      some ({ Code := .Ok, Description := "" },
        createSpanAttrs testQueueURL "batch-1" ++ [Semconv.MessagingMessageID "msg-1"], 1) :=
  ⟨by decide,
   (shared_identifier_last_entry_wins 7 {} testBatchContext testQueueURL []
     [{ Id := some "batch-2", MessageBody := some "\x7b\"id\":\"msg-2\"\x7d" }] []
     { Id := some "batch-1", MessageBody := some "\x7b\"id\":\"msg-1\"\x7d" }
     { Id := some "batch-1", MessageBody := some "\x7b\"id\":\"msg-3\"\x7d" } "batch-1"
     (by decide) rfl rfl (by decide)
     (respondWith (some (.SendMessageBatchOutput sharedIdOutput)))).2.2.1,
   (shared_identifier_last_entry_wins 7 {} testBatchContext testQueueURL []
     [{ Id := some "batch-2", MessageBody := some "\x7b\"id\":\"msg-2\"\x7d" }] []
     { Id := some "batch-1", MessageBody := some "\x7b\"id\":\"msg-1\"\x7d" }
     { Id := some "batch-1", MessageBody := some "\x7b\"id\":\"msg-3\"\x7d" } "batch-1"
     (by decide) rfl rfl (by decide)
     (respondWith (some (.SendMessageBatchOutput sharedIdOutput)))).2.2.2.1 (by decide),
   ((shared_identifier_last_entry_wins 7 {} testBatchContext testQueueURL []
     [{ Id := some "batch-2", MessageBody := some "\x7b\"id\":\"msg-2\"\x7d" }] []
     { Id := some "batch-1", MessageBody := some "\x7b\"id\":\"msg-1\"\x7d" }
     { Id := some "batch-1", MessageBody := some "\x7b\"id\":\"msg-3\"\x7d" } "batch-1"
     (by decide) rfl rfl (by decide)
     (respondWith (some (.SendMessageBatchOutput sharedIdOutput)))).2.2.2.2
       sharedIdOutput rfl (by decide)).2.1 []
       { Id := some "batch-1", MessageId := some "msg-1" } [] "msg-1" rfl rfl rfl (by decide)⟩

end Otelsqs

namespace Otelsqs
open Otel Sqs

/-- C8: on the batch request of the test, with a handler that returns no error and a
batch output whose first success entry has no identifier, the handler is called once with
the input it was given, and what it returned is not returned by the middleware: the
reconciliation panics on the absent identifier (mw.go, line 159), the defect of C9. -/
theorem handler_result_lost_on_absent_identifier :
    (middleware 7 {} testBatchContext ⟨.SendMessageBatchInput testBatchInput⟩
      (respondWith (some (.SendMessageBatchOutput missingIdOutput)))).handlerCalls.map
        (·.input) = [⟨.SendMessageBatchInput testBatchInput⟩] ∧
    respondWith (some (.SendMessageBatchOutput missingIdOutput))
        (handlerContext 7 {} testBatchContext) ⟨.SendMessageBatchInput testBatchInput⟩ =
      { out := { Result := some (.SendMessageBatchOutput missingIdOutput) }, metadata := {},
        err := none } ∧
    (middleware 7 {} testBatchContext ⟨.SendMessageBatchInput testBatchInput⟩
      (respondWith (some (.SendMessageBatchOutput missingIdOutput)))).outcome ≠
      .returned { Result := some (.SendMessageBatchOutput missingIdOutput) } {} none ∧
    (middleware 7 {} testBatchContext ⟨.SendMessageBatchInput testBatchInput⟩
      (respondWith (some (.SendMessageBatchOutput missingIdOutput)))).outcome = .panicked := by
  decide

end Otelsqs

namespace GoUrl

theorem isAlphanum_range (c : Char) (h : c.isAlphanum = true) :
    0x30 ≤ c.toNat ∧ c.toNat ≤ 0x7a := by
  simp only [Char.isAlphanum, Char.isAlpha, Char.isUpper, Char.isLower, Char.isDigit,
    Bool.or_eq_true, Bool.and_eq_true, decide_eq_true_eq] at h
  simp only [Char.toNat]
  rcases h with (⟨h1, h2⟩ | ⟨h1, h2⟩) | ⟨h1, h2⟩
  · have a1 := UInt32.le_toNat_of_le (m := 65) (by decide) h1
    have a2 := UInt32.toNat_le_of_le (m := 90) (by decide) h2
    omega
  · have a1 := UInt32.le_toNat_of_le (m := 97) (by decide) h1
    have a2 := UInt32.toNat_le_of_le (m := 122) (by decide) h2
    omega
  · have a1 := UInt32.le_toNat_of_le (m := 48) (by decide) h1
    have a2 := UInt32.toNat_le_of_le (m := 57) (by decide) h2
    omega

end GoUrl
namespace GoUrl

theorem takeWhile_ne_append (sep : Char) (l r : List Char) (h : sep ∉ l) :
    (l ++ sep :: r).takeWhile (· != sep) = l ∧ (l ++ sep :: r).dropWhile (· != sep) = sep :: r := by
  induction l with
  | nil => simp [List.takeWhile, List.dropWhile]
  | cons a t ih =>
    have ha : a ≠ sep := fun e => h (by simp [e])
    have ht : sep ∉ t := fun e => h (List.mem_cons_of_mem _ e)
    have hb : (a != sep) = true := by simp [ha]
    simp only [List.cons_append, List.takeWhile_cons, List.dropWhile_cons, hb, if_true]
    exact ⟨by rw [(ih ht).1], (ih ht).2⟩

theorem takeWhile_ne_self (sep : Char) (l : List Char) (h : sep ∉ l) :
    l.takeWhile (· != sep) = l ∧ l.dropWhile (· != sep) = [] := by
  induction l with
  | nil => simp
  | cons a t ih =>
    have ha : a ≠ sep := fun e => h (by simp [e])
    have ht : sep ∉ t := fun e => h (List.mem_cons_of_mem _ e)
    have hb : (a != sep) = true := by simp [ha]
    simp only [List.takeWhile_cons, List.dropWhile_cons, hb, if_true]
    exact ⟨by rw [(ih ht).1], (ih ht).2⟩

/-- `strings.Cut` at the first separator. -/
theorem cut_append (sep : Char) (l r : List Char) (h : sep ∉ l) :
    cut sep (l ++ sep :: r) = (l, r) := by
  unfold cut
  rw [(takeWhile_ne_append sep l r h).1, (takeWhile_ne_append sep l r h).2]
  rfl

/-- `strings.Cut` without a separator. -/
theorem cut_self (sep : Char) (l : List Char) (h : sep ∉ l) : cut sep l = (l, []) := by
  unfold cut
  rw [(takeWhile_ne_self sep l h).1, (takeWhile_ne_self sep l h).2]
  rfl

theorem cutLast_none (sep : Char) (l : List Char) (h : sep ∉ l) : cutLast sep l = none := by
  simp [cutLast, h]

/-- The split at the last separator. -/
theorem cutLast_append (sep : Char) (l r : List Char) (h : sep ∉ r) :
    cutLast sep (l ++ sep :: r) = some (l, r) := by
  have hr : sep ∉ r.reverse := by simpa using h
  have hrev : (l ++ sep :: r).reverse = r.reverse ++ sep :: l.reverse := by simp
  unfold cutLast
  rw [if_pos (by simp), hrev, (takeWhile_ne_append sep _ _ hr).1,
    (takeWhile_ne_append sep _ _ hr).2]
  simp

end GoUrl
namespace GoUrl

/-- The scan of `getScheme` over letters up to a colon. -/
theorem getSchemeLoop_letters (rawURL scheme rest : List Char)
    (hs : ∀ c ∈ scheme, c.isAlpha = true) (acc : List Char) :
    getSchemeLoop rawURL acc (scheme ++ ':' :: rest) =
      if (acc ++ scheme).isEmpty then none else some (acc ++ scheme, rest) := by
  induction scheme generalizing acc with
  | nil =>
    have h1 : Char.isAlpha ':' = false := by decide
    have h2 : Char.isDigit ':' = false := by decide
    simp [getSchemeLoop, h1, h2]
  | cons a t ih =>
    have ha : a.isAlpha = true := hs a (by simp)
    simp only [List.cons_append, getSchemeLoop, ha, if_true]
    have := ih (fun c hc => hs c (by simp [hc])) (acc ++ [a])
    simp only [List.append_eq] at this ⊢
    rw [this]
    simp

/-- Go: `getScheme` on a text that starts with letters and a colon. -/
theorem getScheme_letters (scheme rest : List Char) (hne : scheme ≠ [])
    (hs : ∀ c ∈ scheme, c.isAlpha = true) :
    getScheme (scheme ++ ':' :: rest) = some (scheme, rest) := by
  unfold getScheme
  rw [getSchemeLoop_letters _ scheme rest hs []]
  simp [hne]

/-- The validation of `unescape` accepts a path or fragment without `%`. -/
theorem unescapeValid_plain (mode : Encoding) (hm : mode ≠ .encodeHost ∧ mode ≠ .encodeZone)
    (s : List Char) (h : '%' ∉ s) : unescapeValid mode s = true := by
  induction s with
  | nil => rfl
  | cons c rest ih =>
    have hc : c ≠ '%' := fun e => h (by simp [e])
    have hr : '%' ∉ rest := fun e => h (List.mem_cons_of_mem _ e)
    rw [unescapeValid]
    · simp [hm.1, hm.2, ih hr]
    · intro hx
      exact hc hx

/-- The validation of `unescape` accepts a host of characters that a host may hold. -/
theorem unescapeValid_host (s : List Char) (h : '%' ∉ s)
    (hs : ∀ c ∈ s, shouldEscapeHost c = false) : unescapeValid .encodeHost s = true := by
  induction s with
  | nil => rfl
  | cons c rest ih =>
    have hc : c ≠ '%' := fun e => h (by simp [e])
    have hr : '%' ∉ rest := fun e => h (List.mem_cons_of_mem _ e)
    rw [unescapeValid]
    · simp [hs c (by simp), ih hr (fun d hd => hs d (by simp [hd]))]
    · intro hx
      exact hc hx

/-- Go: `unescape` returns a text without `%` as it is. -/
theorem unescape_plain (mode : Encoding) (s : List Char) (h : '%' ∉ s)
    (hv : unescapeValid mode s = true) : unescape s mode = some s := by
  simp [unescape, hv, h]

end GoUrl
namespace GoUrl

/-- A letter, digit, `-` or `.` is none of the characters that are not such. -/
theorem hostChar_ne (c x : Char) (h : c.isAlphanum = true ∨ c = '-' ∨ c = '.')
    (hx : ¬ (x.isAlphanum = true ∨ x = '-' ∨ x = '.')) : c ≠ x :=
  fun e => hx (e ▸ h)

theorem digit_ne (c x : Char) (h : c.isDigit = true) (hx : x.isDigit = false) : c ≠ x := by
  intro e
  rw [e, hx] at h
  exact Bool.noConfusion h

theorem digit_isAlphanum (c : Char) (h : c.isDigit = true) : c.isAlphanum = true := by
  simp [Char.isAlphanum, h]

theorem hostChar_noEscape (c : Char) (h : c.isAlphanum = true ∨ c = '-' ∨ c = '.') :
    shouldEscapeHost c = false := by
  rcases h with h | h | h
  · simp [shouldEscapeHost, h]
  · subst h
    decide
  · subst h
    decide

theorem hostChar_not_ctl (c : Char) (h : c.isAlphanum = true ∨ c = '-' ∨ c = '.') :
    ¬ (c.toNat < 0x20 ∨ c.toNat = 0x7f) := by
  rcases h with h | h | h
  · have := isAlphanum_range c h
    omega
  · subst h
    decide
  · subst h
    decide

/-- Go: `parseHost` on a host name of letters, digits, `-` and `.`. -/
theorem parseHost_name (host : List Char)
    (hhost : ∀ c ∈ host, c.isAlphanum = true ∨ c = '-' ∨ c = '.') :
    parseHost host = some host := by
  have hne : ∀ x, ¬ (x.isAlphanum = true ∨ x = '-' ∨ x = '.') → x ∉ host :=
    fun x hx hmem => hostChar_ne x x (hhost x hmem) hx rfl
  have hbr : host.head? ≠ some '[' := by
    intro e
    exact hne '[' (by decide) (List.mem_of_mem_head? e)
  have hv := unescapeValid_host host (hne '%' (by decide))
    (fun c hc => hostChar_noEscape c (hhost c hc))
  unfold parseHost
  rw [if_neg hbr, cutLast_none ':' host (hne ':' (by decide))]
  exact unescape_plain _ host (hne '%' (by decide)) hv

/-- Go: `parseHost` on such a host name followed by a colon and a port of digits. -/
theorem parseHost_name_port (host port : List Char)
    (hhost : ∀ c ∈ host, c.isAlphanum = true ∨ c = '-' ∨ c = '.')
    (hport : ∀ c ∈ port, c.isDigit = true) :
    parseHost (host ++ ':' :: port) = some (host ++ ':' :: port) := by
  have hne : ∀ x, ¬ (x.isAlphanum = true ∨ x = '-' ∨ x = '.') → x ∉ host :=
    fun x hx hmem => hostChar_ne x x (hhost x hmem) hx rfl
  have hnp : ∀ x, x.isDigit = false → x ∉ port :=
    fun x hx hmem => digit_ne x x (hport x hmem) hx rfl
  have hpc : '%' ∉ host ++ ':' :: port := by
    simp only [List.mem_append, List.mem_cons, not_or]
    exact ⟨hne '%' (by decide), by decide, hnp '%' (by decide)⟩
  have hbr : (host ++ ':' :: port).head? ≠ some '[' := by
    intro e
    have := List.mem_of_mem_head? e
    simp only [List.mem_append, List.mem_cons] at this
    rcases this with h | h | h
    · exact hne '[' (by decide) h
    · exact absurd h (by decide)
    · exact hnp '[' (by decide) h
  have hv : unescapeValid .encodeHost (host ++ ':' :: port) = true := by
    apply unescapeValid_host _ hpc
    intro c hc
    simp only [List.mem_append, List.mem_cons] at hc
    rcases hc with h | h | h
    · exact hostChar_noEscape c (hhost c h)
    · subst h
      decide
    · exact hostChar_noEscape c (Or.inl (digit_isAlphanum c (hport c h)))
  have hall : port.all Char.isDigit = true := by
    simpa [List.all_eq_true] using hport
  unfold parseHost
  rw [if_neg hbr, cutLast_append ':' host port (hnp ':' (by decide))]
  simp only [validOptionalPort, hall, decide_True, Bool.and_self, Bool.not_true]
  exact unescape_plain _ _ hpc hv

/-- Go: `parseAuthority` on an authority without user information that `parseHost`
accepts. -/
theorem parseAuthority_host (authority host : List Char) (h : '@' ∉ authority)
    (hp : parseHost authority = some host) :
    parseAuthority authority = some (none, host) := by
  unfold parseAuthority
  rw [cutLast_none '@' authority h, hp]
  rfl

end GoUrl
namespace GoUrl

/-- The text before the query, as `parse` cuts it off. -/
theorem rest_before_query (X queryPart : List Char) (hX : '?' ∉ X)
    (hq : queryPart = [] ∨ ∃ x, queryPart = '?' :: x) :
    (if (X ++ queryPart).getLast? = some '?' && (X ++ queryPart).count '?' = 1
      then (X ++ queryPart).dropLast else (cut '?' (X ++ queryPart)).1) = X := by
  rcases hq with h | ⟨x, h⟩
  · subst h
    have hc : List.count '?' X = 0 := List.count_eq_zero_of_not_mem hX
    simp [hc, cut_self '?' X hX]
  · subst h
    by_cases hcond : ((X ++ '?' :: x).getLast? = some '?' && (X ++ '?' :: x).count '?' = 1) = true
    · rw [if_pos hcond]
      simp only [Bool.and_eq_true, decide_eq_true_eq] at hcond
      obtain ⟨hl, hc⟩ := hcond
      have hc0 : List.count '?' X = 0 := List.count_eq_zero_of_not_mem hX
      have hx : List.count '?' x = 0 := by
        simp [List.count_append, hc0] at hc
        exact hc
      have hxe : x = [] := by
        cases hxr : x.reverse with
        | nil => simpa using hxr
        | cons a t =>
          have hrev : x = t.reverse ++ [a] := by
            have := congrArg List.reverse hxr
            simpa using this
          rw [hrev] at hl hx
          have hassoc : X ++ '?' :: (t.reverse ++ [a]) = (X ++ '?' :: t.reverse) ++ [a] := by
            simp
          rw [hassoc, List.getLast?_concat] at hl
          have ha : a = '?' := Option.some.inj hl
          subst ha
          simp [List.count_append] at hx
      subst hxe
      simp
    · rw [if_neg hcond, cut_append '?' X x hX]

end GoUrl
namespace GoUrl

/-- Go: `parse` on `scheme://authority/path?query`: the path of the URL is the path
text, when it has no `%`. -/
theorem parseNoFragment_endpoint (scheme authority path queryPart host : List Char)
    (hne : scheme ≠ []) (hscheme : ∀ c ∈ scheme, c.isAlpha = true)
    (hctl : stringContainsCTLByte
      (scheme ++ ':' :: ('/' :: '/' :: (authority ++ '/' :: path) ++ queryPart)) = false)
    (hauth1 : '/' ∉ authority) (hauth2 : '?' ∉ authority)
    (hpa : parseAuthority authority = some (none, host))
    (hpathq : '?' ∉ path) (hpathp : '%' ∉ path)
    (hq : queryPart = [] ∨ ∃ x, queryPart = '?' :: x) :
    (parseNoFragment
        (scheme ++ ':' :: ('/' :: '/' :: (authority ++ '/' :: path) ++ queryPart))).map
      (·.Path) = some (String.mk ('/' :: path)) := by
  have hstar : scheme ++ ':' :: ('/' :: '/' :: (authority ++ '/' :: path) ++ queryPart) ≠ ['*'] := by
    intro e
    have := congrArg List.length e
    simp at this
    omega
  have hX : '?' ∉ '/' :: '/' :: (authority ++ '/' :: path) := by
    simp only [List.mem_cons, List.mem_append, not_or]
    exact ⟨by decide, by decide, hauth2, by decide, hpathq⟩
  have hrest := rest_before_query _ queryPart hX hq
  have hsch := getScheme_letters scheme
    ('/' :: '/' :: (authority ++ '/' :: path) ++ queryPart) hne hscheme
  have hlow : (scheme.map Char.toLower).isEmpty = false := by
    cases scheme with
    | nil => exact absurd rfl hne
    | cons a t => rfl
  have htw := takeWhile_ne_append '/' authority path hauth1
  have hpath : unescape ('/' :: path) .encodePath = some ('/' :: path) := by
    have hp : '%' ∉ '/' :: path := by
      simp only [List.mem_cons, not_or]
      exact ⟨by decide, hpathp⟩
    exact unescape_plain _ _ hp (unescapeValid_plain _ ⟨by decide, by decide⟩ _ hp)
  unfold parseNoFragment
  rw [if_neg (by rw [hctl]; exact Bool.false_ne_true), if_neg hstar, hsch]
  simp only [hrest]
  simp only [List.head?_cons, ne_eq, not_true_eq_false, decide_False, Bool.false_and,
    Bool.false_eq_true, if_false, hlow, Bool.not_false, Bool.true_or,
    List.isPrefixOf, beq_self_eq_true, Bool.and_self, Bool.true_and, if_true, List.drop,
    htw.1, htw.2, hpa, hpath, Option.map_some']

end GoUrl
namespace GoUrl

/-- Go: `url.Parse` attaches a fragment without `%` and leaves the path of `parse`. -/
theorem Parse_fragment (u fragPart : List Char) (path : String) (hu : '#' ∉ u)
    (hf : fragPart = [] ∨ ∃ f, fragPart = '#' :: f ∧ '%' ∉ f)
    (hp : (parseNoFragment u).map (·.Path) = some path) :
    (Parse (String.mk (u ++ fragPart))).map (·.Path) = some path := by
  cases hpu : parseNoFragment u with
  | none => rw [hpu] at hp; simp at hp
  | some url =>
    rw [hpu] at hp
    simp only [Option.map_some', Option.some.injEq] at hp
    rcases hf with h | ⟨f, h, hpc⟩
    · subst h
      simp [Parse, cut_self '#' u hu, hpu, hp]
    · subst h
      have hfr := unescape_plain .encodeFragment f hpc
        (unescapeValid_plain _ ⟨by decide, by decide⟩ f hpc)
      by_cases hfe : f = []
      · subst hfe
        simp [Parse, cut_append '#' u [] hu, hpu, hp]
      · simp [Parse, cut_append '#' u f hu, hpu, hp, hfe, hfr]

/-- The path text starts with a slash, ends with the name and the slashes, and has the
characters of its elements. -/
theorem pathText_shape (dirs : List (List Char)) (name : List Char) (slashes : Nat) :
    (∃ p, pathText dirs name slashes = '/' :: p) ∧
    (∃ dir, pathText dirs name slashes = (dir ++ ['/']) ++ name ++ List.replicate slashes '/') ∧
    ∀ c ∈ pathText dirs name slashes, c = '/' ∨ c ∈ name ∨ ∃ d ∈ dirs, c ∈ d := by
  induction dirs with
  | nil =>
    refine ⟨⟨_, rfl⟩, ⟨[], by simp [pathText]⟩, ?_⟩
    intro c hc
    simp only [pathText, List.foldr_nil, List.mem_cons, List.mem_append,
      List.mem_replicate] at hc
    rcases hc with h | h | ⟨_, h⟩
    · exact Or.inl h
    · exact Or.inr (Or.inl h)
    · exact Or.inl h
  | cons d rest ih =>
    obtain ⟨_, ⟨dir, hdir⟩, hmem⟩ := ih
    have hunf : pathText (d :: rest) name slashes = '/' :: (d ++ pathText rest name slashes) := rfl
    refine ⟨⟨_, hunf⟩, ⟨'/' :: (d ++ dir), by rw [hunf, hdir]; simp⟩, ?_⟩
    intro c hc
    rw [hunf] at hc
    simp only [List.mem_cons, List.mem_append] at hc
    rcases hc with h | h | h
    · exact Or.inl h
    · exact Or.inr (Or.inr ⟨d, by simp, h⟩)
    · rcases hmem c h with h1 | h1 | ⟨d1, hd1, h1⟩
      · exact Or.inl h1
      · exact Or.inr (Or.inl h1)
      · exact Or.inr (Or.inr ⟨d1, by simp [hd1], h1⟩)

end GoUrl
namespace Otelsqs
open GoUrl

theorem isAlpha_hostChar (c : Char) (h : c.isAlpha = true) :
    c.isAlphanum = true ∨ c = '-' ∨ c = '.' :=
  Or.inl (by simp [Char.isAlphanum, h])

theorem isHostChar_cases (c : Char) (h : isHostChar c = true) :
    c.isAlphanum = true ∨ c = '-' ∨ c = '.' := by
  simpa [isHostChar, or_assoc] using h

theorem isPlainPathChar_facts (c : Char) (h : isPlainPathChar c = true) :
    ¬ (c.toNat < 0x20 ∨ c.toNat = 0x7f) ∧ c ≠ '/' ∧ c ≠ '?' ∧ c ≠ '#' ∧ c ≠ '%' := by
  simp only [isPlainPathChar, Bool.and_eq_true, Bool.not_eq_true', Bool.or_eq_false_iff,
    decide_eq_false_iff_not, bne_iff_ne, ne_eq] at h
  obtain ⟨⟨⟨⟨⟨h1, h2⟩, h3⟩, h4⟩, h5⟩, h6⟩ := h
  exact ⟨fun e => e.elim h1 h2, h3, h4, h5, h6⟩

theorem isQueryChar_facts (c : Char) (h : isQueryChar c = true) :
    ¬ (c.toNat < 0x20 ∨ c.toNat = 0x7f) ∧ c ≠ '#' := by
  simp only [isQueryChar, Bool.and_eq_true, Bool.not_eq_true', Bool.or_eq_false_iff,
    decide_eq_false_iff_not, bne_iff_ne, ne_eq] at h
  obtain ⟨⟨h1, h2⟩, h3⟩ := h
  exact ⟨fun e => e.elim h1 h2, h3⟩

/-- The characters of an authority `host[:port]`: those of a host name, or a colon. -/
theorem authority_chars (host : List Char) (port : Option (List Char))
    (hhost : ∀ c ∈ host, isHostChar c = true)
    (hport : ∀ p, port = some p → ∀ c ∈ p, c.isDigit = true) :
    (∀ c ∈ host ++ optionalText ':' port,
      (c.isAlphanum = true ∨ c = '-' ∨ c = '.') ∨ c = ':') ∧
    parseHost (host ++ optionalText ':' port) =
      some (host ++ optionalText ':' port) := by
  have hh : ∀ c ∈ host, c.isAlphanum = true ∨ c = '-' ∨ c = '.' :=
    fun c hc => isHostChar_cases c (hhost c hc)
  cases port with
  | none =>
    refine ⟨?_, ?_⟩
    · intro c hc
      simp only [optionalText, List.append_nil] at hc
      exact Or.inl (hh c hc)
    · simp only [optionalText, List.append_nil]
      exact parseHost_name host hh
  | some p =>
    refine ⟨?_, parseHost_name_port host p hh (hport p rfl)⟩
    intro c hc
    simp only [optionalText, List.mem_append, List.mem_cons] at hc
    rcases hc with h | h | h
    · exact Or.inl (hh c h)
    · exact Or.inr h
    · exact Or.inl (Or.inl (digit_isAlphanum c (hport p rfl c h)))

end Otelsqs
namespace Otelsqs
open GoUrl

/-- The queue name of an endpoint `scheme://host[:port]/dir/.../name[/][?query][#fragment]`
whose scheme is made of letters, whose host is made of letters, digits, `-` and `.`, whose
port is made of digits, whose path elements are made of characters that stand for
themselves and whose fragment has no `%`: the last path element, `name`. -/
theorem getQueueName_endpoint (scheme host : List Char) (port : Option (List Char))
    (dirs : List (List Char)) (name : List Char) (slashes : Nat)
    (query fragment : Option (List Char))
    (hne : scheme ≠ []) (hscheme : ∀ c ∈ scheme, c.isAlpha = true)
    (hhost : ∀ c ∈ host, isHostChar c = true)
    (hport : ∀ p, port = some p → ∀ c ∈ p, c.isDigit = true)
    (hdirs : ∀ d ∈ dirs, ∀ c ∈ d, isPlainPathChar c = true)
    (hnamene : name ≠ []) (hname : ∀ c ∈ name, isPlainPathChar c = true)
    (hquery : ∀ x, query = some x → ∀ c ∈ x, isQueryChar c = true)
    (hfragment : ∀ f, fragment = some f → '%' ∉ f) :
    getQueueName (endpointText scheme host port dirs name slashes query fragment) =
      String.mk name := by
  obtain ⟨hachars, hph⟩ := authority_chars host port hhost hport
  obtain ⟨⟨p, hp⟩, ⟨dir, hdir⟩, hpmem⟩ := pathText_shape dirs name slashes
  have hq : optionalText '?' query = [] ∨
      ∃ x, optionalText '?' query = '?' :: x ∧
        ∀ c ∈ x, isQueryChar c = true := by
    cases query with
    | none => exact Or.inl rfl
    | some x => exact Or.inr ⟨x, rfl, hquery x rfl⟩
  have hf : optionalText '#' fragment = [] ∨
      ∃ f, optionalText '#' fragment = '#' :: f ∧
        '%' ∉ f := by
    cases fragment with
    | none => exact Or.inl rfl
    | some f => exact Or.inr ⟨f, rfl, hfragment f rfl⟩
  have htext : endpointText scheme host port dirs name slashes query fragment =
      String.mk ((scheme ++ ':' :: ('/' :: '/' ::
        ((host ++ optionalText ':' port) ++ '/' :: p) ++
        optionalText '?' query)) ++
        optionalText '#' fragment) := by
    unfold endpointText
    rw [hp]
    simp
  generalize (host ++ optionalText ':' port) = auth
    at hachars hph htext
  generalize optionalText '?' query = Q
    at hq htext
  generalize optionalText '#' fragment = F
    at hf htext
  -- the characters of the parts
  have hsc : ∀ c ∈ scheme, c.isAlphanum = true ∨ c = '-' ∨ c = '.' :=
    fun c hc => isAlpha_hostChar c (hscheme c hc)
  have hauthne : ∀ x : Char, ¬ (x.isAlphanum = true ∨ x = '-' ∨ x = '.') → x ≠ ':' →
      x ∉ auth := by
    intro x hx hx2 hmem
    rcases hachars x hmem with h | h
    · exact hx h
    · exact hx2 h
  have hpath : ∀ c ∈ p, c = '/' ∨ isPlainPathChar c = true := by
    intro c hc
    have hc2 : c ∈ pathText dirs name slashes := by
      rw [hp]
      exact List.mem_cons_of_mem _ hc
    rcases hpmem c hc2 with h | h | ⟨d, hd, h⟩
    · exact Or.inl h
    · exact Or.inr (hname c h)
    · exact Or.inr (hdirs d hd c h)
  have hpne : ∀ x : Char, x ≠ '/' → (x = '?' ∨ x = '#' ∨ x = '%') → x ∉ p := by
    intro x hx1 hx2 hmem
    rcases hpath x hmem with h | h
    · exact hx1 h
    · obtain ⟨_, _, h3, h4, h5⟩ := isPlainPathChar_facts x h
      rcases hx2 with e | e | e
      · exact h3 e
      · exact h4 e
      · exact h5 e
  have hQ : Q = [] ∨ ∃ x, Q = '?' :: x := by
    rcases hq with h | ⟨x, h, _⟩
    · exact Or.inl h
    · exact Or.inr ⟨x, h⟩
  have hQc : ∀ c ∈ Q, ¬ (c.toNat < 0x20 ∨ c.toNat = 0x7f) ∧ c ≠ '#' := by
    intro c hc
    rcases hq with h | ⟨x, h, hx⟩
    · rw [h] at hc
      simp at hc
    · rw [h] at hc
      rcases List.mem_cons.mp hc with e | e
      · subst e
        exact ⟨by decide, by decide⟩
      · exact isQueryChar_facts c (hx c e)
  -- no control character before the fragment
  have hctl : stringContainsCTLByte
      (scheme ++ ':' :: ('/' :: '/' :: (auth ++ '/' :: p) ++ Q)) = false := by
    rw [Bool.eq_false_iff]
    intro hany
    simp only [stringContainsCTLByte, List.any_eq_true, Bool.or_eq_true,
      decide_eq_true_eq] at hany
    obtain ⟨c, hc, hbad⟩ := hany
    simp only [List.mem_append, List.mem_cons] at hc
    rcases hc with h | h | (h | h | (h | h | h)) | h
    · exact hostChar_not_ctl c (hsc c h) hbad
    · subst h; revert hbad; decide
    · subst h; revert hbad; decide
    · subst h; revert hbad; decide
    · rcases hachars c h with h1 | h1
      · exact hostChar_not_ctl c h1 hbad
      · subst h1; revert hbad; decide
    · subst h; revert hbad; decide
    · rcases hpath c h with h1 | h1
      · subst h1; revert hbad; decide
      · exact (isPlainPathChar_facts c h1).1 hbad
    · exact (hQc c h).1 hbad
  -- no `#` before the fragment
  have hhash : '#' ∉ scheme ++ ':' :: ('/' :: '/' :: (auth ++ '/' :: p) ++ Q) := by
    intro hc
    simp only [List.mem_append, List.mem_cons] at hc
    rcases hc with h | h | (h | h | (h | h | h)) | h
    · exact hostChar_ne _ _ (hsc _ h) (by decide) rfl
    · exact absurd h (by decide)
    · exact absurd h (by decide)
    · exact absurd h (by decide)
    · exact hauthne '#' (by decide) (by decide) h
    · exact absurd h (by decide)
    · exact hpne '#' (by decide) (Or.inr (Or.inl rfl)) h
    · exact (hQc _ h).2 rfl
  have h1 := parseNoFragment_endpoint scheme auth p Q auth hne hscheme hctl
    (hauthne '/' (by decide) (by decide)) (hauthne '?' (by decide) (by decide))
    (parseAuthority_host auth auth (hauthne '@' (by decide) (by decide)) hph)
    (hpne '?' (by decide) (Or.inl rfl)) (hpne '%' (by decide) (Or.inr (Or.inr rfl))) hQ
  have hF : F = [] ∨ ∃ f, F = '#' :: f ∧ '%' ∉ f := hf
  have h2 := Parse_fragment _ F _ hhash hF h1
  have hbase : Base (String.mk ('/' :: p)) = String.mk name := by
    rw [← hp, hdir]
    apply Base_segment _ name slashes (Or.inr ⟨dir, rfl⟩) hnamene
    intro hmem
    exact (isPlainPathChar_facts '/' (hname '/' hmem)).2.1 rfl
  rw [htext]
  unfold getQueueName
  cases hP : Parse (String.mk ((scheme ++ ':' :: ('/' :: '/' :: (auth ++ '/' :: p) ++ Q)) ++ F)) with
  | none => rw [hP] at h2; simp at h2
  | some url =>
    rw [hP] at h2
    simp only [Option.map_some', Option.some.injEq] at h2
    simp only [h2, hbase]

end Otelsqs
namespace Otelsqs
open GoUrl

/-- A text with a control character before any `#` does not parse, and `getQueueName`
returns it as it is. -/
theorem getQueueName_control (pre post : List Char) (c : Char) (hpre : '#' ∉ pre)
    (hc : c.toNat < 0x20 ∨ c.toNat = 0x7f) :
    getQueueName (String.mk (pre ++ c :: post)) = String.mk (pre ++ c :: post) := by
  have hne : c ≠ '#' := by
    intro e
    subst e
    revert hc
    decide
  have hmem : c ∈ (pre ++ c :: post).takeWhile (· != '#') := by
    have hb : (c != '#') = true := by simp [hne]
    have hsplit : ∀ l : List Char, '#' ∉ l →
        c ∈ (l ++ c :: post).takeWhile (· != '#') := by
      intro l
      induction l with
      | nil =>
        intro _
        simp [List.takeWhile_cons, hb]
      | cons a t ih =>
        intro h
        have ha : a ≠ '#' := fun e => h (by simp [e])
        have hab : (a != '#') = true := by simp [ha]
        simp only [List.cons_append, List.takeWhile_cons, hab, if_true]
        exact List.mem_cons_of_mem _ (ih (fun e => h (List.mem_cons_of_mem _ e)))
    exact hsplit pre hpre
  have hctl : stringContainsCTLByte ((pre ++ c :: post).takeWhile (· != '#')) = true := by
    simp only [stringContainsCTLByte, List.any_eq_true, Bool.or_eq_true, decide_eq_true_eq]
    exact ⟨c, hmem, hc⟩
  have hparse : Parse (String.mk (pre ++ c :: post)) = none := by
    simp only [Parse, cut, parseNoFragment, hctl, if_true]
  simp only [getQueueName, hparse]

/-- C10: `getQueueName` returns its input when `url.Parse` fails and otherwise `path.Base`
of the parsed path, which is the last element of the path.  For every endpoint
`scheme://host[:port]/dir/.../name[/][?query][#fragment]` (a scheme of letters, a host of
letters, digits, `-` and `.`, a port of digits, path elements of characters that stand
for themselves, `name` not empty, a fragment without `%`) it returns `name`, whatever the
query holds; for every text with a control character before any `#`, which does not
parse, it returns the text.  The endpoints `http://host/123456789012/my-queue` and
`http://aws.test/123456789012/my-queue` give `my-queue` and the string `not a url` gives
itself; an escaped path element is returned decoded, and an endpoint with a malformed
escape, which does not parse, is returned as it is. -/
theorem getQueueName_spec :
    (∀ q : String, GoUrl.Parse q = none → getQueueName q = q) ∧
    (∀ (q : String) (u : GoUrl.URL), GoUrl.Parse q = some u →
      getQueueName q = GoUrl.Base u.Path) ∧
    (∀ (q : String) (u : GoUrl.URL) (pre seg : List Char) (k : Nat),
      GoUrl.Parse q = some u → u.Path = String.mk (pre ++ seg ++ List.replicate k '/') →
      (pre = [] ∨ ∃ dir, pre = dir ++ ['/']) → seg ≠ [] → '/' ∉ seg →
      getQueueName q = String.mk seg) ∧
    (∀ (scheme host : List Char) (port : Option (List Char)) (dirs : List (List Char))
      (name : List Char) (slashes : Nat) (query fragment : Option (List Char)),
      scheme ≠ [] → (∀ c ∈ scheme, c.isAlpha = true) →
      (∀ c ∈ host, isHostChar c = true) →
      (∀ p, port = some p → ∀ c ∈ p, c.isDigit = true) →
      (∀ d ∈ dirs, ∀ c ∈ d, isPlainPathChar c = true) →
      name ≠ [] → (∀ c ∈ name, isPlainPathChar c = true) →
      (∀ x, query = some x → ∀ c ∈ x, isQueryChar c = true) →
      (∀ f, fragment = some f → '%' ∉ f) →
      getQueueName (endpointText scheme host port dirs name slashes query fragment) =
        String.mk name) ∧
    (∀ (pre post : List Char) (c : Char), '#' ∉ pre → (c.toNat < 0x20 ∨ c.toNat = 0x7f) →
      getQueueName (String.mk (pre ++ c :: post)) = String.mk (pre ++ c :: post)) ∧
    getQueueName "http://host/123456789012/my-queue" = "my-queue" ∧
    getQueueName "http://aws.test/123456789012/my-queue" = "my-queue" ∧
    getQueueName "not a url" = "not a url" ∧
    getQueueName "https://sqs.us-east-1.amazonaws.com/123456789012/my%2Dqueue?a=b/c#d/e" =
      "my-queue" ∧
    getQueueName "http://host/123456789012/%E3%82%AD" = "キ" ∧
    getQueueName "http://host/123456789012/q%zz" = "http://host/123456789012/q%zz" := by
  refine ⟨?_, ?_, ?_, ?_, ?_, by decide, by decide, by decide, by decide, by decide,
    by decide⟩
  · intro q h
    simp [getQueueName, h]
  · intro q u h
    simp [getQueueName, h]
  · intro q u pre seg k h hp hpre hne hseg
    simp only [getQueueName, h, hp]
    exact Base_segment pre seg k hpre hne hseg
  · intro scheme host port dirs name slashes query fragment h1 h2 h3 h4 h5 h6 h7 h8 h9
    exact getQueueName_endpoint scheme host port dirs name slashes query fragment
      h1 h2 h3 h4 h5 h6 h7 h8 h9
  · intro pre post c h1 h2
    exact getQueueName_control pre post c h1 h2

/-- C10, at concrete inputs: a string that does not parse, the test endpoint, an endpoint
with a trailing slash, and an endpoint of SQS with a port, a query that has a slash, and
a fragment. -/
theorem getQueueName_spec_witness :
    getQueueName "http://aws.test:8x/q" = "http://aws.test:8x/q" ∧
    getQueueName testQueueURL = GoUrl.Base "/123456789012/my-queue" ∧
    getQueueName "http://aws.test/123456789012/my-queue/" = "my-queue" ∧
    getQueueName "https://sqs.us-east-1.amazonaws.com:443/123456789012/my-queue?a=b/c#d/e" =
      "my-queue" :=
  ⟨getQueueName_spec.1 "http://aws.test:8x/q" (by decide),
   getQueueName_spec.2.1 testQueueURL
     { Scheme := "http", Host := "aws.test", Path := "/123456789012/my-queue" } (by decide),
   getQueueName_spec.2.2.1 "http://aws.test/123456789012/my-queue/"
     { Scheme := "http", Host := "aws.test", Path := "/123456789012/my-queue/" }
     "/123456789012/".data "my-queue".data 1 (by decide) (by decide)
     (Or.inr ⟨"/123456789012".data, by decide⟩) (by decide) (by decide),
   getQueueName_spec.2.2.2.1 "https".data "sqs.us-east-1.amazonaws.com".data
     (some "443".data) ["123456789012".data] "my-queue".data 0 (some "a=b/c".data)
     (some "d/e".data) (by decide) (by decide) (by decide) (by decide) (by decide)
     (by decide) (by decide) (by decide) (by decide)⟩

end Otelsqs
